import Mathlib

/-! # GPU-Raycasting: the renderer of `src/renderer.cpp`

A shallow embedding of `Renderer` (ray / sphere intersection, Phong shading with hard
shadows, colour packing, the CPU pixel loop and the GPU dispatch) together with proofs of
the properties the specification states about it.

Modelling conventions:

* `float` is modelled by an arbitrary linearly ordered field `K` with a floor function,
  so every arithmetic operation is exact (rounding, NaN and infinities are not modelled).
  The library functions `glm::sqrt` and `glm::pow` are parameters (`FloatMath`); a theorem
  that needs the square root to be exact at some argument says so with `SqrtExactAt`.
  In a field `x / 0 = 0`; in the intersection test the only division by zero is `0 / 0`
  for a zero direction, where the code computes a NaN, which fails `t > 0` as `0` does.
  The intersection test and `closestHit` are embedded a second time over `F32`, a model of
  binary32 with its rounding, infinities and NaN (namespace `Binary32`), to evaluate them at
  inputs where rounding decides the outcome.
* The parallel arrays of `Scene` are total functions on `Nat` with explicit counts; an
  `int` used as an array subscript is read through `Int.toNat`.
* `HitPayload payload;` declares an uninitialised local: its indeterminate contents are
  the explicit argument `u` of the functions that build a payload.
* Constants that live in headers outside `src/` (`skyColor`, `kAmbient`, ...) are fields
  of `Renderer`.
-/

namespace Raycast

/-! ## Vectors (`glm::vec3`, `glm::vec4`) -/

/-- A `glm::vec3`. -/
@[ext] structure Vec3 (K : Type) where
  x : K
  y : K
  z : K

/-- A `glm::vec4` used as a colour. -/
@[ext] structure Vec4 (K : Type) where
  r : K
  g : K
  b : K
  a : K

section VecOps
variable {K : Type} [LinearOrderedField K]

/-- The operation `u + v` on `glm::vec3`. -/
def Vec3.add (u v : Vec3 K) : Vec3 K := ⟨u.x + v.x, u.y + v.y, u.z + v.z⟩

/-- The operation `u - v` on `glm::vec3`. -/
def Vec3.sub (u v : Vec3 K) : Vec3 K := ⟨u.x - v.x, u.y - v.y, u.z - v.z⟩

/-- The operation `-v` on `glm::vec3`. -/
def Vec3.neg (v : Vec3 K) : Vec3 K := ⟨-v.x, -v.y, -v.z⟩

/-- The operation `u * v` on `glm::vec3` (component-wise product). -/
def Vec3.mul (u v : Vec3 K) : Vec3 K := ⟨u.x * v.x, u.y * v.y, u.z * v.z⟩

/-- The operation `v * s` and `s * v` for a scalar `s`. -/
def Vec3.scale (v : Vec3 K) (s : K) : Vec3 K := ⟨v.x * s, v.y * s, v.z * s⟩

/-- The operation `glm::dot`. -/
def Vec3.dot (u v : Vec3 K) : K := u.x * v.x + u.y * v.y + u.z * v.z

/-- The operation `glm::vec4(v, w)`. -/
def Vec4.ofVec3 (v : Vec3 K) (w : K) : Vec4 K := ⟨v.x, v.y, v.z, w⟩

/-- The operation `c + d` on `glm::vec4`. -/
def Vec4.add (c d : Vec4 K) : Vec4 K := ⟨c.r + d.r, c.g + d.g, c.b + d.b, c.a + d.a⟩

/-- The first three components of a `glm::vec4`. -/
def Vec4.rgb (c : Vec4 K) : Vec3 K := ⟨c.r, c.g, c.b⟩

/-- The operation `glm::max(a, b)` on scalars: `(a < b) ? b : a`. -/
def glmMax (a b : K) : K := if a < b then b else a

/-- The operation `glm::min(a, b)` on scalars: `(b < a) ? b : a`. -/
def glmMin (a b : K) : K := if b < a then b else a

/-- The operation `glm::clamp(x, lo, hi)` on scalars: `min(max(x, lo), hi)`. -/
def glmClamp (x lo hi : K) : K := glmMin (glmMax x lo) hi

/-- The operation `glm::clamp(c, lo, hi)` on `glm::vec4`, component-wise. -/
def Vec4.clamp (c : Vec4 K) (lo hi : K) : Vec4 K :=
  ⟨glmClamp c.r lo hi, glmClamp c.g lo hi, glmClamp c.b lo hi, glmClamp c.a lo hi⟩

/-- The operation `glm::clamp(v, lo, hi)` on `glm::vec3`, component-wise. -/
def Vec3.clamp (v : Vec3 K) (lo hi : K) : Vec3 K :=
  ⟨glmClamp v.x lo hi, glmClamp v.y lo hi, glmClamp v.z lo hi⟩

/-- The operation `glm::reflect(I, N) = I - N * dot(N, I) * 2`. -/
def glmReflect (I N : Vec3 K) : Vec3 K := I.sub ((N.scale (N.dot I)).scale 2)

end VecOps

/-! ## Floating-point library functions -/

/-- The two transcendental library functions the renderer calls. -/
structure FloatMath (K : Type) where
  /-- The function `glm::sqrt`. -/
  sqrt : K → K
  /-- The function `glm::pow`. -/
  pow : K → K → K

section Model
variable {K : Type} [LinearOrderedField K]

/-- The square root computed by `M` is exact at `x`: it is the non-negative root. -/
def SqrtExactAt (M : FloatMath K) (x : K) : Prop := 0 ≤ M.sqrt x ∧ M.sqrt x * M.sqrt x = x

/-- The operation `glm::length(v) = sqrt(dot(v, v))`. -/
def glmLength (M : FloatMath K) (v : Vec3 K) : K := M.sqrt (v.dot v)

/-- The operation `glm::normalize(v) = v * inversesqrt(dot(v, v))`, with `inversesqrt(x) = 1 / sqrt(x)`. -/
def glmNormalize (M : FloatMath K) (v : Vec3 K) : Vec3 K := v.scale (1 / M.sqrt (v.dot v))

/-- The constant `FLT_MAX` of `<cfloat>`: `(2 - 2^-23) * 2^127`. -/
def FLT_MAX : K := 340282346638528859811704183484516925440

/-! ## Data model -/

/-- The scene: parallel arrays of spheres and of lights, each with its count. -/
structure Scene (K : Type) where
  sphereCount : Nat
  spherePositions : Nat → Vec3 K
  sphereRadii : Nat → K
  sphereAlbedos : Nat → Vec3 K
  lightCount : Nat
  lightPositions : Nat → Vec3 K
  lightColors : Nat → Vec3 K

/-- A ray. -/
structure Ray (K : Type) where
  origin : Vec3 K
  direction : Vec3 K

/-- The result of an intersection query (`Renderer::HitPayload`). -/
@[ext] structure HitPayload (K : Type) where
  hitDistance : K
  objectIndex : Int
  hitPoint : Vec3 K
  normal : Vec3 K

/-- The part of `Camera` the renderer reads. -/
structure Camera (K : Type) where
  position : Vec3 K
  rayDirections : Nat → Vec3 K

/-- Modelled from the spec: `Camera::getRayOrigin` is not among the sources; section 4.1
says that `rayOrigin()` returns the eye position, all primary rays sharing one origin. -/
def Camera.getRayOrigin (cam : Camera K) : Vec3 K := cam.position

/-- The state of `Renderer` that the CPU path reads, with the shading constants. -/
structure Renderer (K : Type) where
  width : Nat
  height : Nat
  scene : Scene K
  camera : Camera K
  skyColor : Vec3 K
  ambientColor : Vec3 K
  kAmbient : K
  kDiffuse : K
  kSpecular : K
  kShininess : K

/-! ## Intersection (`traceRayFromPixel`, `traceRayFromHitpoint`) -/

/-- Method `Renderer::miss`: only `hitDistance` is assigned. -/
def miss (u : HitPayload K) (_ray : Ray K) : HitPayload K :=
  { u with hitDistance := -1 }

/-- Method `Renderer::lightHit`: `hitDistance` and `objectIndex` are assigned. -/
def lightHit (u : HitPayload K) (_ray : Ray K) (lightIndex : Int) : HitPayload K :=
  { u with hitDistance := 0, objectIndex := lightIndex }

/-- Method `Renderer::closestHit`. -/
def closestHit (M : FloatMath K) (R : Renderer K) (_u : HitPayload K) (ray : Ray K)
    (sphereIndex : Int) (hitDistance : K) : HitPayload K :=
  let sphereCenter := R.scene.spherePositions sphereIndex.toNat
  let hitPoint := ray.origin.add (ray.direction.scale hitDistance)
  { hitDistance := hitDistance
    objectIndex := sphereIndex
    hitPoint := hitPoint
    normal := glmNormalize M (hitPoint.sub sphereCenter) }

/-- The local variables of `traceRayFromPixel` that its two loops update. -/
structure PixelScan (K : Type) where
  hitSphereIndex : Int
  hitLightIndex : Int
  hitDistance : K

/-- The body of the sphere loop of `traceRayFromPixel`, at index `k`. -/
def pixelSphereStep (M : FloatMath K) (R : Renderer K) (ray : Ray K)
    (s : PixelScan K) (k : Nat) : PixelScan K :=
  let origin := ray.origin.sub (R.scene.spherePositions k)
  let direction := ray.direction
  let radius := R.scene.sphereRadii k
  let a := direction.dot direction
  let b := 2 * origin.dot direction
  let c := origin.dot origin - radius * radius
  let delta := b * b - 4 * a * c
  if delta < 0 then s
  else
    let t := (-b - M.sqrt delta) / (2 * a)
    if 0 < t ∧ t < s.hitDistance then
      { s with hitDistance := t, hitSphereIndex := (k : Int) }
    else s

/-- The body of the light loop of `traceRayFromPixel`, at index `k`. -/
def pixelLightStep (M : FloatMath K) (R : Renderer K) (ray : Ray K)
    (s : PixelScan K) (k : Nat) : PixelScan K :=
  let origin := ray.origin.sub (R.scene.lightPositions k)
  let direction := ray.direction
  let a := direction.dot direction
  let b := 2 * origin.dot direction
  let c := origin.dot origin - (1 / 10) * (1 / 10)
  let delta := b * b - 4 * a * c
  if delta < 0 then s
  else
    let t := (-b - M.sqrt delta) / (2 * a)
    if 0 < t ∧ t < s.hitDistance then
      { hitDistance := t, hitSphereIndex := -2, hitLightIndex := (k : Int) }
    else s

/-- Method `Renderer::traceRayFromPixel`. -/
def traceRayFromPixel (M : FloatMath K) (R : Renderer K) (u : HitPayload K) (ray : Ray K) :
    HitPayload K :=
  let s0 : PixelScan K := { hitSphereIndex := -1, hitLightIndex := -1, hitDistance := FLT_MAX }
  let s1 := (List.range R.scene.sphereCount).foldl (pixelSphereStep M R ray) s0
  let s2 := (List.range R.scene.lightCount).foldl (pixelLightStep M R ray) s1
  if s2.hitSphereIndex = -1 then miss u ray
  else if s2.hitSphereIndex = -2 then lightHit u ray s2.hitLightIndex
  else closestHit M R u ray s2.hitSphereIndex s2.hitDistance

/-- The local variables of `traceRayFromHitpoint` that its loop updates. -/
structure ShadowScan (K : Type) where
  hitSphereIndex : Int
  hitDistance : K

/-- The body of the loop of `traceRayFromHitpoint`, at index `k`. -/
def shadowSphereStep (M : FloatMath K) (R : Renderer K) (ray : Ray K) (diff : K)
    (s : ShadowScan K) (k : Nat) : ShadowScan K :=
  let origin := ray.origin.sub (R.scene.spherePositions k)
  let direction := ray.direction
  let radius := R.scene.sphereRadii k
  let a := direction.dot direction
  let b := 2 * origin.dot direction
  let c := origin.dot origin - radius * radius
  let delta := b * b - 4 * a * c
  if delta < 0 then s
  else
    let t := (-b - M.sqrt delta) / (2 * a)
    if 0 < t ∧ t < diff ∧ t < s.hitDistance then
      { hitDistance := t, hitSphereIndex := (k : Int) }
    else s

/-- Method `Renderer::traceRayFromHitpoint`. -/
def traceRayFromHitpoint (M : FloatMath K) (R : Renderer K) (u : HitPayload K) (ray : Ray K)
    (diff : K) : HitPayload K :=
  let s0 : ShadowScan K := { hitSphereIndex := -1, hitDistance := FLT_MAX }
  let s1 := (List.range R.scene.sphereCount).foldl (shadowSphereStep M R ray diff) s0
  if s1.hitSphereIndex = -1 then miss u ray
  else closestHit M R u ray s1.hitSphereIndex s1.hitDistance

/-! ## Shading (`phong`, `rayGen`) -/

/-- Method `Renderer::phong`. -/
def phong (M : FloatMath K) (R : Renderer K) (payload : HitPayload K) (lightIndex : Nat) :
    Vec4 K :=
  let lightDir := glmNormalize M ((R.scene.lightPositions lightIndex).sub payload.hitPoint)
  let lightColor := R.scene.lightColors lightIndex
  let cosNL := glmMax 0 (lightDir.dot payload.normal)
  let reflectionVector := glmReflect lightDir.neg payload.normal
  let eyeVector := glmNormalize M (R.camera.position.sub payload.hitPoint)
  let cosVR := glmMax 0 (reflectionVector.dot eyeVector)
  let color := (lightColor.scale (R.kDiffuse * cosNL)).add
    (lightColor.scale (R.kSpecular * M.pow cosVR R.kShininess))
  let color := color.mul (R.scene.sphereAlbedos payload.objectIndex.toNat)
  Vec4.ofVec3 color 1

/-- The primary ray that `rayGen(i, j)` builds. -/
def primaryRay (R : Renderer K) (i j : Nat) : Ray K :=
  { origin := R.camera.getRayOrigin
    direction := R.camera.rayDirections (i * R.width + j) }

/-- The shadow ray that `rayGen` casts from a surface hit toward light `lightIdx`. -/
def rayToLight (M : FloatMath K) (R : Renderer K) (payload : HitPayload K) (lightIdx : Nat) :
    Ray K :=
  { origin := payload.hitPoint.add (payload.normal.scale (1 / 10000))
    direction := glmNormalize M ((R.scene.lightPositions lightIdx).sub payload.hitPoint) }

/-- The body of the light loop of `rayGen`, at index `lightIdx`. -/
def lightLoopStep (M : FloatMath K) (R : Renderer K) (u : HitPayload K)
    (payload : HitPayload K) (color : Vec4 K) (lightIdx : Nat) : Vec4 K :=
  let distanceToLight := glmLength M ((R.scene.lightPositions lightIdx).sub payload.hitPoint)
  let payloadToLight :=
    traceRayFromHitpoint M R u (rayToLight M R payload lightIdx) distanceToLight
  if payloadToLight.hitDistance < 0 then color.add (phong M R payload lightIdx) else color

/-- Method `Renderer::rayGen`. -/
def rayGen (M : FloatMath K) (R : Renderer K) (u : HitPayload K) (i j : Nat) : Vec4 K :=
  let ray := primaryRay R i j
  let payload := traceRayFromPixel M R u ray
  let idx := payload.objectIndex
  if payload.hitDistance < 0 then Vec4.ofVec3 R.skyColor 1
  else if payload.hitDistance = 0 then Vec4.ofVec3 (R.scene.lightColors idx.toNat) 1
  else
    let color := Vec4.ofVec3 ((R.ambientColor.scale R.kAmbient).mul
      (R.scene.sphereAlbedos idx.toNat)) 1
    let color := (List.range R.scene.lightCount).foldl (lightLoopStep M R u payload) color
    color.clamp 0 1

/-! ## The quadratic of the ray / sphere test, named for the statements -/

/-- The discriminant `b * b - 4 * a * c` of the ray / sphere quadratic, with
`a = D.D`, `b = 2 (O - C).D` and `c = (O - C).(O - C) - r * r`. -/
def discriminant (center : Vec3 K) (radius : K) (ray : Ray K) : K :=
  (2 * (ray.origin.sub center).dot ray.direction) * (2 * (ray.origin.sub center).dot ray.direction)
    - 4 * ray.direction.dot ray.direction
      * ((ray.origin.sub center).dot (ray.origin.sub center) - radius * radius)

/-- The near root `(-b - sqrt(delta)) / (2 a)` of the ray / sphere quadratic. -/
def nearRoot (M : FloatMath K) (center : Vec3 K) (radius : K) (ray : Ray K) : K :=
  (-(2 * (ray.origin.sub center).dot ray.direction) - M.sqrt (discriminant center radius ray))
    / (2 * ray.direction.dot ray.direction)

/-- The discriminant of sphere `k` for `ray`. -/
def sphereDelta (R : Renderer K) (ray : Ray K) (k : Nat) : K :=
  discriminant (R.scene.spherePositions k) (R.scene.sphereRadii k) ray

/-- The near root of sphere `k` for `ray`. -/
def sphereT (M : FloatMath K) (R : Renderer K) (ray : Ray K) (k : Nat) : K :=
  nearRoot M (R.scene.spherePositions k) (R.scene.sphereRadii k) ray

/-- The discriminant of light `k`, tested as a sphere of radius `0.1`. -/
def lightDelta (R : Renderer K) (ray : Ray K) (k : Nat) : K :=
  discriminant (R.scene.lightPositions k) (1 / 10) ray

/-- The near root of light `k`, tested as a sphere of radius `0.1`. -/
def lightT (M : FloatMath K) (R : Renderer K) (ray : Ray K) (k : Nat) : K :=
  nearRoot M (R.scene.lightPositions k) (1 / 10) ray

/-- The payload encodes Miss. -/
def IsMiss (p : HitPayload K) : Prop := p.hitDistance < 0

/-- The payload encodes a LightHit on light `k`. -/
def IsLightHit (p : HitPayload K) (k : Nat) : Prop := p.hitDistance = 0 ∧ p.objectIndex = (k : Int)

/-- The payload encodes a SurfaceHit on sphere `k`. -/
def IsSurfaceHit (p : HitPayload K) (k : Nat) : Prop :=
  0 < p.hitDistance ∧ p.objectIndex = (k : Int)

/-! ## A running minimum -/

/-- One step of a running minimum over the candidates `t k` that pass `ok`. -/
def scanStep (ok : Nat → Prop) [DecidablePred ok] (t : Nat → K) (s : K × Option Nat) (k : Nat) :
    K × Option Nat :=
  if ok k ∧ t k < s.1 then (t k, some k) else s

/-- The running minimum over the first `n` candidates, starting from the bound `d0`. -/
def scan (ok : Nat → Prop) [DecidablePred ok] (t : Nat → K) (d0 : K) (n : Nat) :
    K × Option Nat :=
  (List.range n).foldl (scanStep ok t) (d0, none)

/-! ## The loops of the intersection routines as running minima -/

/-- Sphere `k` passes the tests `delta >= 0` and `t > 0` for `ray`. -/
def sphereOk (M : FloatMath K) (R : Renderer K) (ray : Ray K) (k : Nat) : Prop :=
  0 ≤ sphereDelta R ray k ∧ 0 < sphereT M R ray k

/-- Light `k` passes the tests `delta >= 0` and `t > 0` for `ray`. -/
def lightOk (M : FloatMath K) (R : Renderer K) (ray : Ray K) (k : Nat) : Prop :=
  0 ≤ lightDelta R ray k ∧ 0 < lightT M R ray k

/-- Sphere `k` passes the tests `delta >= 0` and `0 < t < diff` for `ray`. -/
def sphereOkBelow (M : FloatMath K) (R : Renderer K) (ray : Ray K) (diff : K) (k : Nat) : Prop :=
  0 ≤ sphereDelta R ray k ∧ 0 < sphereT M R ray k ∧ sphereT M R ray k < diff

instance sphereOk.dec (M : FloatMath K) (R : Renderer K) (ray : Ray K) :
    DecidablePred (sphereOk M R ray) := fun k => by
  unfold sphereOk; infer_instance

instance lightOk.dec (M : FloatMath K) (R : Renderer K) (ray : Ray K) :
    DecidablePred (lightOk M R ray) := fun k => by
  unfold lightOk; infer_instance

instance sphereOkBelow.dec (M : FloatMath K) (R : Renderer K) (ray : Ray K) (diff : K) :
    DecidablePred (sphereOkBelow M R ray diff) := fun k => by
  unfold sphereOkBelow; infer_instance

/-- The state of the sphere loop of `traceRayFromPixel` that a running minimum stands for. -/
def PixelScan.ofScan (s : K × Option Nat) : PixelScan K :=
  match s.2 with
  | none => { hitSphereIndex := -1, hitLightIndex := -1, hitDistance := s.1 }
  | some k => { hitSphereIndex := (k : Int), hitLightIndex := -1, hitDistance := s.1 }

/-- The state of the light loop of `traceRayFromPixel`, entered in state `s1`, that a running
minimum over the lights stands for. -/
def PixelScan.ofLightScan (s1 : PixelScan K) (s : K × Option Nat) : PixelScan K :=
  match s.2 with
  | none => s1
  | some k => { hitSphereIndex := -2, hitLightIndex := (k : Int), hitDistance := s.1 }

/-- The state of the loop of `traceRayFromHitpoint` that a running minimum stands for. -/
def ShadowScan.ofScan (s : K × Option Nat) : ShadowScan K :=
  match s.2 with
  | none => { hitSphereIndex := -1, hitDistance := s.1 }
  | some k => { hitSphereIndex := (k : Int), hitDistance := s.1 }

/-- The running minimum over the spheres that `traceRayFromPixel` computes. -/
def sphereScan (M : FloatMath K) (R : Renderer K) (ray : Ray K) : K × Option Nat :=
  scan (sphereOk M R ray) (sphereT M R ray) FLT_MAX R.scene.sphereCount

/-- The running minimum over the lights that `traceRayFromPixel` computes after the spheres. -/
def lightScan (M : FloatMath K) (R : Renderer K) (ray : Ray K) : K × Option Nat :=
  scan (lightOk M R ray) (lightT M R ray) (sphereScan M R ray).1 R.scene.lightCount

/-- The running minimum over the spheres that `traceRayFromHitpoint` computes. -/
def shadowScan (M : FloatMath K) (R : Renderer K) (ray : Ray K) (diff : K) : K × Option Nat :=
  scan (sphereOkBelow M R ray diff) (sphereT M R ray) FLT_MAX R.scene.sphereCount

/-! ## Statements about acceptance -/

/-- Sphere `k` of the scene is accepted for `ray`: `delta >= 0` and near root `t > 0`. -/
def sphereAccepted (M : FloatMath K) (R : Renderer K) (ray : Ray K) (k : Nat) : Prop :=
  k < R.scene.sphereCount ∧ 0 ≤ sphereDelta R ray k ∧ 0 < sphereT M R ray k

/-- Light `k` of the scene is accepted for `ray`: `delta >= 0` and near root `t > 0`. -/
def lightAccepted (M : FloatMath K) (R : Renderer K) (ray : Ray K) (k : Nat) : Prop :=
  k < R.scene.lightCount ∧ 0 ≤ lightDelta R ray k ∧ 0 < lightT M R ray k

/-- Sphere `k` is accepted for `ray` and its near root is below `bound`. -/
def sphereAcceptedBelow (M : FloatMath K) (R : Renderer K) (ray : Ray K) (bound : K)
    (k : Nat) : Prop :=
  sphereAccepted M R ray k ∧ sphereT M R ray k < bound

/-- Light `k` is accepted for `ray` and its near root is below `bound`. -/
def lightAcceptedBelow (M : FloatMath K) (R : Renderer K) (ray : Ray K) (bound : K)
    (k : Nat) : Prop :=
  lightAccepted M R ray k ∧ lightT M R ray k < bound

/-- The payload `p` is the nearest candidate among the spheres that satisfy `accS` (near
roots `tS`) and the lights that satisfy `accL` (near roots `tL`): Miss iff there is no
candidate; a SurfaceHit on `k`, at distance `tS k`, iff sphere `k` is the lowest-index sphere
attaining the minimum over all candidates; a LightHit on `k` iff light `k` is strictly nearer
than every sphere candidate and is the lowest-index light attaining the minimum. -/
def NearestCandidate (accS accL : Nat → Prop) (tS tL : Nat → K) (p : HitPayload K) : Prop :=
  (IsMiss p ↔ (∀ k, ¬accS k) ∧ ∀ k, ¬accL k) ∧
  (∀ k, IsSurfaceHit p k ↔
    accS k ∧ (∀ j, accS j → tS k ≤ tS j) ∧ (∀ j, accL j → tS k ≤ tL j) ∧
      ∀ j, j < k → accS j → tS k < tS j) ∧
  (∀ k, IsSurfaceHit p k → p.hitDistance = tS k) ∧
  (∀ k, IsLightHit p k ↔
    accL k ∧ (∀ j, accS j → tL k < tS j) ∧ (∀ j, accL j → tL k ≤ tL j) ∧
      ∀ j, j < k → accL j → tL k < tL j)

/-! ## A concrete instance over the rationals -/

/-- A computable square root on the rationals: the integer square roots of the numerator
and of the denominator. It is exact on the square of every non-negative rational. -/
def qsqrt (x : ℚ) : ℚ := (Nat.sqrt x.num.toNat : ℚ) / (Nat.sqrt x.den : ℚ)

/-- A computable power on the rationals, with the exponent truncated to a natural number. -/
def qpow (x y : ℚ) : ℚ := x ^ ⌊y⌋.toNat

/-- The library functions over the rationals. -/
def qMath : FloatMath ℚ := { sqrt := qsqrt, pow := qpow }

/-- A payload with every field zero, standing for an uninitialised local. -/
def zeroPayload : HitPayload ℚ :=
  { hitDistance := 0, objectIndex := 0, hitPoint := ⟨0, 0, 0⟩, normal := ⟨0, 0, 0⟩ }

/-- A renderer over the rationals with the given scene, eye and single ray direction, a
one-pixel viewport and unit shading constants. -/
def mkRenderer (scene : Scene ℚ) (eye direction : Vec3 ℚ) : Renderer ℚ :=
  { width := 1
    height := 1
    scene := scene
    camera := { position := eye, rayDirections := fun _ => direction }
    skyColor := ⟨1 / 2, 1 / 2, 1 / 2⟩
    ambientColor := ⟨1, 1, 1⟩
    kAmbient := 1 / 5
    kDiffuse := 1 / 2
    kSpecular := 1 / 2
    kShininess := 2 }

/-- One far and large sphere: centre `(0, 0, -3 * 2^62)`, radius `2^62`; no light. -/
def farScene : Scene ℚ :=
  { sphereCount := 1
    spherePositions := fun _ => ⟨0, 0, -(3 * 2 ^ 62)⟩
    sphereRadii := fun _ => 2 ^ 62
    sphereAlbedos := fun _ => ⟨1, 1, 1⟩
    lightCount := 0
    lightPositions := fun _ => ⟨0, 0, 0⟩
    lightColors := fun _ => ⟨1, 1, 1⟩ }

/-- The far scene seen from the origin along a very short direction `(0, 0, -2^-65)`. -/
def farRenderer : Renderer ℚ := mkRenderer farScene ⟨0, 0, 0⟩ ⟨0, 0, -(1 / 2 ^ 65)⟩

/-- The ray from the origin with direction `(0, 0, -2^-65)`. -/
def farRay : Ray ℚ := { origin := ⟨0, 0, 0⟩, direction := ⟨0, 0, -(1 / 2 ^ 65)⟩ }

/-- One sphere of radius `2^58` centred at `(0, 0, -2^63)`; no light. -/
def edgeScene : Scene ℚ :=
  { sphereCount := 1
    spherePositions := fun _ => ⟨0, 0, -(2 ^ 63)⟩
    sphereRadii := fun _ => 2 ^ 58
    sphereAlbedos := fun _ => ⟨1, 1, 1⟩
    lightCount := 0
    lightPositions := fun _ => ⟨0, 0, 0⟩
    lightColors := fun _ => ⟨1, 1, 1⟩ }

/-- The edge scene seen from the origin along the direction `(0, 0, -1015807 * 2^-85)`. -/
def edgeRenderer : Renderer ℚ := mkRenderer edgeScene ⟨0, 0, 0⟩ ⟨0, 0, -(1015807 / 2 ^ 85)⟩

/-- The ray from the origin with direction `(0, 0, -1015807 * 2^-85)`. -/
def edgeRay : Ray ℚ := { origin := ⟨0, 0, 0⟩, direction := ⟨0, 0, -(1015807 / 2 ^ 85)⟩ }

/-- The renderer with its lights replaced by the given count, positions and colours. -/
def Renderer.setLights (R : Renderer K) (n : Nat) (pos col : Nat → Vec3 K) : Renderer K :=
  { R with scene := { R.scene with lightCount := n, lightPositions := pos, lightColors := col } }

/-- A bound above every representable distance: `2^129 > FLT_MAX`. -/
def hugeBound : ℚ := 2 ^ 129

/-- The payload is in one of the three states of the encoding, with a valid index: Miss
(`hitDistance < 0`), LightHit (`hitDistance = 0`, index of a light) or SurfaceHit
(`hitDistance > 0`, index of a sphere). The sign of `hitDistance` makes them disjoint. -/
def WellFormedPayload (R : Renderer K) (p : HitPayload K) : Prop :=
  p.hitDistance < 0 ∨
  (p.hitDistance = 0 ∧ 0 ≤ p.objectIndex ∧ p.objectIndex < (R.scene.lightCount : Int)) ∨
  (0 < p.hitDistance ∧ 0 ≤ p.objectIndex ∧ p.objectIndex < (R.scene.sphereCount : Int))

/-- The payload is a Miss or a SurfaceHit with a valid sphere index. -/
def WellFormedShadowPayload (R : Renderer K) (p : HitPayload K) : Prop :=
  p.hitDistance < 0 ∨
  (0 < p.hitDistance ∧ 0 ≤ p.objectIndex ∧ p.objectIndex < (R.scene.sphereCount : Int))

/-- The worked example of the specification: one sphere at the origin with radius 1 and
albedo `(1, 1, 1)`, one light at `(0, 3, 0)`. -/
def exampleScene : Scene ℚ :=
  { sphereCount := 1
    spherePositions := fun _ => ⟨0, 0, 0⟩
    sphereRadii := fun _ => 1
    sphereAlbedos := fun _ => ⟨1, 1, 1⟩
    lightCount := 1
    lightPositions := fun _ => ⟨0, 3, 0⟩
    lightColors := fun _ => ⟨1, 1, 1⟩ }

/-- The worked example seen from `(0, 0, 5)` along `(0, 0, -1)`. -/
def exampleRenderer : Renderer ℚ := mkRenderer exampleScene ⟨0, 0, 5⟩ ⟨0, 0, -1⟩

/-- The image-centre ray of the worked example. -/
def exampleRay : Ray ℚ := { origin := ⟨0, 0, 5⟩, direction := ⟨0, 0, -1⟩ }

/-- The worked example seen from `(0, 0, 5)` looking away from the sphere, along `(0, 0, 1)`. -/
def awayRenderer : Renderer ℚ := mkRenderer exampleScene ⟨0, 0, 5⟩ ⟨0, 0, 1⟩

/-- The sphere of the worked example with a light of colour `(3, 2, 1)` at `(0, 0, 2)`,
between the eye and the sphere. -/
def glowScene : Scene ℚ :=
  { sphereCount := 1
    spherePositions := fun _ => ⟨0, 0, 0⟩
    sphereRadii := fun _ => 1
    sphereAlbedos := fun _ => ⟨1, 1, 1⟩
    lightCount := 1
    lightPositions := fun _ => ⟨0, 0, 2⟩
    lightColors := fun _ => ⟨3, 2, 1⟩ }

/-- The glow scene seen from `(0, 0, 5)` along `(0, 0, -1)`. -/
def glowRenderer : Renderer ℚ := mkRenderer glowScene ⟨0, 0, 5⟩ ⟨0, 0, -1⟩

/-! ## The shading formula of the specification -/

/-- The shadow ray cast from the point `P` with normal `N` toward light `l` is reported Miss:
origin `P + 1e-4 * N`, direction `normalize(lightPos_l - P)`, bound `|lightPos_l - P|`. -/
def Unshadowed (M : FloatMath K) (R : Renderer K) (u : HitPayload K) (P N : Vec3 K)
    (l : Nat) : Prop :=
  IsMiss (traceRayFromHitpoint M R u
    { origin := P.add (N.scale (1 / 10000))
      direction := glmNormalize M ((R.scene.lightPositions l).sub P) }
    (glmLength M ((R.scene.lightPositions l).sub P)))

instance Unshadowed.dec (M : FloatMath K) (R : Renderer K) (u : HitPayload K) (P N : Vec3 K) :
    DecidablePred (Unshadowed M R u P N) := fun l => by
  unfold Unshadowed IsMiss; infer_instance

/-- The Phong term of light `l` at the point `P` with normal `N` of sphere `s`:
`albedo_s * (kDiffuse * max(0, N.L) * lightColor_l + kSpecular * max(0, R.V)^kShininess *
lightColor_l)` with `L = normalize(lightPos_l - P)`, `R = 2 (N.L) N - L` and
`V = normalize(cameraPosition - P)`. -/
def phongTerm (M : FloatMath K) (R : Renderer K) (s : Nat) (P N : Vec3 K) (l : Nat) : Vec3 K :=
  let L := glmNormalize M ((R.scene.lightPositions l).sub P)
  let Rv := (N.scale (2 * N.dot L)).sub L
  let V := glmNormalize M (R.camera.position.sub P)
  (R.scene.sphereAlbedos s).mul
    (((R.scene.lightColors l).scale (R.kDiffuse * max 0 (N.dot L))).add
      ((R.scene.lightColors l).scale (R.kSpecular * M.pow (max 0 (Rv.dot V)) R.kShininess)))

/-- Clamp to `[0, 1]`. -/
def clamp01 (x : K) : K := max 0 (min x 1)

/-- The colour of the specification for a surface point `P` with normal `N` of sphere `s`:
the ambient term plus the Phong terms of the unshadowed lights, clamped per channel. -/
def shadedColor (M : FloatMath K) (R : Renderer K) (u : HitPayload K) (s : Nat)
    (P N : Vec3 K) : Vec3 K :=
  let ambient := (R.ambientColor.scale R.kAmbient).mul (R.scene.sphereAlbedos s)
  let lit := (Finset.range R.scene.lightCount).filter (Unshadowed M R u P N)
  { x := clamp01 (ambient.x + Finset.sum lit (fun l => (phongTerm M R s P N l).x))
    y := clamp01 (ambient.y + Finset.sum lit (fun l => (phongTerm M R s P N l).y))
    z := clamp01 (ambient.z + Finset.sum lit (fun l => (phongTerm M R s P N l).z)) }

/-- The index in the original light arrays of the light that has index `i` once light `l` is
removed. -/
def skipIndex (l i : Nat) : Nat := if i < l then i else i + 1

/-- The same renderer with light `l` removed from the scene. -/
def Renderer.removeLight (R : Renderer K) (l : Nat) : Renderer K :=
  R.setLights (R.scene.lightCount - 1)
    (fun i => R.scene.lightPositions (skipIndex l i))
    (fun i => R.scene.lightColors (skipIndex l i))

/-- The sphere of the worked example, a second unit sphere centred at `(0, 0, 7)` behind the
eye, and one light at `(0, 0, 9)` behind that second sphere. -/
def eclipseScene : Scene ℚ :=
  { sphereCount := 2
    spherePositions := fun k => if k = 0 then ⟨0, 0, 0⟩ else ⟨0, 0, 7⟩
    sphereRadii := fun _ => 1
    sphereAlbedos := fun _ => ⟨1, 1, 1⟩
    lightCount := 1
    lightPositions := fun _ => ⟨0, 0, 9⟩
    lightColors := fun _ => ⟨1, 1, 1⟩ }

/-- The eclipse scene seen from `(0, 0, 5)` along `(0, 0, -1)`. -/
def eclipseRenderer : Renderer ℚ := mkRenderer eclipseScene ⟨0, 0, 5⟩ ⟨0, 0, -1⟩

/-- The payload of the image-centre ray of the eclipse scene: sphere 0 hit at distance 4, at
the point `(0, 0, 1)` with normal `(0, 0, 1)`. -/
def eclipsePayload : HitPayload ℚ :=
  { hitDistance := 4, objectIndex := 0, hitPoint := ⟨0, 0, 1⟩, normal := ⟨0, 0, 1⟩ }

/-- The shadow ray of the eclipse scene from the hit point `(0, 0, 1)` toward the light. -/
def eclipseShadowRay : Ray ℚ := { origin := ⟨0, 0, 10001 / 10000⟩, direction := ⟨0, 0, 1⟩ }

/-! ## Packing (`toRGBA`) and the CPU pixel loop (`render`) -/

/-- The conversion of a `float` to `unsigned char`: the value is truncated toward zero; the
result is kept modulo 256 (the conversion is undefined outside `[0, 255]`). -/
def toUChar [FloorRing K] (x : K) : Nat :=
  ((if 0 ≤ x then ⌊x⌋ else ⌈x⌉) % 256).toNat

/-- Method `Renderer::toRGBA`: `(r << 24) | (g << 16) | (b << 8) | a` as a 32-bit word. -/
def toRGBA [FloorRing K] (color : Vec4 K) : Nat :=
  let r := toUChar (color.r * 255)
  let g := toUChar (color.g * 255)
  let b := toUChar (color.b * 255)
  let a := toUChar (color.a * 255)
  ((r <<< 24) ||| (g <<< 16) ||| (b <<< 8) ||| a) % 2 ^ 32

/-- The subscript `i * width + j` of `imageData`, computed in 32-bit unsigned arithmetic. -/
def pixelIndex (R : Renderer K) (i j : Nat) : Nat := (i * R.width + j) % 2 ^ 32

/-- One store `imageData[index] = value`. -/
def applyWrite (buf : List Nat) (w : Nat × Nat) : List Nat := buf.set w.1 w.2

/-- The stores of a list of writes, executed in the order of the list. -/
def applyWrites (buf : List Nat) (ws : List (Nat × Nat)) : List Nat := ws.foldl applyWrite buf

/-- The stores `imageData[i * width + j] = toRGBA(rayGen(i, j))` of the CPU path of `render`,
for every row `i < height` and every column `j < width`, listed row by row. -/
def renderWrites [FloorRing K] (M : FloatMath K) (R : Renderer K) (u : HitPayload K) :
    List (Nat × Nat) :=
  (List.range R.height).flatMap fun i =>
    (List.range R.width).map fun j => (pixelIndex R i j, toRGBA (rayGen M R u i j))

/-- The CPU path of `Renderer::render`, with the stores executed in row-major order. -/
def renderCPU [FloorRing K] (M : FloatMath K) (R : Renderer K) (u : HitPayload K)
    (imageData : List Nat) : List Nat :=
  applyWrites imageData (renderWrites M R u)

/-- The image the specification expects: entry `i * width + j` holds `toRGBA(rayGen(i, j))`. -/
def expectedImage [FloorRing K] (M : FloatMath K) (R : Renderer K) (u : HitPayload K) :
    List Nat :=
  (List.range (R.width * R.height)).map fun idx =>
    toRGBA (rayGen M R u (idx / R.width) (idx % R.width))

/-- A ray that starts inside the sphere of the worked example, at `(0, 0, 1/2)`. -/
def insideRay : Ray ℚ := { origin := ⟨0, 0, 1 / 2⟩, direction := ⟨0, 0, -1⟩ }

/-- The worked example seen from the centre of its sphere with a zero ray direction. -/
def stillRenderer : Renderer ℚ := mkRenderer exampleScene ⟨0, 0, 0⟩ ⟨0, 0, 0⟩

/-- All four channels of the colour lie in `[0, 1]`: the precondition of `toRGBA`. -/
def InUnitRange (c : Vec4 K) : Prop :=
  (0 ≤ c.r ∧ c.r ≤ 1) ∧ (0 ≤ c.g ∧ c.g ≤ 1) ∧ (0 ≤ c.b ∧ c.b ≤ 1) ∧ (0 ≤ c.a ∧ c.a ≤ 1)

/-! ## The GPU dispatch of `render` -/

/-- A value stored in a 32-bit `int`, with two's-complement wrap-around. -/
def toInt32 (x : Int) : Int := (x + 2 ^ 31) % 2 ^ 32 - 2 ^ 31

/-- The `blocks_per_grid` of `Renderer::render`:
`(width * height + max_threads - 1) / max_threads` in `int` arithmetic, `max_threads = 1024`. -/
def blocksPerGrid (width height : Int) : Int :=
  Int.tdiv (toInt32 (toInt32 (toInt32 (width * height) + 1024) - 1)) 1024

/-- The worked example without its light. -/
def loneRenderer : Renderer ℚ :=
  exampleRenderer.setLights 0 (fun _ => ⟨0, 0, 0⟩) (fun _ => ⟨0, 0, 0⟩)

/-! ## The worked example of the specification, over any field -/

/-- The square root computed by `M` is exact at every non-negative argument. -/
def ExactSqrt (M : FloatMath K) : Prop := ∀ x, 0 ≤ x → SqrtExactAt M x

/-- The scene of the worked example: one sphere at the origin with radius 1 and albedo
`(1, 1, 1)`, one light at `(0, 3, 0)`. -/
def workedScene : Scene K :=
  { sphereCount := 1
    spherePositions := fun _ => ⟨0, 0, 0⟩
    sphereRadii := fun _ => 1
    sphereAlbedos := fun _ => ⟨1, 1, 1⟩
    lightCount := 1
    lightPositions := fun _ => ⟨0, 3, 0⟩
    lightColors := fun _ => ⟨1, 1, 1⟩ }

/-- The worked example seen from `(0, 0, 5)` looking at the origin, with a one-pixel viewport
whose ray direction is `(0, 0, -1)`, and sample shading constants. -/
def workedRenderer : Renderer K :=
  { width := 1
    height := 1
    scene := workedScene
    camera := { position := ⟨0, 0, 5⟩, rayDirections := fun _ => ⟨0, 0, -1⟩ }
    skyColor := ⟨1 / 2, 1 / 2, 1 / 2⟩
    ambientColor := ⟨1, 1, 1⟩
    kAmbient := 1 / 5
    kDiffuse := 1 / 2
    kSpecular := 1 / 2
    kShininess := 2 }

/-- The payload the worked example states for the image-centre ray: sphere 0 at distance 4,
hit point `(0, 0, 1)`, normal `(0, 0, 1)`. -/
def workedPayload : HitPayload K :=
  { hitDistance := 4, objectIndex := 0, hitPoint := ⟨0, 0, 1⟩, normal := ⟨0, 0, 1⟩ }

/-- The shadow ray of the worked example: origin `(0, 0, 1) + 1e-4 * (0, 0, 1)`, direction
`(0, 3, -1) / sqrt(10)`. -/
def workedShadowRay (M : FloatMath K) : Ray K :=
  { origin := ⟨0, 0, 10001 / 10000⟩
    direction := (⟨0, 3, -1⟩ : Vec3 K).scale (1 / M.sqrt 10) }

/-- Modelled from the spec: the kernel that `callKernels` launches is not among the sources.
Section 4.4 says that the `width * height` pixels are partitioned into fixed-size blocks
dispatched as a grid and that each unit of work computes exactly one pixel with the same math
as the CPU path, on a copy of the scene and camera. So thread `t` of the grid of
`blocks * threads` threads, when `t < pixelsCount`, stores `toRGBA(rayGen(t / width, t % width))`
at entry `t` of the device buffer, and the surplus threads store nothing. -/
def kernelWrites [FloorRing K] (M : FloatMath K) (R : Renderer K) (u : HitPayload K)
    (blocks threads pixelsCount width : Nat) : List (Nat × Nat) :=
  (List.range (blocks * threads)).filterMap fun t =>
    if t < pixelsCount then some (t, toRGBA (rayGen M R u (t / width) (t % width))) else none

/-- The device-to-host copy `cudaMemcpy(imageData, cudaImage, size, ...)`: the first `size`
bytes, that is `size / 4` entries, of the host buffer are replaced by the device's. A negative
`size` is no valid byte count (converted to `size_t` it exceeds every buffer): the call fails
and nothing is copied. -/
def copyToHost (imageData cudaImage : List Nat) (size : Int) : List Nat :=
  cudaImage.take (size / 4).toNat ++ imageData.drop (size / 4).toNat

/-- The GPU path of `Renderer::render` for a given order `ws` of the stores of the kernel:
the kernel fills the device buffer, which is then copied to the host. -/
def renderGPUWith (R : Renderer K) (ws : List (Nat × Nat)) (cudaImage imageData : List Nat) :
    List Nat :=
  let pixelsCount := toInt32 ((R.width : Int) * R.height)
  let size := toInt32 (pixelsCount * 4)
  copyToHost imageData (applyWrites cudaImage ws) size

/-- The GPU path of `Renderer::render`, the threads of the grid taken in index order. -/
def renderGPU [FloorRing K] (M : FloatMath K) (R : Renderer K) (u : HitPayload K)
    (cudaImage imageData : List Nat) : List Nat :=
  let blocks_per_grid := blocksPerGrid R.width R.height
  let pixelsCount := toInt32 ((R.width : Int) * R.height)
  renderGPUWith R
    (kernelWrites M R u blocks_per_grid.toNat 1024 pixelsCount.toNat R.width)
    cudaImage imageData

/-! ## A lit viewport of two rows and three columns -/

/-- The unit sphere at the origin with albedo `(1, 1, 1)` and one light of colour
`(1/2, 1/4, 1/8)` at `(0, 0, 9)`. -/
def litScene : Scene ℚ :=
  { sphereCount := 1
    spherePositions := fun _ => ⟨0, 0, 0⟩
    sphereRadii := fun _ => 1
    sphereAlbedos := fun _ => ⟨1, 1, 1⟩
    lightCount := 1
    lightPositions := fun _ => ⟨0, 0, 9⟩
    lightColors := fun _ => ⟨1 / 2, 1 / 4, 1 / 8⟩ }

/-- The lit scene seen from `(0, 0, 5)`, between the sphere and the light, through a viewport
of 2 rows and 3 columns: the pixel of row 1 and column 1 (index 4) looks at the sphere, along
`(0, 0, -1)`, and the other five pixels look at the light, along `(0, 0, 1)`. -/
def litRenderer : Renderer ℚ :=
  { width := 3
    height := 2
    scene := litScene
    camera :=
      { position := ⟨0, 0, 5⟩
        rayDirections := fun idx => if idx = 4 then ⟨0, 0, -1⟩ else ⟨0, 0, 1⟩ }
    skyColor := ⟨1 / 2, 1 / 2, 1 / 2⟩
    ambientColor := ⟨1, 1, 1⟩
    kAmbient := 1 / 5
    kDiffuse := 1 / 2
    kSpecular := 1 / 2
    kShininess := 2 }

/-- The ray from `(0, 0, 5)` along `(0, 0, 1)`. -/
def awayRay : Ray ℚ := { origin := ⟨0, 0, 5⟩, direction := ⟨0, 0, 1⟩ }

/-! ## A viewport whose byte size overflows `int` -/

/-- The lit scene through a viewport of 32768 columns and 16384 rows, `2^29` pixels, every
pixel looking at the light, along `(0, 0, 1)`. -/
def hugeViewport : Renderer ℚ :=
  { width := 32768
    height := 16384
    scene := litScene
    camera := { position := ⟨0, 0, 5⟩, rayDirections := fun _ => ⟨0, 0, 1⟩ }
    skyColor := ⟨1 / 2, 1 / 2, 1 / 2⟩
    ambientColor := ⟨1, 1, 1⟩
    kAmbient := 1 / 5
    kDiffuse := 1 / 2
    kSpecular := 1 / 2
    kShininess := 2 }

/-- A zeroed buffer of `2^29` entries. -/
def zeroBuffer : List Nat := List.replicate (32768 * 16384) 0

/-! ## Binary32 arithmetic

The intersection test is also embedded with the rounding of the `float` type, to evaluate it
at inputs where rounding decides the outcome. -/

/-- A value of the type `float` (IEEE 754 binary32): the finite number `m * 2^e` with
`|m| < 2^24` and `-149 ≤ e ≤ 104` (and `2^23 ≤ |m|` unless `e = -149`), an infinity, or a NaN.
Zero carries no sign. -/
inductive F32 where
  | finite (m : Int) (e : Int) : F32
  | infinite (negative : Bool) : F32
  | nan : F32
  deriving DecidableEq

namespace F32

/-- The number of binary digits of `n`, by repeated halving. -/
def bitLengthAux : Nat → Nat → Nat
  | 0, _ => 0
  | fuel + 1, n => if n = 0 then 0 else bitLengthAux fuel (n / 2) + 1

/-- The number of binary digits of `n`. -/
def bitLength (n : Nat) : Nat := bitLengthAux n n

/-- Rounding of the exact number `m * 2^e` to the nearest binary32 value, ties to the even
mantissa: the result has 24 significant bits, fewer below `2^-126` (gradual underflow), and
is an infinity from `2^128 - 2^103` on. -/
def round (m e : Int) : F32 :=
  if m = 0 then finite 0 (-149)
  else
    let n := m.natAbs
    let e1 : Int := max (e + (bitLength n : Nat) - 24) (-149)
    let d := (e1 - e).toNat
    let q0 := if e1 ≤ e then n <<< (e - e1).toNat else n >>> d
    let r := if e1 ≤ e then 0 else n % 2 ^ d
    let half := if e1 ≤ e then 1 else 2 ^ (d - 1)
    let q := if half < r ∨ (r = half ∧ q0 % 2 = 1) then q0 + 1 else q0
    let q1 := if q = 2 ^ 24 then 2 ^ 23 else q
    let e2 := if q = 2 ^ 24 then e1 + 1 else e1
    if 104 < e2 then infinite (decide (m < 0))
    else finite (if m < 0 then -(q1 : Int) else q1) e2

/-- The binary32 value of an integer literal. -/
def ofInt (n : Int) : F32 := round n 0

/-- Unary minus. -/
def neg : F32 → F32
  | finite m e => finite (-m) e
  | infinite s => infinite (!s)
  | nan => nan

/-- The operator `+` of `float`: the exact sum, rounded. -/
def add : F32 → F32 → F32
  | finite m1 e1, finite m2 e2 =>
    round (m1 * 2 ^ (e1 - min e1 e2).toNat + m2 * 2 ^ (e2 - min e1 e2).toNat) (min e1 e2)
  | finite _ _, infinite s => infinite s
  | infinite s, finite _ _ => infinite s
  | infinite s1, infinite s2 => if s1 = s2 then infinite s1 else nan
  | _, _ => nan

/-- The operator `-` of `float`. -/
def sub (a b : F32) : F32 := add a (neg b)

/-- The operator `*` of `float`: the exact product, rounded. -/
def mul : F32 → F32 → F32
  | finite m1 e1, finite m2 e2 => round (m1 * m2) (e1 + e2)
  | finite m _, infinite s => if m = 0 then nan else infinite (xor (decide (m < 0)) s)
  | infinite s, finite m _ => if m = 0 then nan else infinite (xor s (decide (m < 0)))
  | infinite s1, infinite s2 => infinite (xor s1 s2)
  | _, _ => nan

/-- The operator `/` of `float`: the exact quotient, rounded. The quotient is computed to 64
more bits than the dividend and a sticky bit records a non-zero remainder. `0 / 0` is a NaN
and `x / 0` an infinity with the sign of `x`. -/
def div : F32 → F32 → F32
  | finite m1 e1, finite m2 e2 =>
    if m2 = 0 then (if m1 = 0 then nan else infinite (decide (m1 < 0)))
    else
      let n := m1.natAbs <<< 64
      let q := n / m2.natAbs
      let sticky := if n % m2.natAbs = 0 then 0 else 1
      let v : Int := ((2 * q + sticky : Nat) : Int)
      round (if xor (decide (m1 < 0)) (decide (m2 < 0)) then -v else v) (e1 - e2 - 65)
  | finite _ _, infinite _ => finite 0 (-149)
  | infinite s, finite m _ => infinite (xor s (decide (m < 0)))
  | _, _ => nan

/-- The integer square root, bit by bit from the top. -/
def isqrtAux : Nat → Nat → Nat → Nat
  | 0, r, _ => r
  | i + 1, r, n => isqrtAux i (if (r + 2 ^ i) * (r + 2 ^ i) ≤ n then r + 2 ^ i else r) n

/-- The integer square root: the largest `r` with `r * r ≤ n`. -/
def isqrt (n : Nat) : Nat := isqrtAux (bitLength n / 2 + 1) 0 n

/-- The function `glm::sqrt` (`std::sqrt`) on `float`: the exact root, rounded. The root is
computed from the mantissa scaled by an even power of two, with a sticky bit for an inexact
root. The root of a negative number is a NaN. -/
def sqrt : F32 → F32
  | finite m e =>
    if m < 0 then nan
    else
      let k : Int := 64 + e % 2
      let n := m.toNat <<< k.toNat
      let r := isqrt n
      let sticky := if r * r = n then 0 else 1
      round ((2 * r + sticky : Nat) : Int) ((e - k) / 2 - 1)
  | infinite s => if s then nan else infinite false
  | nan => nan

/-- The operator `<` of `float`; every comparison with a NaN is false. -/
def lt : F32 → F32 → Bool
  | finite m1 e1, finite m2 e2 =>
    decide (m1 * 2 ^ (e1 - min e1 e2).toNat < m2 * 2 ^ (e2 - min e1 e2).toNat)
  | finite _ _, infinite s => !s
  | infinite s, finite _ _ => s
  | infinite s1, infinite s2 => s1 && !s2
  | _, _ => false

/-- The rational number a finite binary32 value stands for (0 for an infinity or a NaN). -/
def toRat : F32 → ℚ
  | finite m e => (m : ℚ) * (2 : ℚ) ^ e
  | _ => 0

end F32

/-! ## The intersection test in binary32 (`traceRayFromPixel`, `closestHit`) -/

namespace Binary32

/-- The operator `-` of `glm::vec3`. -/
def vsub (u v : Vec3 F32) : Vec3 F32 := ⟨F32.sub u.x v.x, F32.sub u.y v.y, F32.sub u.z v.z⟩

/-- The operator `+` of `glm::vec3`. -/
def vadd (u v : Vec3 F32) : Vec3 F32 := ⟨F32.add u.x v.x, F32.add u.y v.y, F32.add u.z v.z⟩

/-- The operator `*` of a `glm::vec3` and a `float`. -/
def vscale (v : Vec3 F32) (s : F32) : Vec3 F32 := ⟨F32.mul v.x s, F32.mul v.y s, F32.mul v.z s⟩

/-- The operation `glm::dot`: the three products are added from the left. -/
def dot (u v : Vec3 F32) : F32 :=
  F32.add (F32.add (F32.mul u.x v.x) (F32.mul u.y v.y)) (F32.mul u.z v.z)

/-- The operation `glm::normalize(v) = v * inversesqrt(dot(v, v))`, with
`inversesqrt(x) = 1 / sqrt(x)`. -/
def normalize (v : Vec3 F32) : Vec3 F32 :=
  vscale v (F32.div (F32.ofInt 1) (F32.sqrt (dot v v)))

/-- The constant `FLT_MAX`: `(2^24 - 1) * 2^104`. -/
def FLT_MAX : F32 := F32.finite (2 ^ 24 - 1) 104

/-- Method `Renderer::miss`. -/
def miss (u : HitPayload F32) (_ray : Ray F32) : HitPayload F32 :=
  { u with hitDistance := F32.ofInt (-1) }

/-- Method `Renderer::lightHit`. -/
def lightHit (u : HitPayload F32) (_ray : Ray F32) (lightIndex : Int) : HitPayload F32 :=
  { u with hitDistance := F32.ofInt 0, objectIndex := lightIndex }

/-- Method `Renderer::closestHit`. -/
def closestHit (scene : Scene F32) (_u : HitPayload F32) (ray : Ray F32) (sphereIndex : Int)
    (hitDistance : F32) : HitPayload F32 :=
  let sphereCenter := scene.spherePositions sphereIndex.toNat
  let hitPoint := vadd ray.origin (vscale ray.direction hitDistance)
  { hitDistance := hitDistance
    objectIndex := sphereIndex
    hitPoint := hitPoint
    normal := normalize (vsub hitPoint sphereCenter) }

/-- The body of the sphere loop of `traceRayFromPixel`, at index `k`. -/
def pixelSphereStep (scene : Scene F32) (ray : Ray F32) (s : PixelScan F32) (k : Nat) :
    PixelScan F32 :=
  let origin := vsub ray.origin (scene.spherePositions k)
  let direction := ray.direction
  let radius := scene.sphereRadii k
  let a := dot direction direction
  let b := F32.mul (F32.ofInt 2) (dot origin direction)
  let c := F32.sub (dot origin origin) (F32.mul radius radius)
  let delta := F32.sub (F32.mul b b) (F32.mul (F32.mul (F32.ofInt 4) a) c)
  if F32.lt delta (F32.ofInt 0) then s
  else
    let t := F32.div (F32.sub (F32.neg b) (F32.sqrt delta)) (F32.mul (F32.ofInt 2) a)
    if F32.lt (F32.ofInt 0) t && F32.lt t s.hitDistance then
      { s with hitDistance := t, hitSphereIndex := (k : Int) }
    else s

/-- The body of the light loop of `traceRayFromPixel`, at index `k`; `0.1f` is the binary32
value nearest to `1/10`. -/
def pixelLightStep (scene : Scene F32) (ray : Ray F32) (s : PixelScan F32) (k : Nat) :
    PixelScan F32 :=
  let origin := vsub ray.origin (scene.lightPositions k)
  let direction := ray.direction
  let a := dot direction direction
  let b := F32.mul (F32.ofInt 2) (dot origin direction)
  let c := F32.sub (dot origin origin)
    (F32.mul (F32.div (F32.ofInt 1) (F32.ofInt 10)) (F32.div (F32.ofInt 1) (F32.ofInt 10)))
  let delta := F32.sub (F32.mul b b) (F32.mul (F32.mul (F32.ofInt 4) a) c)
  if F32.lt delta (F32.ofInt 0) then s
  else
    let t := F32.div (F32.sub (F32.neg b) (F32.sqrt delta)) (F32.mul (F32.ofInt 2) a)
    if F32.lt (F32.ofInt 0) t && F32.lt t s.hitDistance then
      { hitDistance := t, hitSphereIndex := -2, hitLightIndex := (k : Int) }
    else s

/-- Method `Renderer::traceRayFromPixel`. -/
def traceRayFromPixel (scene : Scene F32) (u : HitPayload F32) (ray : Ray F32) :
    HitPayload F32 :=
  let s0 : PixelScan F32 :=
    { hitSphereIndex := -1, hitLightIndex := -1, hitDistance := FLT_MAX }
  let s1 := (List.range scene.sphereCount).foldl (pixelSphereStep scene ray) s0
  let s2 := (List.range scene.lightCount).foldl (pixelLightStep scene ray) s1
  if s2.hitSphereIndex = -1 then miss u ray
  else if s2.hitSphereIndex = -2 then lightHit u ray s2.hitLightIndex
  else closestHit scene u ray s2.hitSphereIndex s2.hitDistance

/-- A payload with every field zero, standing for an uninitialised local. -/
def zeroPayload : HitPayload F32 :=
  { hitDistance := F32.ofInt 0
    objectIndex := 0
    hitPoint := ⟨F32.ofInt 0, F32.ofInt 0, F32.ofInt 0⟩
    normal := ⟨F32.ofInt 0, F32.ofInt 0, F32.ofInt 0⟩ }

/-- A scene with one sphere and no light. -/
def oneSphere (center : Vec3 F32) (radius : F32) : Scene F32 :=
  { sphereCount := 1
    spherePositions := fun _ => center
    sphereRadii := fun _ => radius
    sphereAlbedos := fun _ => ⟨F32.ofInt 1, F32.ofInt 1, F32.ofInt 1⟩
    lightCount := 0
    lightPositions := fun _ => ⟨F32.ofInt 0, F32.ofInt 0, F32.ofInt 0⟩
    lightColors := fun _ => ⟨F32.ofInt 0, F32.ofInt 0, F32.ofInt 0⟩ }

/-- A small and far sphere: centre `(0, 0, -1024)`, radius `2^-10`. -/
def speckScene : Scene F32 :=
  oneSphere ⟨F32.ofInt 0, F32.ofInt 0, F32.ofInt (-1024)⟩ (F32.round 1 (-10))

/-- The ray from the origin along `(0, 0, -1)`, through the centre of the speck. -/
def speckRay : Ray F32 :=
  { origin := ⟨F32.ofInt 0, F32.ofInt 0, F32.ofInt 0⟩
    direction := ⟨F32.ofInt 0, F32.ofInt 0, F32.ofInt (-1)⟩ }

/-- The ray from `(2^-9, 0, 0)` along `(0, 0, -1)`: it passes the centre of the speck at
distance `2^-9`, twice the radius. -/
def passingRay : Ray F32 :=
  { origin := ⟨F32.round 1 (-9), F32.ofInt 0, F32.ofInt 0⟩
    direction := ⟨F32.ofInt 0, F32.ofInt 0, F32.ofInt (-1)⟩ }

/-- A sphere of radius `16274561 * 2^-17` (about 124.165) centred at
`(-5533579 * 2^-18, 11456249 * 2^-16, 0)`. -/
def shellScene : Scene F32 :=
  oneSphere ⟨F32.round (-5533579) (-18), F32.round 11456249 (-16), F32.ofInt 0⟩
    (F32.round 16274561 (-17))

/-- The ray from `(6730913 * 2^-16, 5422617 * 2^-15, 2^-5)`, a point just inside the shell
sphere, along `(0, 0, -1)`. -/
def shellRay : Ray F32 :=
  { origin := ⟨F32.round 6730913 (-16), F32.round 5422617 (-15), F32.round 1 (-5)⟩
    direction := ⟨F32.ofInt 0, F32.ofInt 0, F32.ofInt (-1)⟩ }

end Binary32

/-- The payload that `traceRayFromPixel` returns for the speck ray. -/
def Binary32.speckHit : HitPayload F32 :=
  Binary32.traceRayFromPixel Binary32.speckScene Binary32.zeroPayload Binary32.speckRay

/-- The payload that `traceRayFromPixel` returns for the passing ray. -/
def Binary32.passingHit : HitPayload F32 :=
  Binary32.traceRayFromPixel Binary32.speckScene Binary32.zeroPayload Binary32.passingRay

/-- The payload that `traceRayFromPixel` returns for the shell ray. -/
def Binary32.shellHit : HitPayload F32 :=
  Binary32.traceRayFromPixel Binary32.shellScene Binary32.zeroPayload Binary32.shellRay

/-! # Theorems -/

/-! ## Lemmas on the running minimum and on the loops -/

theorem scan_succ (ok : Nat → Prop) [DecidablePred ok] (t : Nat → K) (d0 : K) (n : Nat) :
    scan ok t d0 (n + 1) = scanStep ok t (scan ok t d0 n) n := by
  simp [scan, List.range_succ]

/-- What the running minimum returns. -/
theorem scan_spec (ok : Nat → Prop) [DecidablePred ok] (t : Nat → K) (d0 : K) (n : Nat) :
    ((scan ok t d0 n).2 = none →
        (scan ok t d0 n).1 = d0 ∧ ∀ k, k < n → ok k → d0 ≤ t k) ∧
    (∀ k, (scan ok t d0 n).2 = some k →
        k < n ∧ ok k ∧ (scan ok t d0 n).1 = t k ∧ t k < d0 ∧
        (∀ j, j < n → ok j → t k ≤ t j) ∧ (∀ j, j < k → ok j → t k < t j)) := by
  induction n with
  | zero => simp [scan]
  | succ n ih =>
    obtain ⟨ihN, ihS⟩ := ih
    rw [scan_succ]
    unfold scanStep
    by_cases hstep : ok n ∧ t n < (scan ok t d0 n).1
    · rw [if_pos hstep]
      refine ⟨by simp, ?_⟩
      intro k hk
      simp only [Option.some.injEq] at hk
      subst hk
      obtain ⟨hok, hlt⟩ := hstep
      have hprev : t n < d0 ∧ ∀ j, j < n → ok j → t n < t j := by
        cases hr : (scan ok t d0 n).2 with
        | none =>
          obtain ⟨h1, h2⟩ := ihN hr
          rw [h1] at hlt
          exact ⟨hlt, fun j hj hoj => lt_of_lt_of_le hlt (h2 j hj hoj)⟩
        | some m =>
          obtain ⟨_, _, h3, h4, h5, _⟩ := ihS m hr
          rw [h3] at hlt
          exact ⟨lt_trans hlt h4, fun j hj hoj => lt_of_lt_of_le hlt (h5 j hj hoj)⟩
      refine ⟨Nat.lt_succ_self _, hok, rfl, hprev.1, ?_, hprev.2⟩
      intro j hj hoj
      rcases Nat.lt_succ_iff_lt_or_eq.mp hj with h | h
      · exact le_of_lt (hprev.2 j h hoj)
      · rw [h]
    · rw [if_neg hstep]
      constructor
      · intro hr
        obtain ⟨h1, h2⟩ := ihN hr
        refine ⟨h1, ?_⟩
        intro k hk hok
        rcases Nat.lt_succ_iff_lt_or_eq.mp hk with h | h
        · exact h2 k h hok
        · subst h
          rw [← h1]
          exact not_lt.mp (fun hlt => hstep ⟨hok, hlt⟩)
      · intro k hr
        obtain ⟨h1, h2, h3, h4, h5, h6⟩ := ihS k hr
        refine ⟨Nat.lt_succ_of_lt h1, h2, h3, h4, ?_, h6⟩
        intro j hj hoj
        rcases Nat.lt_succ_iff_lt_or_eq.mp hj with h | h
        · exact h5 j h hoj
        · subst h
          rw [← h3]
          exact not_lt.mp (fun hlt => hstep ⟨hoj, hlt⟩)

theorem pixelSphereStep_eq (M : FloatMath K) (R : Renderer K) (ray : Ray K) (s : PixelScan K)
    (k : Nat) :
    pixelSphereStep M R ray s k =
      if sphereOk M R ray k ∧ sphereT M R ray k < s.hitDistance then
        { s with hitDistance := sphereT M R ray k, hitSphereIndex := (k : Int) }
      else s := by
  unfold pixelSphereStep sphereOk sphereT sphereDelta nearRoot discriminant
  by_cases hd : discriminant (R.scene.spherePositions k) (R.scene.sphereRadii k) ray < 0
  · unfold discriminant at hd
    rw [if_pos hd, if_neg]
    intro h
    exact absurd hd (not_lt.mpr h.1.1)
  · unfold discriminant at hd
    simp only [if_neg hd, not_lt.mp hd, true_and, and_assoc]

theorem pixelLightStep_eq (M : FloatMath K) (R : Renderer K) (ray : Ray K) (s : PixelScan K)
    (k : Nat) :
    pixelLightStep M R ray s k =
      if lightOk M R ray k ∧ lightT M R ray k < s.hitDistance then
        { hitDistance := lightT M R ray k, hitSphereIndex := -2, hitLightIndex := (k : Int) }
      else s := by
  unfold pixelLightStep lightOk lightT lightDelta nearRoot discriminant
  by_cases hd : discriminant (R.scene.lightPositions k) (1 / 10) ray < 0
  · unfold discriminant at hd
    rw [if_pos hd, if_neg]
    intro h
    exact absurd hd (not_lt.mpr h.1.1)
  · unfold discriminant at hd
    simp only [if_neg hd, not_lt.mp hd, true_and, and_assoc]

theorem shadowSphereStep_eq (M : FloatMath K) (R : Renderer K) (ray : Ray K) (diff : K)
    (s : ShadowScan K) (k : Nat) :
    shadowSphereStep M R ray diff s k =
      if sphereOkBelow M R ray diff k ∧ sphereT M R ray k < s.hitDistance then
        { hitDistance := sphereT M R ray k, hitSphereIndex := (k : Int) }
      else s := by
  unfold shadowSphereStep sphereOkBelow sphereT sphereDelta nearRoot discriminant
  by_cases hd : discriminant (R.scene.spherePositions k) (R.scene.sphereRadii k) ray < 0
  · unfold discriminant at hd
    rw [if_pos hd, if_neg]
    intro h
    exact absurd hd (not_lt.mpr h.1.1)
  · unfold discriminant at hd
    simp only [if_neg hd, not_lt.mp hd, true_and, and_assoc]

theorem pixelSphereLoop_eq (M : FloatMath K) (R : Renderer K) (ray : Ray K) (n : Nat) :
    (List.range n).foldl (pixelSphereStep M R ray)
        { hitSphereIndex := -1, hitLightIndex := -1, hitDistance := FLT_MAX } =
      PixelScan.ofScan (scan (sphereOk M R ray) (sphereT M R ray) FLT_MAX n) := by
  induction n with
  | zero => simp [scan, PixelScan.ofScan]
  | succ n ih =>
    rw [List.range_succ, List.foldl_append, ih, scan_succ]
    simp only [List.foldl_cons, List.foldl_nil, pixelSphereStep_eq, scanStep]
    have hd : (PixelScan.ofScan (scan (sphereOk M R ray) (sphereT M R ray) FLT_MAX n)).hitDistance
        = (scan (sphereOk M R ray) (sphereT M R ray) FLT_MAX n).1 := by
      unfold PixelScan.ofScan; split <;> rfl
    rw [hd]
    split
    · unfold PixelScan.ofScan; split <;> simp
    · rfl

theorem pixelLightLoop_eq (M : FloatMath K) (R : Renderer K) (ray : Ray K) (s1 : PixelScan K)
    (n : Nat) :
    (List.range n).foldl (pixelLightStep M R ray) s1 =
      PixelScan.ofLightScan s1 (scan (lightOk M R ray) (lightT M R ray) s1.hitDistance n) := by
  induction n with
  | zero => simp [scan, PixelScan.ofLightScan]
  | succ n ih =>
    rw [List.range_succ, List.foldl_append, ih, scan_succ]
    simp only [List.foldl_cons, List.foldl_nil, pixelLightStep_eq, scanStep]
    have hd : (PixelScan.ofLightScan s1
        (scan (lightOk M R ray) (lightT M R ray) s1.hitDistance n)).hitDistance
        = (scan (lightOk M R ray) (lightT M R ray) s1.hitDistance n).1 := by
      have h := scan_spec (lightOk M R ray) (lightT M R ray) s1.hitDistance n
      unfold PixelScan.ofLightScan
      split
      · next hn => exact (h.1 hn).1.symm
      · rfl
    rw [hd]
    split
    · simp [PixelScan.ofLightScan]
    · rfl

theorem shadowLoop_eq (M : FloatMath K) (R : Renderer K) (ray : Ray K) (diff : K) (n : Nat) :
    (List.range n).foldl (shadowSphereStep M R ray diff)
        { hitSphereIndex := -1, hitDistance := FLT_MAX } =
      ShadowScan.ofScan (scan (sphereOkBelow M R ray diff) (sphereT M R ray) FLT_MAX n) := by
  induction n with
  | zero => simp [scan, ShadowScan.ofScan]
  | succ n ih =>
    rw [List.range_succ, List.foldl_append, ih, scan_succ]
    simp only [List.foldl_cons, List.foldl_nil, shadowSphereStep_eq, scanStep]
    have hd : (ShadowScan.ofScan
        (scan (sphereOkBelow M R ray diff) (sphereT M R ray) FLT_MAX n)).hitDistance
        = (scan (sphereOkBelow M R ray diff) (sphereT M R ray) FLT_MAX n).1 := by
      unfold ShadowScan.ofScan; split <;> rfl
    rw [hd]
    split
    · simp [ShadowScan.ofScan]
    · rfl

theorem traceRayFromPixel_light (M : FloatMath K) (R : Renderer K) (u : HitPayload K)
    (ray : Ray K) (k : Nat) (h : (lightScan M R ray).2 = some k) :
    traceRayFromPixel M R u ray = lightHit u ray (k : Int) := by
  unfold traceRayFromPixel
  simp only [pixelSphereLoop_eq, pixelLightLoop_eq]
  have hd : (PixelScan.ofScan (scan (sphereOk M R ray) (sphereT M R ray) FLT_MAX
      R.scene.sphereCount)).hitDistance = (sphereScan M R ray).1 := by
    unfold PixelScan.ofScan sphereScan; split <;> rfl
  rw [hd]
  unfold lightScan at h
  simp [PixelScan.ofLightScan, h]

theorem traceRayFromPixel_miss (M : FloatMath K) (R : Renderer K) (u : HitPayload K)
    (ray : Ray K) (hl : (lightScan M R ray).2 = none) (hs : (sphereScan M R ray).2 = none) :
    traceRayFromPixel M R u ray = miss u ray := by
  unfold traceRayFromPixel
  simp only [pixelSphereLoop_eq, pixelLightLoop_eq]
  have hd : (PixelScan.ofScan (scan (sphereOk M R ray) (sphereT M R ray) FLT_MAX
      R.scene.sphereCount)).hitDistance = (sphereScan M R ray).1 := by
    unfold PixelScan.ofScan sphereScan; split <;> rfl
  rw [hd]
  unfold lightScan at hl
  unfold sphereScan at hs
  simp [PixelScan.ofLightScan, hl, PixelScan.ofScan, hs]

theorem traceRayFromPixel_sphere (M : FloatMath K) (R : Renderer K) (u : HitPayload K)
    (ray : Ray K) (k : Nat) (hl : (lightScan M R ray).2 = none)
    (hs : (sphereScan M R ray).2 = some k) :
    traceRayFromPixel M R u ray = closestHit M R u ray (k : Int) (sphereScan M R ray).1 := by
  unfold traceRayFromPixel
  simp only [pixelSphereLoop_eq, pixelLightLoop_eq]
  have hd : (PixelScan.ofScan (scan (sphereOk M R ray) (sphereT M R ray) FLT_MAX
      R.scene.sphereCount)).hitDistance = (sphereScan M R ray).1 := by
    unfold PixelScan.ofScan sphereScan; split <;> rfl
  rw [hd]
  unfold lightScan at hl
  have h1 : ((k : Int) = -1) = False := by
    apply eq_false; omega
  have h2 : ((k : Int) = -2) = False := by
    apply eq_false; omega
  simp only [PixelScan.ofLightScan, hl]
  unfold sphereScan at hs
  simp [PixelScan.ofScan, hs, h1, h2, sphereScan]

theorem traceRayFromHitpoint_miss (M : FloatMath K) (R : Renderer K) (u : HitPayload K)
    (ray : Ray K) (diff : K) (hs : (shadowScan M R ray diff).2 = none) :
    traceRayFromHitpoint M R u ray diff = miss u ray := by
  unfold traceRayFromHitpoint
  simp only [shadowLoop_eq]
  unfold shadowScan at hs
  simp [ShadowScan.ofScan, hs]

theorem traceRayFromHitpoint_sphere (M : FloatMath K) (R : Renderer K) (u : HitPayload K)
    (ray : Ray K) (diff : K) (k : Nat) (hs : (shadowScan M R ray diff).2 = some k) :
    traceRayFromHitpoint M R u ray diff =
      closestHit M R u ray (k : Int) (shadowScan M R ray diff).1 := by
  unfold traceRayFromHitpoint
  simp only [shadowLoop_eq]
  have hs2 := hs
  unfold shadowScan at hs
  have h1 : ((k : Int) = -1) = False := by
    apply eq_false; omega
  simp [ShadowScan.ofScan, hs, h1, shadowScan]

@[simp] theorem miss_hitDistance (u : HitPayload K) (ray : Ray K) :
    (miss u ray).hitDistance = -1 := rfl

@[simp] theorem lightHit_hitDistance (u : HitPayload K) (ray : Ray K) (k : Int) :
    (lightHit u ray k).hitDistance = 0 := rfl

@[simp] theorem lightHit_objectIndex (u : HitPayload K) (ray : Ray K) (k : Int) :
    (lightHit u ray k).objectIndex = k := rfl

@[simp] theorem closestHit_hitDistance (M : FloatMath K) (R : Renderer K) (u : HitPayload K)
    (ray : Ray K) (k : Int) (d : K) : (closestHit M R u ray k d).hitDistance = d := rfl

@[simp] theorem closestHit_objectIndex (M : FloatMath K) (R : Renderer K) (u : HitPayload K)
    (ray : Ray K) (k : Int) (d : K) : (closestHit M R u ray k d).objectIndex = k := rfl

theorem traceRayFromPixel_cases (M : FloatMath K) (R : Renderer K) (u : HitPayload K)
    (ray : Ray K) :
    (∃ k, (lightScan M R ray).2 = some k ∧
        traceRayFromPixel M R u ray = lightHit u ray (k : Int)) ∨
    ((lightScan M R ray).2 = none ∧ (sphereScan M R ray).2 = none ∧
        traceRayFromPixel M R u ray = miss u ray) ∨
    (∃ k, (lightScan M R ray).2 = none ∧ (sphereScan M R ray).2 = some k ∧
        traceRayFromPixel M R u ray = closestHit M R u ray (k : Int) (sphereScan M R ray).1) := by
  cases hl : (lightScan M R ray).2 with
  | some k => exact Or.inl ⟨k, rfl, traceRayFromPixel_light M R u ray k hl⟩
  | none =>
    cases hs : (sphereScan M R ray).2 with
    | none => exact Or.inr (Or.inl ⟨rfl, rfl, traceRayFromPixel_miss M R u ray hl hs⟩)
    | some k => exact Or.inr (Or.inr ⟨k, rfl, rfl, traceRayFromPixel_sphere M R u ray k hl hs⟩)

theorem traceRayFromHitpoint_cases (M : FloatMath K) (R : Renderer K) (u : HitPayload K)
    (ray : Ray K) (diff : K) :
    ((shadowScan M R ray diff).2 = none ∧ traceRayFromHitpoint M R u ray diff = miss u ray) ∨
    (∃ k, (shadowScan M R ray diff).2 = some k ∧
        traceRayFromHitpoint M R u ray diff =
          closestHit M R u ray (k : Int) (shadowScan M R ray diff).1) := by
  cases hs : (shadowScan M R ray diff).2 with
  | none => exact Or.inl ⟨rfl, traceRayFromHitpoint_miss M R u ray diff hs⟩
  | some k => exact Or.inr ⟨k, rfl, traceRayFromHitpoint_sphere M R u ray diff k hs⟩

/-- The sphere scan of `traceRayFromPixel` never exceeds `FLT_MAX`, and lies at or below the
near root of every accepted sphere whose near root is below `FLT_MAX`. -/
theorem sphereScan_le (M : FloatMath K) (R : Renderer K) (ray : Ray K) :
    (sphereScan M R ray).1 ≤ FLT_MAX ∧
    ∀ j, sphereAcceptedBelow M R ray FLT_MAX j →
      (sphereScan M R ray).2 ≠ none ∧ (sphereScan M R ray).1 ≤ sphereT M R ray j := by
  have hS := scan_spec (sphereOk M R ray) (sphereT M R ray) FLT_MAX R.scene.sphereCount
  constructor
  · cases hs : (sphereScan M R ray).2 with
    | none => exact le_of_eq (hS.1 hs).1
    | some m =>
      obtain ⟨_, _, h3, h4, _, _⟩ := hS.2 m hs
      exact le_of_lt (by rw [sphereScan, h3]; exact h4)
  · rintro j ⟨⟨hj, hd, ht⟩, hb⟩
    cases hs : (sphereScan M R ray).2 with
    | none =>
      exact absurd hb (not_lt.mpr ((hS.1 hs).2 j hj ⟨hd, ht⟩))
    | some m =>
      obtain ⟨_, _, h3, _, h5, _⟩ := hS.2 m hs
      refine ⟨by simp, ?_⟩
      rw [sphereScan, h3]
      exact h5 j hj ⟨hd, ht⟩

/-! ## C1: `traceRayFromPixel` returns the nearest accepted candidate -/

/-- C1 (amended): for every scene and ray, `traceRayFromPixel` returns the nearest candidate
among the spheres and the lights (tested as spheres of radius 0.1) that have `delta >= 0` and
a near root `t` with `0 < t < FLT_MAX`: Miss iff there is no such candidate, a SurfaceHit on
the lowest-index sphere attaining the minimum (at that distance) iff a sphere attains it, and
a LightHit iff the minimum is attained by lights only, so an equal-t sphere wins. -/
theorem traceRayFromPixel_nearest (M : FloatMath K) (R : Renderer K) (u : HitPayload K)
    (ray : Ray K) :
    NearestCandidate (sphereAcceptedBelow M R ray FLT_MAX) (lightAcceptedBelow M R ray FLT_MAX)
      (sphereT M R ray) (lightT M R ray) (traceRayFromPixel M R u ray) := by
  have hS := scan_spec (sphereOk M R ray) (sphereT M R ray) FLT_MAX R.scene.sphereCount
  have hL := scan_spec (lightOk M R ray) (lightT M R ray) (sphereScan M R ray).1
    R.scene.lightCount
  obtain ⟨hmax, hle⟩ := sphereScan_le M R ray
  rcases traceRayFromPixel_cases M R u ray with ⟨k, hl, hp⟩ | ⟨hl, hs, hp⟩ | ⟨m, hl, hs, hp⟩
  · -- a light is selected
    obtain ⟨hk, hok, _, hlt, hmin, hlow⟩ := hL.2 k hl
    have hacc : lightAcceptedBelow M R ray FLT_MAX k :=
      ⟨⟨hk, hok.1, hok.2⟩, lt_of_lt_of_le hlt hmax⟩
    rw [hp]
    refine ⟨?_, ?_, ?_, ?_⟩
    · constructor
      · intro h; simp [IsMiss] at h
      · intro h; exact absurd hacc (h.2 k)
    · intro k2
      constructor
      · intro h; simp [IsSurfaceHit] at h
      · rintro ⟨ha, _, h2, _⟩
        have h3 := (hle k2 ha).2
        exact absurd (lt_of_lt_of_le hlt h3) (not_lt.mpr (h2 k hacc))
    · intro k2 h; simp [IsSurfaceHit] at h
    · intro k2
      constructor
      · intro h
        have hk2 : k2 = k := by
          have := h.2
          simp at this
          omega
        subst hk2
        refine ⟨hacc, ?_, ?_, ?_⟩
        · intro j hj
          exact lt_of_lt_of_le hlt (hle j hj).2
        · intro j hj
          exact hmin j hj.1.1 ⟨hj.1.2.1, hj.1.2.2⟩
        · intro j hjk hj
          exact hlow j hjk ⟨hj.1.2.1, hj.1.2.2⟩
      · rintro ⟨ha, _, h2, h3⟩
        have e1 : lightT M R ray k ≤ lightT M R ray k2 := hmin k2 ha.1.1 ⟨ha.1.2.1, ha.1.2.2⟩
        have e2 : lightT M R ray k2 ≤ lightT M R ray k := h2 k hacc
        have hk2 : k2 = k := by
          rcases lt_trichotomy k2 k with h | h | h
          · exact absurd (hlow k2 h ⟨ha.1.2.1, ha.1.2.2⟩) (not_lt.mpr e2)
          · exact h
          · exact absurd (h3 k h hacc) (not_lt.mpr e1)
        subst hk2
        simp [IsLightHit]
  · -- nothing is selected
    obtain ⟨hd, hall⟩ := hS.1 hs
    obtain ⟨_, hallL⟩ := hL.1 hl
    have hnoS : ∀ j, ¬sphereAcceptedBelow M R ray FLT_MAX j := fun j hj =>
      (hle j hj).1 hs
    have hnoL : ∀ j, ¬lightAcceptedBelow M R ray FLT_MAX j := by
      rintro j ⟨⟨hj, hd2, ht⟩, hb⟩
      have := hallL j hj ⟨hd2, ht⟩
      rw [sphereScan, hd] at this
      exact absurd hb (not_lt.mpr this)
    rw [hp]
    refine ⟨?_, ?_, ?_, ?_⟩
    · constructor
      · intro _; exact ⟨hnoS, hnoL⟩
      · intro _; simp [IsMiss]
    · intro k2
      constructor
      · intro h
        have := h.1
        simp at this
        exact absurd this (by norm_num)
      · rintro ⟨ha, _⟩; exact absurd ha (hnoS k2)
    · intro k2 h
      have := h.1
      simp at this
      exact absurd this (by norm_num)
    · intro k2
      constructor
      · intro h
        have := h.1
        simp at this
      · rintro ⟨ha, _⟩; exact absurd ha (hnoL k2)
  · -- a sphere is selected
    obtain ⟨hm, hok, hd, hlt, hmin, hlow⟩ := hS.2 m hs
    obtain ⟨_, hallL⟩ := hL.1 hl
    have hdm : (sphereScan M R ray).1 = sphereT M R ray m := hd
    have hacc : sphereAcceptedBelow M R ray FLT_MAX m := ⟨⟨hm, hok.1, hok.2⟩, hlt⟩
    rw [hp, hdm]
    rw [hdm] at hallL
    refine ⟨?_, ?_, ?_, ?_⟩
    · constructor
      · intro h
        simp only [IsMiss, closestHit_hitDistance] at h
        exact absurd hok.2 (not_lt.mpr (le_of_lt h))
      · intro h; exact absurd hacc (h.1 m)
    · intro k2
      constructor
      · intro h
        have hk2 : k2 = m := by
          have := h.2
          simp at this
          omega
        subst hk2
        refine ⟨hacc, ?_, ?_, ?_⟩
        · intro j hj
          exact hmin j hj.1.1 ⟨hj.1.2.1, hj.1.2.2⟩
        · intro j hj
          exact hallL j hj.1.1 ⟨hj.1.2.1, hj.1.2.2⟩
        · intro j hjk hj
          exact hlow j hjk ⟨hj.1.2.1, hj.1.2.2⟩
      · rintro ⟨ha, h1, _, h3⟩
        have e1 : sphereT M R ray m ≤ sphereT M R ray k2 := hmin k2 ha.1.1 ⟨ha.1.2.1, ha.1.2.2⟩
        have e2 : sphereT M R ray k2 ≤ sphereT M R ray m := h1 m hacc
        have hk2 : k2 = m := by
          rcases lt_trichotomy k2 m with h | h | h
          · exact absurd (hlow k2 h ⟨ha.1.2.1, ha.1.2.2⟩) (not_lt.mpr e2)
          · exact h
          · exact absurd (h3 m h hacc) (not_lt.mpr e1)
        subst hk2
        exact ⟨hok.2, rfl⟩
    · intro k2 h
      have hk2 : k2 = m := by
        have := h.2
        simp at this
        omega
      subst hk2
      rfl
    · intro k2
      constructor
      · intro h
        have := h.1
        simp only [closestHit_hitDistance] at this
        exact absurd hok.2 (by rw [this]; exact lt_irrefl _)
      · rintro ⟨ha, h1, _⟩
        exact absurd (h1 m hacc) (not_lt.mpr (hallL k2 ha.1.1 ⟨ha.1.2.1, ha.1.2.2⟩))

/-- The rational square root is exact on squares. -/
theorem qsqrt_mul_self (r : ℚ) (h : 0 ≤ r) : qsqrt (r * r) = r := by
  unfold qsqrt
  rw [Rat.mul_self_num, Rat.mul_self_den, Nat.sqrt_eq]
  have hn : 0 ≤ r.num := Rat.num_nonneg.mpr h
  have h2 : (r.num * r.num).toNat = r.num.toNat * r.num.toNat := by
    obtain ⟨n, hn2⟩ := Int.eq_ofNat_of_zero_le hn
    rw [hn2]
    rfl
  rw [h2, Nat.sqrt_eq]
  have h3 : ((r.num.toNat : Nat) : ℚ) = (r.num : ℚ) := by
    have : ((r.num.toNat : Nat) : Int) = r.num := Int.toNat_of_nonneg hn
    exact_mod_cast this
  rw [h3]
  exact Rat.num_div_den r

theorem far_sphereDelta : sphereDelta farRenderer farRay 0 = 1 / 16 := by
  simp only [sphereDelta, discriminant, farRenderer, mkRenderer, farScene, farRay, Vec3.sub,
    Vec3.dot]
  norm_num

theorem far_sphereT : sphereT qMath farRenderer farRay 0 = 2 ^ 128 := by
  have hd := far_sphereDelta
  unfold sphereDelta at hd
  unfold sphereT nearRoot
  rw [hd]
  have hq : qMath.sqrt (1 / 16) = 1 / 4 := by
    have : (1 / 16 : ℚ) = (1 / 4) * (1 / 4) := by norm_num
    rw [this]
    exact qsqrt_mul_self _ (by norm_num)
  rw [hq]
  simp only [farRenderer, mkRenderer, farScene, farRay, Vec3.sub, Vec3.dot]
  norm_num

theorem far_miss : traceRayFromPixel qMath farRenderer zeroPayload farRay =
    miss zeroPayload farRay := by
  have ht := far_sphereT
  have hs : farRenderer.scene.sphereCount = 1 := rfl
  have hl : farRenderer.scene.lightCount = 0 := rfl
  unfold traceRayFromPixel
  rw [hs, hl]
  simp only [List.range_succ, List.range_zero, List.nil_append, List.foldl_cons, List.foldl_nil,
    pixelSphereStep_eq, ht]
  have hstep : ¬(sphereOk qMath farRenderer farRay 0 ∧ (2 : ℚ) ^ 128 < FLT_MAX) := by
    rintro ⟨_, h⟩
    unfold FLT_MAX at h
    norm_num at h
  simp [if_neg hstep]

/-- C1 (as stated, refuted): in the scene with one sphere of radius `2^62` centred at
`(0, 0, -3 * 2^62)` and the ray from the origin with direction `(0, 0, -2^-65)`, the sphere has
`delta = 1/16 >= 0` and near root `t = 2^128 > 0`, yet `traceRayFromPixel` returns Miss: a
near root that is not below `FLT_MAX` is never accepted. -/
theorem traceRayFromPixel_nearest_unbounded_fails :
    ¬ NearestCandidate (sphereAccepted qMath farRenderer farRay)
      (lightAccepted qMath farRenderer farRay)
      (sphereT qMath farRenderer farRay) (lightT qMath farRenderer farRay)
      (traceRayFromPixel qMath farRenderer zeroPayload farRay) := by
  intro h
  have hmiss : IsMiss (traceRayFromPixel qMath farRenderer zeroPayload farRay) := by
    rw [far_miss]; simp [IsMiss]
  have hno := (h.1.mp hmiss).1 0
  apply hno
  refine ⟨by decide, ?_, ?_⟩
  · rw [far_sphereDelta]; norm_num
  · rw [far_sphereT]; norm_num

/-! ## C3: `traceRayFromHitpoint` returns the nearest sphere below the bound -/

theorem edge_sphereDelta :
    sphereDelta edgeRenderer edgeRay 0 = (1015807 / 2 ^ 26) * (1015807 / 2 ^ 26) := by
  simp only [sphereDelta, discriminant, edgeRenderer, mkRenderer, edgeScene, edgeRay, Vec3.sub,
    Vec3.dot]
  norm_num

theorem edge_sphereT : sphereT qMath edgeRenderer edgeRay 0 = 31 * 2 ^ 143 / 1015807 := by
  have hd := edge_sphereDelta
  unfold sphereDelta at hd
  unfold sphereT nearRoot
  rw [hd]
  have hq : qMath.sqrt ((1015807 / 2 ^ 26) * (1015807 / 2 ^ 26)) = 1015807 / 2 ^ 26 :=
    qsqrt_mul_self _ (by norm_num)
  rw [hq]
  simp only [edgeRenderer, mkRenderer, edgeScene, edgeRay, Vec3.sub, Vec3.dot]
  norm_num

theorem edge_not_below : ¬((31 * 2 ^ 143 / 1015807 : ℚ) < FLT_MAX) := by
  unfold FLT_MAX
  norm_num

theorem edge_shadowScan : (shadowScan qMath edgeRenderer edgeRay hugeBound).2 = none := by
  have ht := edge_sphereT
  have hs : edgeRenderer.scene.sphereCount = 1 := rfl
  unfold shadowScan
  rw [hs, scan_succ]
  unfold scanStep
  rw [if_neg]
  · rfl
  · rintro ⟨_, h⟩
    rw [ht] at h
    exact edge_not_below h

theorem edge_miss : traceRayFromHitpoint qMath edgeRenderer zeroPayload edgeRay hugeBound =
    miss zeroPayload edgeRay :=
  traceRayFromHitpoint_miss qMath edgeRenderer zeroPayload edgeRay hugeBound edge_shadowScan

/-- C3 (as stated, refuted): in the scene with one sphere of radius `2^58` centred at
`(0, 0, -2^63)`, the ray from the origin with direction `(0, 0, -1015807 * 2^-85)` and a bound
above every representable distance (here `hugeBound = 2^129`), the sphere has `delta >= 0` and a near root
`t = 31 * 2^143 / 1015807` strictly inside `(0, maxDistance)`, yet `traceRayFromHitpoint`
returns Miss: a near root that is not below `FLT_MAX` is never accepted. -/
theorem traceRayFromHitpoint_nearest_unbounded_fails :
    ¬ NearestCandidate (sphereAcceptedBelow qMath edgeRenderer edgeRay hugeBound)
      (fun _ => False) (sphereT qMath edgeRenderer edgeRay) (fun _ => 0)
      (traceRayFromHitpoint qMath edgeRenderer zeroPayload edgeRay hugeBound) := by
  intro h
  have hmiss : IsMiss (traceRayFromHitpoint qMath edgeRenderer zeroPayload edgeRay hugeBound) := by
    rw [edge_miss]; simp [IsMiss]
  have hno := (h.1.mp hmiss).1 0
  apply hno
  refine ⟨⟨by decide, ?_, ?_⟩, ?_⟩
  · rw [edge_sphereDelta]; norm_num
  · rw [edge_sphereT]; norm_num
  · rw [edge_sphereT]; unfold hugeBound; norm_num

/-- C3 (amended): for every scene, ray and bound `maxDistance`, `traceRayFromHitpoint` reads
the spheres only (its result does not change when the lights are replaced) and accepts the
near roots `t` with `0 < t < maxDistance` and `t < FLT_MAX`: it returns Miss iff no sphere has
`delta >= 0` and such a near root, otherwise a SurfaceHit at the minimum such `t` (so
`0 < hitDistance < maxDistance`) on the lowest-index sphere attaining it; it never returns a
payload with `hitDistance = 0`. -/
theorem traceRayFromHitpoint_nearest (M : FloatMath K) (R : Renderer K) (u : HitPayload K)
    (ray : Ray K) (maxDistance : K) :
    NearestCandidate (sphereAcceptedBelow M R ray (min maxDistance FLT_MAX)) (fun _ => False)
      (sphereT M R ray) (fun _ => 0) (traceRayFromHitpoint M R u ray maxDistance) ∧
    (traceRayFromHitpoint M R u ray maxDistance).hitDistance ≠ 0 ∧
    (∀ k, IsSurfaceHit (traceRayFromHitpoint M R u ray maxDistance) k →
      0 < (traceRayFromHitpoint M R u ray maxDistance).hitDistance ∧
      (traceRayFromHitpoint M R u ray maxDistance).hitDistance < maxDistance) ∧
    (∀ (n : Nat) (pos col : Nat → Vec3 K),
      traceRayFromHitpoint M (R.setLights n pos col) u ray maxDistance =
        traceRayFromHitpoint M R u ray maxDistance) := by
  have hS := scan_spec (sphereOkBelow M R ray maxDistance) (sphereT M R ray) FLT_MAX
    R.scene.sphereCount
  have hacc_iff : ∀ j, sphereAcceptedBelow M R ray (min maxDistance FLT_MAX) j ↔
      (j < R.scene.sphereCount ∧ sphereOkBelow M R ray maxDistance j ∧
        sphereT M R ray j < FLT_MAX) := by
    intro j
    simp only [sphereAcceptedBelow, sphereAccepted, sphereOkBelow, lt_min_iff]
    tauto
  refine ⟨?_, ?_, ?_, ?_⟩
  · rcases traceRayFromHitpoint_cases M R u ray maxDistance with ⟨hs, hp⟩ | ⟨m, hs, hp⟩
    · obtain ⟨hd, hall⟩ := hS.1 hs
      have hnoS : ∀ j, ¬sphereAcceptedBelow M R ray (min maxDistance FLT_MAX) j := by
        intro j hj
        obtain ⟨h1, h2, h3⟩ := (hacc_iff j).mp hj
        exact absurd h3 (not_lt.mpr (hall j h1 h2))
      rw [hp]
      refine ⟨?_, ?_, ?_, ?_⟩
      · constructor
        · intro _; exact ⟨hnoS, fun _ h => h⟩
        · intro _; simp [IsMiss]
      · intro k2
        constructor
        · intro h
          have := h.1
          simp at this
          exact absurd this (by norm_num)
        · rintro ⟨ha, _⟩; exact absurd ha (hnoS k2)
      · intro k2 h
        have := h.1
        simp at this
        exact absurd this (by norm_num)
      · intro k2
        constructor
        · intro h
          have := h.1
          simp at this
        · rintro ⟨ha, _⟩; exact ha.elim
    · obtain ⟨hm, hok, hd, hlt, hmin, hlow⟩ := hS.2 m hs
      have hdm : (shadowScan M R ray maxDistance).1 = sphereT M R ray m := hd
      have hacc : sphereAcceptedBelow M R ray (min maxDistance FLT_MAX) m :=
        (hacc_iff m).mpr ⟨hm, hok, hlt⟩
      rw [hp, hdm]
      refine ⟨?_, ?_, ?_, ?_⟩
      · constructor
        · intro h
          simp only [IsMiss, closestHit_hitDistance] at h
          exact absurd hok.2.1 (not_lt.mpr (le_of_lt h))
        · intro h; exact absurd hacc (h.1 m)
      · intro k2
        constructor
        · intro h
          have hk2 : k2 = m := by
            have := h.2
            simp at this
            omega
          subst hk2
          refine ⟨hacc, ?_, ?_, ?_⟩
          · intro j hj
            obtain ⟨h1, h2, _⟩ := (hacc_iff j).mp hj
            exact hmin j h1 h2
          · intro j hj; exact absurd hj id
          · intro j hjk hj
            obtain ⟨_, h2, _⟩ := (hacc_iff j).mp hj
            exact hlow j hjk h2
        · rintro ⟨ha, h1, _, h3⟩
          obtain ⟨g1, g2, _⟩ := (hacc_iff k2).mp ha
          have e1 : sphereT M R ray m ≤ sphereT M R ray k2 := hmin k2 g1 g2
          have e2 : sphereT M R ray k2 ≤ sphereT M R ray m := h1 m hacc
          have hk2 : k2 = m := by
            rcases lt_trichotomy k2 m with h | h | h
            · exact absurd (hlow k2 h g2) (not_lt.mpr e2)
            · exact h
            · exact absurd (h3 m h hacc) (not_lt.mpr e1)
          subst hk2
          exact ⟨hok.2.1, rfl⟩
      · intro k2 h
        have hk2 : k2 = m := by
          have := h.2
          simp at this
          omega
        subst hk2
        rfl
      · intro k2
        constructor
        · intro h
          have := h.1
          simp only [closestHit_hitDistance] at this
          exact absurd hok.2.1 (by rw [this]; exact lt_irrefl _)
        · rintro ⟨ha, _⟩; exact ha.elim
  · rcases traceRayFromHitpoint_cases M R u ray maxDistance with ⟨_, hp⟩ | ⟨m, hs, hp⟩
    · rw [hp]; simp
    · obtain ⟨_, hok, hd, _⟩ := hS.2 m hs
      have hdm : (shadowScan M R ray maxDistance).1 = sphereT M R ray m := hd
      rw [hp, hdm]
      exact ne_of_gt hok.2.1
  · intro k hk
    rcases traceRayFromHitpoint_cases M R u ray maxDistance with ⟨_, hp⟩ | ⟨m, hs, hp⟩
    · rw [hp] at hk
      have := hk.1
      simp at this
      exact absurd this (by norm_num)
    · obtain ⟨_, hok, hd, _⟩ := hS.2 m hs
      have hdm : (shadowScan M R ray maxDistance).1 = sphereT M R ray m := hd
      rw [hp, hdm]
      exact ⟨hok.2.1, hok.2.2⟩
  · intro n pos col
    rfl

/-! ## What a payload of each category is -/

/-- A payload of `traceRayFromPixel` with positive `hitDistance` was built by `closestHit`
for an accepted sphere, at its near root. -/
theorem traceRayFromPixel_of_pos (M : FloatMath K) (R : Renderer K) (u : HitPayload K)
    (ray : Ray K) (h : 0 < (traceRayFromPixel M R u ray).hitDistance) :
    ∃ m, sphereAcceptedBelow M R ray FLT_MAX m ∧
      traceRayFromPixel M R u ray = closestHit M R u ray (m : Int) (sphereT M R ray m) := by
  have hS := scan_spec (sphereOk M R ray) (sphereT M R ray) FLT_MAX R.scene.sphereCount
  rcases traceRayFromPixel_cases M R u ray with ⟨k, _, hp⟩ | ⟨_, _, hp⟩ | ⟨m, _, hs, hp⟩
  · rw [hp] at h; simp at h
  · rw [hp] at h
    simp at h
    exact absurd h (by norm_num)
  · obtain ⟨hm, hok, hd, hlt, _, _⟩ := hS.2 m hs
    have hdm : (sphereScan M R ray).1 = sphereT M R ray m := hd
    exact ⟨m, ⟨⟨hm, hok.1, hok.2⟩, hlt⟩, by rw [hp, hdm]⟩

/-- A payload of `traceRayFromPixel` with `hitDistance = 0` was built by `lightHit` for an
accepted light. -/
theorem traceRayFromPixel_of_zero (M : FloatMath K) (R : Renderer K) (u : HitPayload K)
    (ray : Ray K) (h : (traceRayFromPixel M R u ray).hitDistance = 0) :
    ∃ k, lightAccepted M R ray k ∧ traceRayFromPixel M R u ray = lightHit u ray (k : Int) := by
  have hS := scan_spec (sphereOk M R ray) (sphereT M R ray) FLT_MAX R.scene.sphereCount
  have hL := scan_spec (lightOk M R ray) (lightT M R ray) (sphereScan M R ray).1
    R.scene.lightCount
  rcases traceRayFromPixel_cases M R u ray with ⟨k, hl, hp⟩ | ⟨_, _, hp⟩ | ⟨m, _, hs, hp⟩
  · obtain ⟨hk, hok, _⟩ := hL.2 k hl
    exact ⟨k, ⟨hk, hok.1, hok.2⟩, hp⟩
  · rw [hp] at h; simp at h
  · obtain ⟨_, hok, hd, _⟩ := hS.2 m hs
    have hdm : (sphereScan M R ray).1 = sphereT M R ray m := hd
    rw [hp, hdm] at h
    simp only [closestHit_hitDistance] at h
    exact absurd hok.2 (by rw [h]; exact lt_irrefl _)

/-- A payload of `traceRayFromHitpoint` with non-negative `hitDistance` was built by
`closestHit` for a sphere accepted below the bound, at its near root. -/
theorem traceRayFromHitpoint_of_nonneg (M : FloatMath K) (R : Renderer K) (u : HitPayload K)
    (ray : Ray K) (diff : K) (h : ¬(traceRayFromHitpoint M R u ray diff).hitDistance < 0) :
    ∃ m, sphereAcceptedBelow M R ray diff m ∧ sphereT M R ray m < FLT_MAX ∧
      traceRayFromHitpoint M R u ray diff =
        closestHit M R u ray (m : Int) (sphereT M R ray m) := by
  have hS := scan_spec (sphereOkBelow M R ray diff) (sphereT M R ray) FLT_MAX
    R.scene.sphereCount
  rcases traceRayFromHitpoint_cases M R u ray diff with ⟨_, hp⟩ | ⟨m, hs, hp⟩
  · rw [hp] at h
    exact absurd (by simp) h
  · obtain ⟨hm, hok, hd, hlt, _, _⟩ := hS.2 m hs
    have hdm : (shadowScan M R ray diff).1 = sphereT M R ray m := hd
    exact ⟨m, ⟨⟨hm, hok.1, hok.2.1⟩, hok.2.2⟩, hlt, by rw [hp, hdm]⟩

/-! ## C10: the payload encoding is well formed -/

/-- C10: for every scene and ray, the payload of `traceRayFromPixel` is in exactly one of the
three states Miss (`hitDistance < 0`), LightHit (`hitDistance = 0` and
`0 <= objectIndex < lightCount`) and SurfaceHit (`hitDistance > 0` and
`0 <= objectIndex < sphereCount`); the payload of `traceRayFromHitpoint` is a Miss or such a
SurfaceHit, never a LightHit. -/
theorem payload_wellFormed (M : FloatMath K) (R : Renderer K) (u : HitPayload K) (ray : Ray K)
    (maxDistance : K) :
    WellFormedPayload R (traceRayFromPixel M R u ray) ∧
    WellFormedShadowPayload R (traceRayFromHitpoint M R u ray maxDistance) := by
  constructor
  · rcases lt_trichotomy (traceRayFromPixel M R u ray).hitDistance 0 with h | h | h
    · exact Or.inl h
    · obtain ⟨k, hk, hp⟩ := traceRayFromPixel_of_zero M R u ray h
      refine Or.inr (Or.inl ⟨h, ?_, ?_⟩)
      · rw [hp]; simp
      · rw [hp]; simp only [lightHit_objectIndex]; exact_mod_cast hk.1
    · obtain ⟨m, hm, hp⟩ := traceRayFromPixel_of_pos M R u ray h
      refine Or.inr (Or.inr ⟨h, ?_, ?_⟩)
      · rw [hp]; simp
      · rw [hp]; simp only [closestHit_objectIndex]; exact_mod_cast hm.1.1
  · by_cases h : (traceRayFromHitpoint M R u ray maxDistance).hitDistance < 0
    · exact Or.inl h
    · obtain ⟨m, hm, _, hp⟩ := traceRayFromHitpoint_of_nonneg M R u ray maxDistance h
      refine Or.inr ⟨?_, ?_, ?_⟩
      · rw [hp]; exact hm.1.2.2
      · rw [hp]; simp
      · rw [hp]; simp only [closestHit_objectIndex]; exact_mod_cast hm.1.1

/-! ## C2: the hit point and the normal of a SurfaceHit -/

/-- With an exact square root of the discriminant, the point of the ray at the near root lies
on the sphere: its squared distance to the centre is `r * r`. -/
theorem nearRoot_on_sphere (M : FloatMath K) (center : Vec3 K) (radius : K) (ray : Ray K)
    (ha : ray.direction.dot ray.direction ≠ 0)
    (hs : SqrtExactAt M (discriminant center radius ray)) :
    ((ray.origin.add (ray.direction.scale (nearRoot M center radius ray))).sub center).dot
      ((ray.origin.add (ray.direction.scale (nearRoot M center radius ray))).sub center)
      = radius * radius := by
  obtain ⟨_, hsq⟩ := hs
  have ht : nearRoot M center radius ray * (2 * ray.direction.dot ray.direction) =
      -(2 * (ray.origin.sub center).dot ray.direction) -
        M.sqrt (discriminant center radius ray) := by
    unfold nearRoot
    field_simp
  generalize nearRoot M center radius ray = t at ht
  generalize M.sqrt (discriminant center radius ray) = s at ht hsq
  unfold discriminant at hsq
  simp only [Vec3.dot, Vec3.sub, Vec3.add, Vec3.scale] at *
  have key : 4 * (ray.direction.x * ray.direction.x + ray.direction.y * ray.direction.y +
      ray.direction.z * ray.direction.z) *
      ((ray.origin.x + ray.direction.x * t - center.x) *
        (ray.origin.x + ray.direction.x * t - center.x) +
       (ray.origin.y + ray.direction.y * t - center.y) *
        (ray.origin.y + ray.direction.y * t - center.y) +
       (ray.origin.z + ray.direction.z * t - center.z) *
        (ray.origin.z + ray.direction.z * t - center.z) - radius * radius) = 0 := by
    linear_combination
      (2 * (ray.direction.x * ray.direction.x + ray.direction.y * ray.direction.y +
        ray.direction.z * ray.direction.z) * t +
        2 * ((ray.origin.x - center.x) * ray.direction.x +
          (ray.origin.y - center.y) * ray.direction.y +
          (ray.origin.z - center.z) * ray.direction.z) - s) * ht + hsq
  rcases mul_eq_zero.mp key with h | h
  · exact absurd (by linarith) ha
  · linarith

/-- The normal that `glm::normalize` computes for a vector of squared length `r * r`, `r > 0`,
with an exact square root: it has unit length and a positive dot product with the vector. -/
theorem glmNormalize_unit (M : FloatMath K) (v : Vec3 K) (r : K) (hr : 0 < r)
    (hv : v.dot v = r * r) (hs : SqrtExactAt M (v.dot v)) :
    (glmNormalize M v).dot (glmNormalize M v) = 1 ∧ 0 < (glmNormalize M v).dot v := by
  obtain ⟨hq0, hq⟩ := hs
  have hqr : M.sqrt (v.dot v) = r := by
    rw [hv] at hq hq0 ⊢
    have h1 : (M.sqrt (r * r) - r) * (M.sqrt (r * r) + r) = 0 := by
      linear_combination hq
    rcases mul_eq_zero.mp h1 with h | h
    · linarith
    · linarith
  unfold glmNormalize
  rw [hqr]
  have hr0 : r ≠ 0 := ne_of_gt hr
  simp only [Vec3.dot, Vec3.scale] at *
  constructor
  · field_simp
    linear_combination hv
  · have : v.x * (1 / r) * v.x + v.y * (1 / r) * v.y + v.z * (1 / r) * v.z = r := by
      field_simp
      linear_combination hv
    rw [this]
    exact hr

/-- The geometry of a payload built by `closestHit` at the near root of an accepted sphere. -/
theorem closestHit_geometry (M : FloatMath K) (R : Renderer K) (u : HitPayload K) (ray : Ray K)
    (k : Nat) (hr : 0 < R.scene.sphereRadii k)
    (hdir : ray.direction.dot ray.direction ≠ 0)
    (hdelta : SqrtExactAt M (sphereDelta R ray k))
    (hnorm : SqrtExactAt M
      (((closestHit M R u ray (k : Int) (sphereT M R ray k)).hitPoint.sub
          (R.scene.spherePositions k)).dot
        ((closestHit M R u ray (k : Int) (sphereT M R ray k)).hitPoint.sub
          (R.scene.spherePositions k)))) :
    (closestHit M R u ray (k : Int) (sphereT M R ray k)).normal.dot
        (closestHit M R u ray (k : Int) (sphereT M R ray k)).normal = 1 ∧
    0 < (closestHit M R u ray (k : Int) (sphereT M R ray k)).normal.dot
        ((closestHit M R u ray (k : Int) (sphereT M R ray k)).hitPoint.sub
          (R.scene.spherePositions k)) := by
  have hon := nearRoot_on_sphere M (R.scene.spherePositions k) (R.scene.sphereRadii k) ray hdir
    hdelta
  simp only [closestHit, Int.toNat_ofNat, sphereT] at hnorm ⊢
  exact glmNormalize_unit M _ (R.scene.sphereRadii k) hr hon hnorm

/-- A vector is non-zero iff its squared length is non-zero. -/
theorem dot_self_ne_zero (v : Vec3 K) (h : v ≠ ⟨0, 0, 0⟩) : v.dot v ≠ 0 := by
  intro h0
  apply h
  simp only [Vec3.dot] at h0
  have hx : v.x = 0 := by nlinarith [mul_self_nonneg v.x, mul_self_nonneg v.y, mul_self_nonneg v.z]
  have hy : v.y = 0 := by nlinarith [mul_self_nonneg v.x, mul_self_nonneg v.y, mul_self_nonneg v.z]
  have hz : v.z = 0 := by nlinarith [mul_self_nonneg v.x, mul_self_nonneg v.y, mul_self_nonneg v.z]
  ext <;> assumption

/-- C2, as amended: in exact arithmetic, for every scene and ray for which `traceRayFromPixel`
or `traceRayFromHitpoint` returns a SurfaceHit on sphere `k`, the payload has
`hitPoint = origin + direction * t` with `t = hitDistance`, and, for a sphere of radius `> 0`
and a non-zero direction, when the two square roots taken by the code (of the discriminant and
of the squared length of `hitPoint - sphereCenter_k`) are exact, the normal has unit length
and points outward: `dot(normal, hitPoint - sphereCenter_k) > 0`. -/
theorem surfaceHit_geometry (M : FloatMath K) (R : Renderer K) (u : HitPayload K) (ray : Ray K)
    (maxDistance : K) (k : Nat) (p : HitPayload K)
    (hp : p = traceRayFromPixel M R u ray ∨ p = traceRayFromHitpoint M R u ray maxDistance)
    (hk : IsSurfaceHit p k) :
    p.hitPoint = ray.origin.add (ray.direction.scale p.hitDistance) ∧
    (0 < R.scene.sphereRadii k → ray.direction ≠ ⟨0, 0, 0⟩ →
      SqrtExactAt M (sphereDelta R ray k) →
      SqrtExactAt M ((p.hitPoint.sub (R.scene.spherePositions k)).dot
        (p.hitPoint.sub (R.scene.spherePositions k))) →
      p.normal.dot p.normal = 1 ∧
      0 < p.normal.dot (p.hitPoint.sub (R.scene.spherePositions k))) := by
  have hbuilt : p = closestHit M R u ray (k : Int) (sphereT M R ray k) := by
    rcases hp with hp | hp
    · have hpos : 0 < (traceRayFromPixel M R u ray).hitDistance := hp ▸ hk.1
      obtain ⟨m, _, hm⟩ := traceRayFromPixel_of_pos M R u ray hpos
      have hidx : ((m : Int) = (k : Int)) := by
        have := hk.2
        rw [hp, hm] at this
        exact this
      have hmk : m = k := by exact_mod_cast hidx
      rw [hp, hm, hmk]
    · have hpos : ¬(traceRayFromHitpoint M R u ray maxDistance).hitDistance < 0 :=
        not_lt.mpr (le_of_lt (hp ▸ hk.1))
      obtain ⟨m, _, _, hm⟩ := traceRayFromHitpoint_of_nonneg M R u ray maxDistance hpos
      have hidx : ((m : Int) = (k : Int)) := by
        have := hk.2
        rw [hp, hm] at this
        exact this
      have hmk : m = k := by exact_mod_cast hidx
      rw [hp, hm, hmk]
  subst hbuilt
  refine ⟨rfl, ?_⟩
  intro hr hdir hdelta hnorm
  exact closestHit_geometry M R u ray k hr (dot_self_ne_zero _ hdir) hdelta hnorm

/-- The rational square root is exact at every square of a non-negative rational. -/
theorem sqrtExactAt_mul_self (r : ℚ) (h : 0 ≤ r) : SqrtExactAt qMath (r * r) := by
  unfold SqrtExactAt
  have hq : qMath.sqrt (r * r) = r := qsqrt_mul_self r h
  rw [hq]
  exact ⟨h, rfl⟩

theorem example_sphereDelta : sphereDelta exampleRenderer exampleRay 0 = 2 * 2 := by
  simp only [sphereDelta, discriminant, exampleRenderer, mkRenderer, exampleScene, exampleRay,
    Vec3.sub, Vec3.dot]
  norm_num

theorem example_sphereT : sphereT qMath exampleRenderer exampleRay 0 = 4 := by
  have hd := example_sphereDelta
  unfold sphereDelta at hd
  unfold sphereT nearRoot
  rw [hd]
  have hq : qMath.sqrt (2 * 2) = 2 := qsqrt_mul_self 2 (by norm_num)
  rw [hq]
  simp only [exampleRenderer, mkRenderer, exampleScene, exampleRay, Vec3.sub, Vec3.dot]
  norm_num

theorem example_lightDelta : lightDelta exampleRenderer exampleRay 0 < 0 := by
  simp only [lightDelta, discriminant, exampleRenderer, mkRenderer, exampleScene, exampleRay,
    Vec3.sub, Vec3.dot]
  norm_num

theorem example_sphereScan : sphereScan qMath exampleRenderer exampleRay = (4, some 0) := by
  have hs : exampleRenderer.scene.sphereCount = 1 := rfl
  unfold sphereScan
  rw [hs, scan_succ]
  unfold scanStep
  rw [if_pos]
  · rw [example_sphereT]
  · refine ⟨⟨?_, ?_⟩, ?_⟩
    · rw [example_sphereDelta]; norm_num
    · rw [example_sphereT]; norm_num
    · rw [example_sphereT]
      show (4 : ℚ) < FLT_MAX
      unfold FLT_MAX
      norm_num

theorem example_lightScan : (lightScan qMath exampleRenderer exampleRay).2 = none := by
  have hl : exampleRenderer.scene.lightCount = 1 := rfl
  unfold lightScan
  rw [hl, scan_succ]
  unfold scanStep
  rw [if_neg]
  · rfl
  · rintro ⟨⟨h, _⟩, _⟩
    exact absurd example_lightDelta (not_lt.mpr h)

/-- The image-centre ray of the worked example hits sphere 0 at distance 4. -/
theorem example_trace : traceRayFromPixel qMath exampleRenderer zeroPayload exampleRay =
    closestHit qMath exampleRenderer zeroPayload exampleRay 0 4 := by
  have h := traceRayFromPixel_sphere qMath exampleRenderer zeroPayload exampleRay 0
    example_lightScan (by rw [example_sphereScan])
  rw [example_sphereScan] at h
  exact h

/-- Witness for C2: the worked example (sphere of radius 1 at the origin, ray from `(0, 0, 5)`
along `(0, 0, -1)`) is a SurfaceHit on sphere 0 with hit point on the ray, unit normal and
outward orientation. -/
theorem surfaceHit_geometry_witness :
    IsSurfaceHit (traceRayFromPixel qMath exampleRenderer zeroPayload exampleRay) 0 ∧
    (traceRayFromPixel qMath exampleRenderer zeroPayload exampleRay).hitPoint =
      exampleRay.origin.add (exampleRay.direction.scale
        (traceRayFromPixel qMath exampleRenderer zeroPayload exampleRay).hitDistance) ∧
    (traceRayFromPixel qMath exampleRenderer zeroPayload exampleRay).normal.dot
      (traceRayFromPixel qMath exampleRenderer zeroPayload exampleRay).normal = 1 ∧
    0 < (traceRayFromPixel qMath exampleRenderer zeroPayload exampleRay).normal.dot
      ((traceRayFromPixel qMath exampleRenderer zeroPayload exampleRay).hitPoint.sub
        (exampleRenderer.scene.spherePositions 0)) := by
  have hk : IsSurfaceHit (traceRayFromPixel qMath exampleRenderer zeroPayload exampleRay) 0 := by
    rw [example_trace]
    exact ⟨by simp, rfl⟩
  have h := surfaceHit_geometry qMath exampleRenderer zeroPayload exampleRay 0 0
    (traceRayFromPixel qMath exampleRenderer zeroPayload exampleRay) (Or.inl rfl) hk
  have hr : 0 < exampleRenderer.scene.sphereRadii 0 := by
    show (0 : ℚ) < 1
    norm_num
  have hdir : exampleRay.direction ≠ ⟨0, 0, 0⟩ := by
    intro h0
    have hz := congrArg Vec3.z h0
    simp [exampleRay] at hz
  have hdelta : SqrtExactAt qMath (sphereDelta exampleRenderer exampleRay 0) := by
    rw [example_sphereDelta]
    exact sqrtExactAt_mul_self 2 (by norm_num)
  have hnorm : SqrtExactAt qMath
      (((traceRayFromPixel qMath exampleRenderer zeroPayload exampleRay).hitPoint.sub
        (exampleRenderer.scene.spherePositions 0)).dot
      ((traceRayFromPixel qMath exampleRenderer zeroPayload exampleRay).hitPoint.sub
        (exampleRenderer.scene.spherePositions 0))) := by
    have hv : ((traceRayFromPixel qMath exampleRenderer zeroPayload exampleRay).hitPoint.sub
        (exampleRenderer.scene.spherePositions 0)).dot
      ((traceRayFromPixel qMath exampleRenderer zeroPayload exampleRay).hitPoint.sub
        (exampleRenderer.scene.spherePositions 0)) = 1 * 1 := by
      rw [example_trace]
      simp only [closestHit, exampleRenderer, mkRenderer, exampleScene, exampleRay, Vec3.sub,
        Vec3.dot, Vec3.add, Vec3.scale]
      norm_num
    rw [hv]
    exact sqrtExactAt_mul_self 1 (by norm_num)
  exact ⟨hk, h.1, h.2 hr hdir hdelta hnorm⟩

/-- Counterexample for C2 as stated, in binary32: for the sphere of radius `2^-10 > 0` centred
at `(0, 0, -1024)` and the ray from the origin along `(0, 0, -1)`, `c = 2^20 - 2^-20` rounds
to `2^20`, so `delta = 0` and `t = 1024`: `traceRayFromPixel` returns a SurfaceHit on sphere 0
whose hit point is the centre of the sphere and whose normal, `normalize` of the zero vector,
is `(NaN, NaN, NaN)`. The normal has no unit length (`dot(normal, normal)` is a NaN, not 1)
and `dot(normal, hitPoint - sphereCenter) > 0` is false. -/
theorem surfaceHit_geometry_binary32_fails :
    F32.lt (F32.ofInt 0) (Binary32.speckScene.sphereRadii 0) = true ∧
    Binary32.speckRay.direction.z = F32.ofInt (-1) ∧
    Binary32.speckHit.objectIndex = 0 ∧
    Binary32.speckHit.hitDistance = F32.ofInt 1024 ∧
    F32.lt (F32.ofInt 0) Binary32.speckHit.hitDistance = true ∧
    Binary32.speckHit.hitPoint = Binary32.speckScene.spherePositions 0 ∧
    Binary32.speckHit.normal = ⟨F32.nan, F32.nan, F32.nan⟩ ∧
    Binary32.dot Binary32.speckHit.normal Binary32.speckHit.normal = F32.nan ∧
    Binary32.dot Binary32.speckHit.normal Binary32.speckHit.normal ≠ F32.ofInt 1 ∧
    F32.lt (F32.ofInt 0) (Binary32.dot Binary32.speckHit.normal
      (Binary32.vsub Binary32.speckHit.hitPoint (Binary32.speckScene.spherePositions 0))) =
      false := by
  refine ⟨by set_option maxRecDepth 100000 in decide,
    by set_option maxRecDepth 100000 in decide,
    by set_option maxRecDepth 100000 in decide,
    by set_option maxRecDepth 100000 in decide,
    by set_option maxRecDepth 100000 in decide, ?_, ?_,
    by set_option maxRecDepth 100000 in decide,
    by set_option maxRecDepth 100000 in decide,
    by set_option maxRecDepth 100000 in decide⟩
  · ext <;> set_option maxRecDepth 100000 in decide
  · ext <;> set_option maxRecDepth 100000 in decide

/-! ## C6 and C7: what `rayGen` returns on a Miss and on a LightHit -/

/-- C6: for every scene and every primary ray such that no sphere and no light is accepted
(each has a negative discriminant or a near root `t <= 0`), `rayGen` returns exactly
`(skyColor, 1.0)`, whatever the albedos and the light colours. -/
theorem rayGen_miss_sky (M : FloatMath K) (R : Renderer K) (u : HitPayload K) (i j : Nat)
    (hS : ∀ k, ¬sphereAccepted M R (primaryRay R i j) k)
    (hL : ∀ k, ¬lightAccepted M R (primaryRay R i j) k) :
    rayGen M R u i j = Vec4.ofVec3 R.skyColor 1 := by
  have hneg : (traceRayFromPixel M R u (primaryRay R i j)).hitDistance < 0 := by
    rcases lt_trichotomy (traceRayFromPixel M R u (primaryRay R i j)).hitDistance 0 with h | h | h
    · exact h
    · obtain ⟨k, hk, _⟩ := traceRayFromPixel_of_zero M R u (primaryRay R i j) h
      exact absurd hk (hL k)
    · obtain ⟨m, hm, _⟩ := traceRayFromPixel_of_pos M R u (primaryRay R i j) h
      exact absurd hm.1 (hS m)
  unfold rayGen
  simp only [hneg, if_true]

theorem away_sphereDelta (k : Nat) :
    sphereDelta awayRenderer (primaryRay awayRenderer 0 0) k = 2 * 2 := by
  simp only [sphereDelta, discriminant, awayRenderer, mkRenderer, exampleScene, primaryRay,
    Camera.getRayOrigin, Vec3.sub, Vec3.dot]
  norm_num

theorem away_sphereT (k : Nat) :
    sphereT qMath awayRenderer (primaryRay awayRenderer 0 0) k = -6 := by
  have hd := away_sphereDelta k
  unfold sphereDelta at hd
  unfold sphereT nearRoot
  rw [hd]
  have hq : qMath.sqrt (2 * 2) = 2 := qsqrt_mul_self 2 (by norm_num)
  rw [hq]
  simp only [awayRenderer, mkRenderer, exampleScene, primaryRay, Camera.getRayOrigin, Vec3.sub,
    Vec3.dot]
  norm_num

theorem away_lightDelta (k : Nat) :
    lightDelta awayRenderer (primaryRay awayRenderer 0 0) k < 0 := by
  simp only [lightDelta, discriminant, awayRenderer, mkRenderer, exampleScene, primaryRay,
    Camera.getRayOrigin, Vec3.sub, Vec3.dot]
  norm_num

/-- Witness for C6: looking away from the worked example, the sphere has a near root
`t = -6 <= 0` and the light a negative discriminant, and the pixel is the sky colour. -/
theorem rayGen_miss_sky_witness :
    (∀ k, ¬sphereAccepted qMath awayRenderer (primaryRay awayRenderer 0 0) k) ∧
    (∀ k, ¬lightAccepted qMath awayRenderer (primaryRay awayRenderer 0 0) k) ∧
    rayGen qMath awayRenderer zeroPayload 0 0 = Vec4.ofVec3 awayRenderer.skyColor 1 := by
  have hS : ∀ k, ¬sphereAccepted qMath awayRenderer (primaryRay awayRenderer 0 0) k := by
    rintro k ⟨_, _, ht⟩
    rw [away_sphereT] at ht
    norm_num at ht
  have hL : ∀ k, ¬lightAccepted qMath awayRenderer (primaryRay awayRenderer 0 0) k := by
    rintro k ⟨_, hd, _⟩
    exact absurd (away_lightDelta k) (not_lt.mpr hd)
  exact ⟨hS, hL, rayGen_miss_sky qMath awayRenderer zeroPayload 0 0 hS hL⟩

/-- C7: for every scene and primary ray for which `traceRayFromPixel` selects light `k`,
`rayGen` returns exactly `(lightColors[k], 1.0)`: no ambient, Phong or shadow term, and no
albedo, enters the result. -/
theorem rayGen_lightHit (M : FloatMath K) (R : Renderer K) (u : HitPayload K) (i j k : Nat)
    (h : IsLightHit (traceRayFromPixel M R u (primaryRay R i j)) k) :
    rayGen M R u i j = Vec4.ofVec3 (R.scene.lightColors k) 1 := by
  obtain ⟨hd, hidx⟩ := h
  unfold rayGen
  simp only [hd, lt_irrefl, if_false, if_true, hidx, Int.toNat_ofNat]

theorem glow_sphereScan :
    sphereScan qMath glowRenderer (primaryRay glowRenderer 0 0) = (4, some 0) :=
  example_sphereScan

theorem glow_lightDelta :
    lightDelta glowRenderer (primaryRay glowRenderer 0 0) 0 = (1 / 5) * (1 / 5) := by
  simp only [lightDelta, discriminant, glowRenderer, mkRenderer, glowScene, primaryRay,
    Camera.getRayOrigin, Vec3.sub, Vec3.dot]
  norm_num

theorem glow_lightT : lightT qMath glowRenderer (primaryRay glowRenderer 0 0) 0 = 29 / 10 := by
  have hd := glow_lightDelta
  unfold lightDelta at hd
  unfold lightT nearRoot
  rw [hd]
  have hq : qMath.sqrt ((1 / 5) * (1 / 5)) = 1 / 5 := qsqrt_mul_self _ (by norm_num)
  rw [hq]
  simp only [glowRenderer, mkRenderer, glowScene, primaryRay, Camera.getRayOrigin, Vec3.sub,
    Vec3.dot]
  norm_num

theorem glow_lightScan :
    (lightScan qMath glowRenderer (primaryRay glowRenderer 0 0)).2 = some 0 := by
  have hl : glowRenderer.scene.lightCount = 1 := rfl
  unfold lightScan
  rw [hl, scan_succ, glow_sphereScan]
  unfold scanStep
  rw [if_pos]
  refine ⟨⟨?_, ?_⟩, ?_⟩
  · rw [glow_lightDelta]; norm_num
  · rw [glow_lightT]; norm_num
  · rw [glow_lightT]
    show (29 / 10 : ℚ) < (scan _ _ 4 0).1
    simp only [scan, List.range_zero, List.foldl_nil]
    norm_num

/-- Witness for C7: with a light at `(0, 0, 2)` in front of the sphere, the image-centre ray
is a LightHit on light 0 and the pixel is that light's colour `(3, 2, 1)` at full opacity. -/
theorem rayGen_lightHit_witness :
    IsLightHit (traceRayFromPixel qMath glowRenderer zeroPayload (primaryRay glowRenderer 0 0)) 0 ∧
    rayGen qMath glowRenderer zeroPayload 0 0 = ⟨3, 2, 1, 1⟩ := by
  have hk : IsLightHit
      (traceRayFromPixel qMath glowRenderer zeroPayload (primaryRay glowRenderer 0 0)) 0 := by
    rw [traceRayFromPixel_light qMath glowRenderer zeroPayload _ 0 glow_lightScan]
    exact ⟨rfl, rfl⟩
  exact ⟨hk, rayGen_lightHit qMath glowRenderer zeroPayload 0 0 0 hk⟩

/-! ## The lit viewport: one pixel on the sphere, five on the light -/

theorem qMath_sqrt_one : qMath.sqrt 1 = 1 := by
  have h := qsqrt_mul_self 1 (by norm_num)
  rw [mul_one] at h
  exact h

theorem qMath_sqrt_four : qMath.sqrt 4 = 2 := by
  have h := qsqrt_mul_self 2 (by norm_num)
  have e : (2 : ℚ) * 2 = 4 := by norm_num
  rw [e] at h
  exact h

theorem qMath_sqrt_sixteen : qMath.sqrt 16 = 4 := by
  have h := qsqrt_mul_self 4 (by norm_num)
  have e : (4 : ℚ) * 4 = 16 := by norm_num
  rw [e] at h
  exact h

theorem qMath_sqrt_sixtyfour : qMath.sqrt 64 = 8 := by
  have h := qsqrt_mul_self 8 (by norm_num)
  have e : (8 : ℚ) * 8 = 64 := by norm_num
  rw [e] at h
  exact h

theorem qMath_sqrt_nonneg (x : ℚ) : 0 ≤ qMath.sqrt x := by
  show 0 ≤ qsqrt x
  unfold qsqrt
  positivity

theorem lit_primaryRay_centre : primaryRay litRenderer 1 1 = exampleRay := rfl

theorem lit_primaryRay_other (i j : Nat) (h : i * 3 + j ≠ 4) :
    primaryRay litRenderer i j = awayRay := by
  simp only [primaryRay, litRenderer, awayRay, Camera.getRayOrigin, if_neg h]

theorem lit_sphereScan : sphereScan qMath litRenderer exampleRay = (4, some 0) := by
  have hs : litRenderer.scene.sphereCount = 1 := rfl
  have hd : sphereDelta litRenderer exampleRay 0 = 4 := by
    simp only [sphereDelta, discriminant, litRenderer, litScene, exampleRay, Vec3.sub, Vec3.dot]
    norm_num
  have ht : sphereT qMath litRenderer exampleRay 0 = 4 := by
    unfold sphereDelta at hd
    unfold sphereT nearRoot
    rw [hd, qMath_sqrt_four]
    simp only [litRenderer, litScene, exampleRay, Vec3.sub, Vec3.dot]
    norm_num
  unfold sphereScan
  rw [hs, scan_succ]
  unfold scanStep
  rw [if_pos]
  · rw [ht]
  · refine ⟨⟨?_, ?_⟩, ?_⟩
    · rw [hd]; norm_num
    · rw [ht]; norm_num
    · rw [ht]
      show (4 : ℚ) < FLT_MAX
      unfold FLT_MAX
      norm_num

theorem lit_lightScan : (lightScan qMath litRenderer exampleRay).2 = none := by
  have hl : litRenderer.scene.lightCount = 1 := rfl
  have hd : lightDelta litRenderer exampleRay 0 = (1 / 5) * (1 / 5) := by
    simp only [lightDelta, discriminant, litRenderer, litScene, exampleRay, Vec3.sub, Vec3.dot]
    norm_num
  have ht : lightT qMath litRenderer exampleRay 0 = -(41 / 10) := by
    unfold lightDelta at hd
    unfold lightT nearRoot
    rw [hd]
    have hq : qMath.sqrt ((1 / 5) * (1 / 5)) = 1 / 5 := qsqrt_mul_self _ (by norm_num)
    rw [hq]
    simp only [litRenderer, litScene, exampleRay, Vec3.sub, Vec3.dot]
    norm_num
  unfold lightScan
  rw [hl, scan_succ]
  unfold scanStep
  rw [if_neg]
  · rfl
  · rintro ⟨⟨_, h⟩, _⟩
    rw [ht] at h
    norm_num at h

theorem glmNormalize_unit_z : glmNormalize qMath (⟨0, 0, 1⟩ : Vec3 ℚ) = ⟨0, 0, 1⟩ := by
  have hdot : (⟨0, 0, 1⟩ : Vec3 ℚ).dot ⟨0, 0, 1⟩ = 1 := by
    simp only [Vec3.dot]; norm_num
  unfold glmNormalize
  rw [hdot, qMath_sqrt_one]
  simp only [Vec3.scale]
  norm_num

/-- The ray of pixel `(1, 1)` of the lit viewport hits sphere 0 at distance 4, at the point
`(0, 0, 1)` with normal `(0, 0, 1)`. -/
theorem lit_trace :
    traceRayFromPixel qMath litRenderer zeroPayload exampleRay = eclipsePayload := by
  have h := traceRayFromPixel_sphere qMath litRenderer zeroPayload exampleRay 0
    lit_lightScan (by rw [lit_sphereScan])
  rw [lit_sphereScan] at h
  rw [h]
  have hv : (exampleRay.origin.add (exampleRay.direction.scale 4)).sub
      (litRenderer.scene.spherePositions 0) = (⟨0, 0, 1⟩ : Vec3 ℚ) := by
    simp only [litRenderer, litScene, exampleRay, Vec3.sub, Vec3.add, Vec3.scale]
    norm_num
  have hpt : exampleRay.origin.add (exampleRay.direction.scale 4) = (⟨0, 0, 1⟩ : Vec3 ℚ) := by
    simp only [exampleRay, Vec3.add, Vec3.scale]
    norm_num
  show closestHit qMath litRenderer zeroPayload exampleRay ((0 : Nat) : Int) 4 = eclipsePayload
  simp only [closestHit, Int.toNat_ofNat]
  rw [hv, glmNormalize_unit_z, hpt]
  rfl

theorem lit_rayToLight : rayToLight qMath litRenderer eclipsePayload 0 = eclipseShadowRay := by
  have hv : (litRenderer.scene.lightPositions 0).sub eclipsePayload.hitPoint =
      (⟨0, 0, 8⟩ : Vec3 ℚ) := by
    simp only [litRenderer, litScene, eclipsePayload, Vec3.sub]
    norm_num
  have hn : glmNormalize qMath (⟨0, 0, 8⟩ : Vec3 ℚ) = ⟨0, 0, 1⟩ := by
    have hdot : (⟨0, 0, 8⟩ : Vec3 ℚ).dot ⟨0, 0, 8⟩ = 64 := by
      simp only [Vec3.dot]; norm_num
    unfold glmNormalize
    rw [hdot, qMath_sqrt_sixtyfour]
    simp only [Vec3.scale]
    norm_num
  unfold rayToLight
  rw [hv, hn]
  simp only [eclipsePayload, eclipseShadowRay, Vec3.add, Vec3.scale]
  norm_num

theorem lit_distanceToLight :
    glmLength qMath ((litRenderer.scene.lightPositions 0).sub eclipsePayload.hitPoint) = 8 := by
  have hdot : ((litRenderer.scene.lightPositions 0).sub eclipsePayload.hitPoint).dot
      ((litRenderer.scene.lightPositions 0).sub eclipsePayload.hitPoint) = 64 := by
    simp only [litRenderer, litScene, eclipsePayload, Vec3.sub, Vec3.dot]
    norm_num
  unfold glmLength
  rw [hdot, qMath_sqrt_sixtyfour]

/-- The shadow ray from `(0, 0, 1)` toward the light at `(0, 0, 9)` leaves the sphere: its
near root is negative, so no sphere is selected. -/
theorem lit_shadowScan : (shadowScan qMath litRenderer eclipseShadowRay 8).2 = none := by
  have hs : litRenderer.scene.sphereCount = 1 := rfl
  have hd : sphereDelta litRenderer eclipseShadowRay 0 = 4 := by
    simp only [sphereDelta, discriminant, litRenderer, litScene, eclipseShadowRay, Vec3.sub,
      Vec3.dot]
    norm_num
  have ht : sphereT qMath litRenderer eclipseShadowRay 0 = -(20001 / 10000) := by
    unfold sphereDelta at hd
    unfold sphereT nearRoot
    rw [hd, qMath_sqrt_four]
    simp only [litRenderer, litScene, eclipseShadowRay, Vec3.sub, Vec3.dot]
    norm_num
  unfold shadowScan
  rw [hs, scan_succ]
  unfold scanStep
  rw [if_neg]
  · rfl
  · rintro ⟨⟨_, h, _⟩, _⟩
    rw [ht] at h
    norm_num at h

/-- The shadow ray of pixel `(1, 1)` of the lit viewport toward the light is reported Miss. -/
theorem lit_shadow_miss :
    traceRayFromHitpoint qMath litRenderer zeroPayload
      (rayToLight qMath litRenderer eclipsePayload 0)
      (glmLength qMath ((litRenderer.scene.lightPositions 0).sub eclipsePayload.hitPoint)) =
      miss zeroPayload eclipseShadowRay := by
  rw [lit_rayToLight, lit_distanceToLight]
  exact traceRayFromHitpoint_miss qMath litRenderer zeroPayload eclipseShadowRay 8 lit_shadowScan

/-- The Phong term of the light at the hit point of pixel `(1, 1)`: the light, the normal and
the eye are aligned, so diffuse and specular factors are both 1 and the term is the light's
colour. -/
theorem lit_phong : phong qMath litRenderer eclipsePayload 0 = ⟨1 / 2, 1 / 4, 1 / 8, 1⟩ := by
  have hv : (litRenderer.scene.lightPositions 0).sub eclipsePayload.hitPoint =
      (⟨0, 0, 8⟩ : Vec3 ℚ) := by
    simp only [litRenderer, litScene, eclipsePayload, Vec3.sub]
    norm_num
  have hn : glmNormalize qMath (⟨0, 0, 8⟩ : Vec3 ℚ) = ⟨0, 0, 1⟩ := by
    have hdot : (⟨0, 0, 8⟩ : Vec3 ℚ).dot ⟨0, 0, 8⟩ = 64 := by
      simp only [Vec3.dot]; norm_num
    unfold glmNormalize
    rw [hdot, qMath_sqrt_sixtyfour]
    simp only [Vec3.scale]
    norm_num
  have he : litRenderer.camera.position.sub eclipsePayload.hitPoint = (⟨0, 0, 4⟩ : Vec3 ℚ) := by
    simp only [litRenderer, eclipsePayload, Vec3.sub]
    norm_num
  have hne : glmNormalize qMath (⟨0, 0, 4⟩ : Vec3 ℚ) = ⟨0, 0, 1⟩ := by
    have hdot : (⟨0, 0, 4⟩ : Vec3 ℚ).dot ⟨0, 0, 4⟩ = 16 := by
      simp only [Vec3.dot]; norm_num
    unfold glmNormalize
    rw [hdot, qMath_sqrt_sixteen]
    simp only [Vec3.scale]
    norm_num
  have hpow : qMath.pow 1 2 = 1 := by
    show qpow 1 2 = 1
    unfold qpow
    exact one_pow _
  unfold phong
  simp only [hv, hn, he, hne]
  simp only [eclipsePayload, litRenderer, litScene, glmReflect, glmMax, Vec3.neg, Vec3.dot,
    Vec3.sub, Vec3.scale, Vec3.add, Vec3.mul, Vec4.ofVec3, Int.toNat_zero]
  norm_num [hpow]

/-- Pixel `(1, 1)` of the lit viewport: the ambient term `1/5` plus the light's colour. -/
theorem lit_rayGen_centre :
    rayGen qMath litRenderer zeroPayload 1 1 = ⟨7 / 10, 9 / 20, 13 / 40, 1⟩ := by
  have hl : litRenderer.scene.lightCount = 1 := rfl
  have hstep : ∀ c, lightLoopStep qMath litRenderer zeroPayload eclipsePayload c 0 =
      c.add ⟨1 / 2, 1 / 4, 1 / 8, 1⟩ := by
    intro c
    unfold lightLoopStep
    simp only [lit_shadow_miss, miss_hitDistance, lit_phong]
    rw [if_pos (by norm_num)]
  unfold rayGen
  simp only [lit_primaryRay_centre, lit_trace, hl, List.range_succ, List.range_zero,
    List.nil_append, List.foldl_cons, List.foldl_nil, hstep]
  have hd : eclipsePayload.hitDistance = 4 := rfl
  have hi : eclipsePayload.objectIndex = 0 := rfl
  rw [hd, hi, if_neg (by norm_num), if_neg (by norm_num)]
  simp only [litRenderer, litScene, Vec4.clamp, Vec4.ofVec3, Vec4.add, Vec3.mul, Vec3.scale,
    glmClamp, glmMin, glmMax, Int.toNat_zero]
  norm_num

theorem lit_away_sphereScan : sphereScan qMath litRenderer awayRay = (FLT_MAX, none) := by
  have hs : litRenderer.scene.sphereCount = 1 := rfl
  have hd : sphereDelta litRenderer awayRay 0 = 4 := by
    simp only [sphereDelta, discriminant, litRenderer, litScene, awayRay, Vec3.sub, Vec3.dot]
    norm_num
  have ht : sphereT qMath litRenderer awayRay 0 = -6 := by
    unfold sphereDelta at hd
    unfold sphereT nearRoot
    rw [hd, qMath_sqrt_four]
    simp only [litRenderer, litScene, awayRay, Vec3.sub, Vec3.dot]
    norm_num
  unfold sphereScan
  rw [hs, scan_succ]
  unfold scanStep
  rw [if_neg]
  · rfl
  · rintro ⟨⟨_, h⟩, _⟩
    rw [ht] at h
    norm_num at h

theorem lit_away_lightScan : (lightScan qMath litRenderer awayRay).2 = some 0 := by
  have hl : litRenderer.scene.lightCount = 1 := rfl
  have hd : lightDelta litRenderer awayRay 0 = (1 / 5) * (1 / 5) := by
    simp only [lightDelta, discriminant, litRenderer, litScene, awayRay, Vec3.sub, Vec3.dot]
    norm_num
  have ht : lightT qMath litRenderer awayRay 0 = 39 / 10 := by
    unfold lightDelta at hd
    unfold lightT nearRoot
    rw [hd]
    have hq : qMath.sqrt ((1 / 5) * (1 / 5)) = 1 / 5 := qsqrt_mul_self _ (by norm_num)
    rw [hq]
    simp only [litRenderer, litScene, awayRay, Vec3.sub, Vec3.dot]
    norm_num
  unfold lightScan
  rw [hl, scan_succ, lit_away_sphereScan]
  unfold scanStep
  rw [if_pos]
  refine ⟨⟨?_, ?_⟩, ?_⟩
  · rw [hd]; norm_num
  · rw [ht]; norm_num
  · rw [ht]
    show (39 / 10 : ℚ) < (scan _ _ FLT_MAX 0).1
    simp only [scan, List.range_zero, List.foldl_nil]
    unfold FLT_MAX
    norm_num

/-- Every pixel of the lit viewport other than `(1, 1)` is a LightHit and has the light's
colour. -/
theorem lit_rayGen_other (i j : Nat) (h : i * 3 + j ≠ 4) :
    rayGen qMath litRenderer zeroPayload i j = ⟨1 / 2, 1 / 4, 1 / 8, 1⟩ := by
  unfold rayGen
  simp only [lit_primaryRay_other i j h,
    traceRayFromPixel_light qMath litRenderer zeroPayload awayRay 0 lit_away_lightScan,
    lightHit_hitDistance, lightHit_objectIndex, lt_irrefl, if_false, if_true]
  rfl

/-! ## C4: the colour of a SurfaceHit -/

theorem glmMax_zero (x : K) : glmMax 0 x = max 0 x := by
  unfold glmMax
  split
  · next h => exact (max_eq_right (le_of_lt h)).symm
  · next h => exact (max_eq_left (not_lt.mp h)).symm

theorem glmClamp_zero_one (x : K) : glmClamp x 0 1 = clamp01 x := by
  unfold glmClamp glmMin glmMax clamp01
  by_cases h0 : x < 0
  · have h1 : ¬((1 : K) < 0) := by norm_num
    simp only [h0, if_true, h1, if_false]
    rw [min_eq_left (by linarith), max_eq_left (le_of_lt h0)]
  · simp only [h0, if_false]
    by_cases h1 : 1 < x
    · simp only [h1, if_true]
      rw [min_eq_right (le_of_lt h1), max_eq_right (by norm_num)]
    · simp only [h1, if_false]
      rw [min_eq_left (not_lt.mp h1), max_eq_right (not_lt.mp h0)]

/-- The Phong term that `phong` computes is the Phong term of the specification, with
alpha 1. -/
theorem phong_eq (M : FloatMath K) (R : Renderer K) (p : HitPayload K) (s l : Nat)
    (hidx : p.objectIndex = (s : Int)) :
    phong M R p l = Vec4.ofVec3 (phongTerm M R s p.hitPoint p.normal l) 1 := by
  unfold phong phongTerm
  simp only [hidx, Int.toNat_ofNat, glmMax_zero]
  have hrefl : glmReflect
      (glmNormalize M ((R.scene.lightPositions l).sub p.hitPoint)).neg p.normal =
      (p.normal.scale (2 * p.normal.dot
        (glmNormalize M ((R.scene.lightPositions l).sub p.hitPoint)))).sub
        (glmNormalize M ((R.scene.lightPositions l).sub p.hitPoint)) := by
    generalize glmNormalize M ((R.scene.lightPositions l).sub p.hitPoint) = L
    simp only [glmReflect, Vec3.neg, Vec3.sub, Vec3.scale, Vec3.dot]
    ext <;> simp only <;> ring
  have hdot : (glmNormalize M ((R.scene.lightPositions l).sub p.hitPoint)).dot p.normal =
      p.normal.dot (glmNormalize M ((R.scene.lightPositions l).sub p.hitPoint)) := by
    simp only [Vec3.dot]; ring
  rw [hrefl, hdot]
  simp only [Vec4.ofVec3, Vec3.mul, Vec3.add, Vec3.scale]
  ext <;> simp only <;> ring

/-- The light loop of `rayGen` adds, channel by channel, the Phong terms of the unshadowed
lights to the colour it starts from. -/
theorem lightLoop_sum (M : FloatMath K) (R : Renderer K) (u : HitPayload K) (p : HitPayload K)
    (s : Nat) (hidx : p.objectIndex = (s : Int)) (c0 : Vec4 K) (n : Nat) :
    ((List.range n).foldl (lightLoopStep M R u p) c0).rgb =
      { x := c0.r + Finset.sum ((Finset.range n).filter (Unshadowed M R u p.hitPoint p.normal))
          (fun l => (phongTerm M R s p.hitPoint p.normal l).x)
        y := c0.g + Finset.sum ((Finset.range n).filter (Unshadowed M R u p.hitPoint p.normal))
          (fun l => (phongTerm M R s p.hitPoint p.normal l).y)
        z := c0.b + Finset.sum ((Finset.range n).filter (Unshadowed M R u p.hitPoint p.normal))
          (fun l => (phongTerm M R s p.hitPoint p.normal l).z) } := by
  induction n with
  | zero => simp [Vec4.rgb]
  | succ n ih =>
    rw [List.range_succ, List.foldl_append]
    simp only [List.foldl_cons, List.foldl_nil]
    generalize (List.range n).foldl (lightLoopStep M R u p) c0 = c at ih ⊢
    simp only [Vec4.rgb, Vec3.mk.injEq] at ih
    obtain ⟨hx, hy, hz⟩ := ih
    rw [Finset.range_succ, Finset.filter_insert]
    have hstep : lightLoopStep M R u p c n =
        if Unshadowed M R u p.hitPoint p.normal n then c.add (phong M R p n) else c := rfl
    rw [hstep]
    by_cases hun : Unshadowed M R u p.hitPoint p.normal n
    · have hnot : n ∉ (Finset.range n).filter (Unshadowed M R u p.hitPoint p.normal) := by
        simp
      rw [if_pos hun, if_pos hun, Finset.sum_insert hnot, Finset.sum_insert hnot,
        Finset.sum_insert hnot, phong_eq M R p s n hidx]
      simp only [Vec4.rgb, Vec4.add, Vec4.ofVec3, hx, hy, hz]
      ext <;> simp only <;> ring
    · rw [if_neg hun, if_neg hun]
      simp only [Vec4.rgb, hx, hy, hz]

/-- C4: for every scene and primary ray for which `traceRayFromPixel` returns a SurfaceHit on
sphere `s` with hit point `P` and normal `N`, the RGB that `rayGen` returns is the clamp to
`[0, 1]`, per channel, of `kAmbient * ambientColor * albedo_s` plus the sum, over exactly the
lights whose shadow ray is reported Miss by `traceRayFromHitpoint`, of the Phong term
`albedo_s * (kDiffuse * max(0, N.L) * lightColor_l + kSpecular * max(0, R.V)^kShininess *
lightColor_l)`. -/
theorem rayGen_surfaceHit (M : FloatMath K) (R : Renderer K) (u : HitPayload K) (i j s : Nat)
    (h : IsSurfaceHit (traceRayFromPixel M R u (primaryRay R i j)) s) :
    (rayGen M R u i j).rgb =
      shadedColor M R u s (traceRayFromPixel M R u (primaryRay R i j)).hitPoint
        (traceRayFromPixel M R u (primaryRay R i j)).normal := by
  obtain ⟨hd, hidx⟩ := h
  unfold rayGen
  simp only [not_lt.mpr (le_of_lt hd), ne_of_gt hd, if_false, hidx, Int.toNat_ofNat]
  have hsum := lightLoop_sum M R u (traceRayFromPixel M R u (primaryRay R i j)) s hidx
    (Vec4.ofVec3 ((R.ambientColor.scale R.kAmbient).mul (R.scene.sphereAlbedos s)) 1)
    R.scene.lightCount
  simp only [Vec4.rgb, Vec3.mk.injEq] at hsum
  obtain ⟨hx, hy, hz⟩ := hsum
  simp only [Vec4.rgb, Vec4.clamp, shadedColor, glmClamp_zero_one]
  rw [hx, hy, hz]
  rfl

/-- Witness for C4: pixel `(1, 1)` of the lit viewport is a SurfaceHit on sphere 0 at
`(0, 0, 1)`; the shadow ray toward the light at `(0, 0, 9)` is reported Miss, so the light is
in the sum, and its Phong term there is `(1/2, 1/4, 1/8)`; the RGB of the pixel is the shaded
colour of the specification, which is `(7/10, 9/20, 13/40)`: the ambient `1/5` plus that
term, below the clamp. -/
theorem rayGen_surfaceHit_witness :
    IsSurfaceHit (traceRayFromPixel qMath litRenderer zeroPayload
      (primaryRay litRenderer 1 1)) 0 ∧
    Unshadowed qMath litRenderer zeroPayload
      (traceRayFromPixel qMath litRenderer zeroPayload (primaryRay litRenderer 1 1)).hitPoint
      (traceRayFromPixel qMath litRenderer zeroPayload (primaryRay litRenderer 1 1)).normal 0 ∧
    phongTerm qMath litRenderer 0
      (traceRayFromPixel qMath litRenderer zeroPayload (primaryRay litRenderer 1 1)).hitPoint
      (traceRayFromPixel qMath litRenderer zeroPayload (primaryRay litRenderer 1 1)).normal 0 =
      ⟨1 / 2, 1 / 4, 1 / 8⟩ ∧
    (rayGen qMath litRenderer zeroPayload 1 1).rgb =
      shadedColor qMath litRenderer zeroPayload 0
        (traceRayFromPixel qMath litRenderer zeroPayload (primaryRay litRenderer 1 1)).hitPoint
        (traceRayFromPixel qMath litRenderer zeroPayload (primaryRay litRenderer 1 1)).normal ∧
    shadedColor qMath litRenderer zeroPayload 0
        (traceRayFromPixel qMath litRenderer zeroPayload (primaryRay litRenderer 1 1)).hitPoint
        (traceRayFromPixel qMath litRenderer zeroPayload (primaryRay litRenderer 1 1)).normal =
      ⟨7 / 10, 9 / 20, 13 / 40⟩ := by
  have htr : traceRayFromPixel qMath litRenderer zeroPayload (primaryRay litRenderer 1 1) =
      eclipsePayload := by
    rw [lit_primaryRay_centre]
    exact lit_trace
  have hk : IsSurfaceHit (traceRayFromPixel qMath litRenderer zeroPayload
      (primaryRay litRenderer 1 1)) 0 := by
    rw [htr]
    refine ⟨?_, rfl⟩
    show (0 : ℚ) < 4
    norm_num
  have hmain := rayGen_surfaceHit qMath litRenderer zeroPayload 1 1 0 hk
  have hun : Unshadowed qMath litRenderer zeroPayload
      (traceRayFromPixel qMath litRenderer zeroPayload (primaryRay litRenderer 1 1)).hitPoint
      (traceRayFromPixel qMath litRenderer zeroPayload (primaryRay litRenderer 1 1)).normal
      0 := by
    rw [htr]
    show IsMiss (traceRayFromHitpoint qMath litRenderer zeroPayload
      (rayToLight qMath litRenderer eclipsePayload 0)
      (glmLength qMath ((litRenderer.scene.lightPositions 0).sub eclipsePayload.hitPoint)))
    rw [lit_shadow_miss]
    show (-1 : ℚ) < 0
    norm_num
  have hterm : phongTerm qMath litRenderer 0
      (traceRayFromPixel qMath litRenderer zeroPayload (primaryRay litRenderer 1 1)).hitPoint
      (traceRayFromPixel qMath litRenderer zeroPayload (primaryRay litRenderer 1 1)).normal 0 =
      ⟨1 / 2, 1 / 4, 1 / 8⟩ := by
    rw [htr]
    have h := phong_eq qMath litRenderer eclipsePayload 0 0 rfl
    rw [lit_phong] at h
    simp only [Vec4.ofVec3, Vec4.mk.injEq] at h
    obtain ⟨hx, hy, hz, _⟩ := h
    ext
    · exact hx.symm
    · exact hy.symm
    · exact hz.symm
  refine ⟨hk, hun, hterm, hmain, ?_⟩
  rw [← hmain, lit_rayGen_centre]
  rfl

/-! ## C5: a shadowed light contributes nothing -/

/-- Folding a step that does nothing at index `l` over `0 .. n` is folding it over the
indices other than `l`. -/
theorem foldl_skip {C : Type} (g : C → Nat → C) (l : Nat) (hskip : ∀ c, g c l = c) (c : C)
    (n : Nat) (hl : l < n) :
    (List.range (n - 1)).foldl (fun c i => g c (skipIndex l i)) c =
      (List.range n).foldl g c := by
  induction n with
  | zero => exact absurd hl (Nat.not_lt_zero _)
  | succ n ih =>
    rw [Nat.add_sub_cancel, List.range_succ, List.foldl_append]
    simp only [List.foldl_cons, List.foldl_nil]
    rcases Nat.lt_succ_iff_lt_or_eq.mp hl with h | h
    · have ih2 := ih h
      obtain ⟨m, rfl⟩ : ∃ m, n = m + 1 := ⟨n - 1, by omega⟩
      rw [Nat.add_sub_cancel] at ih2
      rw [List.range_succ, List.foldl_append, ih2]
      simp only [List.foldl_cons, List.foldl_nil]
      have : skipIndex l m = m + 1 := by
        unfold skipIndex
        rw [if_neg (by omega)]
      rw [this, List.range_succ]
    · subst h
      rw [hskip]
      have hmap : ∀ (xs : List Nat), (∀ x ∈ xs, x < l) →
          xs.foldl (fun c i => g c (skipIndex l i)) c = xs.foldl g c := by
        intro xs
        induction xs using List.reverseRecOn with
        | nil => intro _; rfl
        | append_singleton xs x ihx =>
          intro hx
          rw [List.foldl_append, List.foldl_append, ihx (fun y hy => hx y (by simp [hy]))]
          simp only [List.foldl_cons, List.foldl_nil]
          have : skipIndex l x = x := by
            unfold skipIndex
            rw [if_pos (hx x (by simp))]
          rw [this]
      exact hmap (List.range l) (fun x hx => List.mem_range.mp hx)

/-- Removing a light does not change a SurfaceHit of `traceRayFromPixel`. -/
theorem traceRayFromPixel_removeLight (M : FloatMath K) (R : Renderer K) (u : HitPayload K)
    (ray : Ray K) (l : Nat) (h : 0 < (traceRayFromPixel M R u ray).hitDistance) :
    traceRayFromPixel M (R.removeLight l) u ray = traceRayFromPixel M R u ray := by
  have hS := scan_spec (sphereOk M R ray) (sphereT M R ray) FLT_MAX R.scene.sphereCount
  have hL := scan_spec (lightOk M R ray) (lightT M R ray) (sphereScan M R ray).1
    R.scene.lightCount
  have hL2 := scan_spec (lightOk M (R.removeLight l) ray) (lightT M (R.removeLight l) ray)
    (sphereScan M (R.removeLight l) ray).1 (R.removeLight l).scene.lightCount
  rcases traceRayFromPixel_cases M R u ray with ⟨k, _, hp⟩ | ⟨_, _, hp⟩ | ⟨m, hl, hs, hp⟩
  · rw [hp] at h; simp at h
  · rw [hp] at h
    simp at h
    exact absurd h (by norm_num)
  · have hs2 : (sphereScan M (R.removeLight l) ray).2 = some m := hs
    have hl2 : (lightScan M (R.removeLight l) ray).2 = none := by
      cases hc : (lightScan M (R.removeLight l) ray).2 with
      | none => rfl
      | some k =>
        obtain ⟨hk, hok, _, hlt, _, _⟩ := hL2.2 k hc
        have hk2 : skipIndex l k < R.scene.lightCount := by
          have hk' : k < R.scene.lightCount - 1 := hk
          unfold skipIndex
          split <;> omega
        have hok2 : lightOk M R ray (skipIndex l k) := hok
        have hlt2 : lightT M R ray (skipIndex l k) < (sphereScan M R ray).1 := hlt
        exact absurd hlt2 (not_lt.mpr ((hL.1 hl).2 _ hk2 hok2))
    rw [hp, traceRayFromPixel_sphere M (R.removeLight l) u ray m hl2 hs2]
    rfl

/-- C5: for every scene and primary ray that yields a SurfaceHit, if the shadow ray from the
hit point toward light `l` is blocked (`traceRayFromHitpoint` returns a SurfaceHit on some
sphere, hence at a distance strictly between 0 and the distance to `l`), then the colour
`rayGen` returns equals the colour it returns for the same scene with light `l` removed (the
primary ray hits the same surface point in both scenes). -/
theorem rayGen_shadowed_light (M : FloatMath K) (R : Renderer K) (u : HitPayload K)
    (i j l : Nat) (hl : l < R.scene.lightCount)
    (hsurf : 0 < (traceRayFromPixel M R u (primaryRay R i j)).hitDistance)
    (hblocked : ∃ k, IsSurfaceHit
      (traceRayFromHitpoint M R u
        (rayToLight M R (traceRayFromPixel M R u (primaryRay R i j)) l)
        (glmLength M ((R.scene.lightPositions l).sub
          (traceRayFromPixel M R u (primaryRay R i j)).hitPoint))) k) :
    rayGen M (R.removeLight l) u i j = rayGen M R u i j := by
  have hray : primaryRay (R.removeLight l) i j = primaryRay R i j := rfl
  have htrace := traceRayFromPixel_removeLight M R u (primaryRay R i j) l hsurf
  obtain ⟨k, hk, _⟩ := hblocked
  simp only [rayGen, hray, htrace, not_lt.mpr (le_of_lt hsurf), ne_of_gt hsurf, if_false]
  have hskip : ∀ c, lightLoopStep M R u (traceRayFromPixel M R u (primaryRay R i j)) c l = c := by
    intro c
    unfold lightLoopStep
    simp only [not_lt.mpr (le_of_lt hk), if_false]
  have hfold := foldl_skip (lightLoopStep M R u (traceRayFromPixel M R u (primaryRay R i j))) l
    hskip (Vec4.ofVec3 ((R.ambientColor.scale R.kAmbient).mul
      (R.scene.sphereAlbedos (traceRayFromPixel M R u (primaryRay R i j)).objectIndex.toNat)) 1)
    R.scene.lightCount hl
  rw [← hfold]
  rfl

theorem eclipse_sphereScan :
    sphereScan qMath eclipseRenderer (primaryRay eclipseRenderer 0 0) = (4, some 0) := by
  have hs : eclipseRenderer.scene.sphereCount = 2 := rfl
  have hd0 : sphereDelta eclipseRenderer (primaryRay eclipseRenderer 0 0) 0 = 4 := by
    simp only [sphereDelta, discriminant, eclipseRenderer, mkRenderer, eclipseScene, primaryRay,
      Camera.getRayOrigin, Vec3.sub, Vec3.dot, if_true]
    norm_num
  have ht0 : sphereT qMath eclipseRenderer (primaryRay eclipseRenderer 0 0) 0 = 4 := by
    unfold sphereDelta at hd0
    unfold sphereT nearRoot
    rw [hd0, qMath_sqrt_four]
    simp only [eclipseRenderer, mkRenderer, eclipseScene, primaryRay, Camera.getRayOrigin,
      Vec3.sub, Vec3.dot, if_true]
    norm_num
  have hd1 : sphereDelta eclipseRenderer (primaryRay eclipseRenderer 0 0) 1 = 4 := by
    simp only [sphereDelta, discriminant, eclipseRenderer, mkRenderer, eclipseScene, primaryRay,
      Camera.getRayOrigin, Vec3.sub, Vec3.dot, one_ne_zero, if_false]
    norm_num
  have ht1 : sphereT qMath eclipseRenderer (primaryRay eclipseRenderer 0 0) 1 = -3 := by
    unfold sphereDelta at hd1
    unfold sphereT nearRoot
    rw [hd1, qMath_sqrt_four]
    simp only [eclipseRenderer, mkRenderer, eclipseScene, primaryRay, Camera.getRayOrigin,
      Vec3.sub, Vec3.dot, one_ne_zero, if_false]
    norm_num
  unfold sphereScan
  rw [hs, scan_succ, scan_succ]
  have h0 : scan (sphereOk qMath eclipseRenderer (primaryRay eclipseRenderer 0 0))
      (sphereT qMath eclipseRenderer (primaryRay eclipseRenderer 0 0)) FLT_MAX 0 =
      (FLT_MAX, none) := rfl
  rw [h0]
  have hfirst : scanStep (sphereOk qMath eclipseRenderer (primaryRay eclipseRenderer 0 0))
      (sphereT qMath eclipseRenderer (primaryRay eclipseRenderer 0 0)) (FLT_MAX, none) 0 =
      (4, some 0) := by
    unfold scanStep
    rw [if_pos, ht0]
    refine ⟨⟨by rw [hd0]; norm_num, by rw [ht0]; norm_num⟩, ?_⟩
    rw [ht0]
    show (4 : ℚ) < FLT_MAX
    unfold FLT_MAX
    norm_num
  rw [hfirst]
  unfold scanStep
  rw [if_neg]
  rintro ⟨⟨_, h⟩, _⟩
  rw [ht1] at h
  norm_num at h

theorem eclipse_lightScan :
    (lightScan qMath eclipseRenderer (primaryRay eclipseRenderer 0 0)).2 = none := by
  have hl : eclipseRenderer.scene.lightCount = 1 := rfl
  have hd : lightDelta eclipseRenderer (primaryRay eclipseRenderer 0 0) 0 =
      (1 / 5) * (1 / 5) := by
    simp only [lightDelta, discriminant, eclipseRenderer, mkRenderer, eclipseScene, primaryRay,
      Camera.getRayOrigin, Vec3.sub, Vec3.dot]
    norm_num
  have ht : lightT qMath eclipseRenderer (primaryRay eclipseRenderer 0 0) 0 = -(41 / 10) := by
    unfold lightDelta at hd
    unfold lightT nearRoot
    rw [hd]
    have hq : qMath.sqrt ((1 / 5) * (1 / 5)) = 1 / 5 := qsqrt_mul_self _ (by norm_num)
    rw [hq]
    simp only [eclipseRenderer, mkRenderer, eclipseScene, primaryRay, Camera.getRayOrigin,
      Vec3.sub, Vec3.dot]
    norm_num
  unfold lightScan
  rw [hl, scan_succ]
  unfold scanStep
  rw [if_neg]
  · rfl
  · rintro ⟨⟨_, h⟩, _⟩
    rw [ht] at h
    norm_num at h

/-- The image-centre ray of the eclipse scene hits sphere 0 at `(0, 0, 1)`. -/
theorem eclipse_trace :
    traceRayFromPixel qMath eclipseRenderer zeroPayload (primaryRay eclipseRenderer 0 0) =
      eclipsePayload := by
  have h := traceRayFromPixel_sphere qMath eclipseRenderer zeroPayload
    (primaryRay eclipseRenderer 0 0) 0 eclipse_lightScan (by rw [eclipse_sphereScan])
  rw [eclipse_sphereScan] at h
  rw [h]
  have hv : ((primaryRay eclipseRenderer 0 0).origin.add
      ((primaryRay eclipseRenderer 0 0).direction.scale 4)).sub
      (eclipseRenderer.scene.spherePositions 0) = (⟨0, 0, 1⟩ : Vec3 ℚ) := by
    simp only [eclipseRenderer, mkRenderer, eclipseScene, primaryRay, Camera.getRayOrigin,
      Vec3.sub, Vec3.add, Vec3.scale, if_true]
    norm_num
  have hpt : (primaryRay eclipseRenderer 0 0).origin.add
      ((primaryRay eclipseRenderer 0 0).direction.scale 4) = (⟨0, 0, 1⟩ : Vec3 ℚ) := by
    simp only [eclipseRenderer, mkRenderer, eclipseScene, primaryRay, Camera.getRayOrigin,
      Vec3.add, Vec3.scale]
    norm_num
  have hn : glmNormalize qMath (⟨0, 0, 1⟩ : Vec3 ℚ) = ⟨0, 0, 1⟩ := by
    have hdot : (⟨0, 0, 1⟩ : Vec3 ℚ).dot ⟨0, 0, 1⟩ = 1 := by
      simp only [Vec3.dot]; norm_num
    unfold glmNormalize
    rw [hdot, qMath_sqrt_one]
    simp only [Vec3.scale]
    norm_num
  show closestHit qMath eclipseRenderer zeroPayload (primaryRay eclipseRenderer 0 0)
    ((0 : Nat) : Int) 4 = eclipsePayload
  simp only [closestHit, Int.toNat_ofNat]
  rw [hv, hn, hpt]
  rfl

theorem eclipse_rayToLight :
    rayToLight qMath eclipseRenderer eclipsePayload 0 = eclipseShadowRay := by
  have hv : (eclipseRenderer.scene.lightPositions 0).sub eclipsePayload.hitPoint =
      (⟨0, 0, 8⟩ : Vec3 ℚ) := by
    simp only [eclipseRenderer, mkRenderer, eclipseScene, eclipsePayload, Vec3.sub]
    norm_num
  have hn : glmNormalize qMath (⟨0, 0, 8⟩ : Vec3 ℚ) = ⟨0, 0, 1⟩ := by
    have hdot : (⟨0, 0, 8⟩ : Vec3 ℚ).dot ⟨0, 0, 8⟩ = 64 := by
      simp only [Vec3.dot]; norm_num
    unfold glmNormalize
    rw [hdot, qMath_sqrt_sixtyfour]
    simp only [Vec3.scale]
    norm_num
  unfold rayToLight
  rw [hv, hn]
  simp only [eclipsePayload, eclipseShadowRay, Vec3.add, Vec3.scale]
  norm_num

theorem eclipse_distanceToLight :
    glmLength qMath ((eclipseRenderer.scene.lightPositions 0).sub eclipsePayload.hitPoint) = 8 := by
  have hdot : ((eclipseRenderer.scene.lightPositions 0).sub eclipsePayload.hitPoint).dot
      ((eclipseRenderer.scene.lightPositions 0).sub eclipsePayload.hitPoint) = 64 := by
    simp only [eclipseRenderer, mkRenderer, eclipseScene, eclipsePayload, Vec3.sub, Vec3.dot]
    norm_num
  unfold glmLength
  rw [hdot, qMath_sqrt_sixtyfour]

theorem eclipse_shadowScan :
    shadowScan qMath eclipseRenderer eclipseShadowRay 8 = (49999 / 10000, some 1) := by
  have hs : eclipseRenderer.scene.sphereCount = 2 := rfl
  have hd0 : sphereDelta eclipseRenderer eclipseShadowRay 0 = 4 := by
    simp only [sphereDelta, discriminant, eclipseRenderer, mkRenderer, eclipseScene,
      eclipseShadowRay, Vec3.sub, Vec3.dot, if_true]
    norm_num
  have ht0 : sphereT qMath eclipseRenderer eclipseShadowRay 0 = -(20001 / 10000) := by
    unfold sphereDelta at hd0
    unfold sphereT nearRoot
    rw [hd0, qMath_sqrt_four]
    simp only [eclipseRenderer, mkRenderer, eclipseScene, eclipseShadowRay, Vec3.sub, Vec3.dot,
      if_true]
    norm_num
  have hd1 : sphereDelta eclipseRenderer eclipseShadowRay 1 = 4 := by
    simp only [sphereDelta, discriminant, eclipseRenderer, mkRenderer, eclipseScene,
      eclipseShadowRay, Vec3.sub, Vec3.dot, one_ne_zero, if_false]
    norm_num
  have ht1 : sphereT qMath eclipseRenderer eclipseShadowRay 1 = 49999 / 10000 := by
    unfold sphereDelta at hd1
    unfold sphereT nearRoot
    rw [hd1, qMath_sqrt_four]
    simp only [eclipseRenderer, mkRenderer, eclipseScene, eclipseShadowRay, Vec3.sub, Vec3.dot,
      one_ne_zero, if_false]
    norm_num
  unfold shadowScan
  rw [hs, scan_succ, scan_succ]
  have h0 : scan (sphereOkBelow qMath eclipseRenderer eclipseShadowRay 8)
      (sphereT qMath eclipseRenderer eclipseShadowRay) FLT_MAX 0 = (FLT_MAX, none) := rfl
  rw [h0]
  have hfirst : scanStep (sphereOkBelow qMath eclipseRenderer eclipseShadowRay 8)
      (sphereT qMath eclipseRenderer eclipseShadowRay) (FLT_MAX, none) 0 = (FLT_MAX, none) := by
    unfold scanStep
    rw [if_neg]
    rintro ⟨⟨_, h, _⟩, _⟩
    rw [ht0] at h
    norm_num at h
  rw [hfirst]
  unfold scanStep
  rw [if_pos, ht1]
  refine ⟨⟨by rw [hd1]; norm_num, by rw [ht1]; norm_num, by rw [ht1]; norm_num⟩, ?_⟩
  rw [ht1]
  show (49999 / 10000 : ℚ) < FLT_MAX
  unfold FLT_MAX
  norm_num

/-- Witness for C5: in the eclipse scene the image-centre ray hits sphere 0 at `(0, 0, 1)`,
the shadow ray toward the light at `(0, 0, 9)` is blocked by sphere 1 at distance `4.9999`,
and the pixel has the colour it has without the light. -/
theorem rayGen_shadowed_light_witness :
    0 < eclipseRenderer.scene.lightCount ∧
    0 < (traceRayFromPixel qMath eclipseRenderer zeroPayload
      (primaryRay eclipseRenderer 0 0)).hitDistance ∧
    IsSurfaceHit (traceRayFromHitpoint qMath eclipseRenderer zeroPayload
      (rayToLight qMath eclipseRenderer (traceRayFromPixel qMath eclipseRenderer zeroPayload
        (primaryRay eclipseRenderer 0 0)) 0)
      (glmLength qMath ((eclipseRenderer.scene.lightPositions 0).sub
        (traceRayFromPixel qMath eclipseRenderer zeroPayload
          (primaryRay eclipseRenderer 0 0)).hitPoint))) 1 ∧
    rayGen qMath (eclipseRenderer.removeLight 0) zeroPayload 0 0 =
      rayGen qMath eclipseRenderer zeroPayload 0 0 := by
  have hl : 0 < eclipseRenderer.scene.lightCount := by
    show 0 < 1
    decide
  have hsurf : 0 < (traceRayFromPixel qMath eclipseRenderer zeroPayload
      (primaryRay eclipseRenderer 0 0)).hitDistance := by
    rw [eclipse_trace]
    show (0 : ℚ) < 4
    norm_num
  have hblocked : IsSurfaceHit (traceRayFromHitpoint qMath eclipseRenderer zeroPayload
      (rayToLight qMath eclipseRenderer (traceRayFromPixel qMath eclipseRenderer zeroPayload
        (primaryRay eclipseRenderer 0 0)) 0)
      (glmLength qMath ((eclipseRenderer.scene.lightPositions 0).sub
        (traceRayFromPixel qMath eclipseRenderer zeroPayload
          (primaryRay eclipseRenderer 0 0)).hitPoint))) 1 := by
    rw [eclipse_trace, eclipse_rayToLight, eclipse_distanceToLight,
      traceRayFromHitpoint_sphere qMath eclipseRenderer zeroPayload eclipseShadowRay 8 1
        (by rw [eclipse_shadowScan]), eclipse_shadowScan]
    refine ⟨?_, rfl⟩
    show (0 : ℚ) < 49999 / 10000
    norm_num
  exact ⟨hl, hsurf, hblocked,
    rayGen_shadowed_light qMath eclipseRenderer zeroPayload 0 0 0 hl hsurf ⟨1, hblocked⟩⟩

/-! ## C8: packing a colour -/

/-- The bitwise OR of four bytes in disjoint positions is their weighted sum. -/
theorem pack_or_eq_add (r g b a : Nat) (hg : g < 256) (hb : b < 256) (ha : a < 256) :
    r <<< 24 ||| g <<< 16 ||| b <<< 8 ||| a = r * 2 ^ 24 + g * 2 ^ 16 + b * 2 ^ 8 + a := by
  simp only [Nat.shiftLeft_eq]
  have h1 : r * 2 ^ 24 ||| g * 2 ^ 16 = r * 2 ^ 24 + g * 2 ^ 16 := by
    have := Nat.mul_add_lt_is_or (i := 24) (b := g * 2 ^ 16) (by omega) r
    rw [Nat.mul_comm (2 ^ 24) r] at this
    exact this.symm
  have h2 : (r * 2 ^ 24 + g * 2 ^ 16) ||| b * 2 ^ 8 = r * 2 ^ 24 + g * 2 ^ 16 + b * 2 ^ 8 := by
    have := Nat.mul_add_lt_is_or (i := 16) (b := b * 2 ^ 8) (by omega) (r * 2 ^ 8 + g)
    have e : 2 ^ 16 * (r * 2 ^ 8 + g) = r * 2 ^ 24 + g * 2 ^ 16 := by ring
    rw [e] at this
    exact this.symm
  have h3 : (r * 2 ^ 24 + g * 2 ^ 16 + b * 2 ^ 8) ||| a =
      r * 2 ^ 24 + g * 2 ^ 16 + b * 2 ^ 8 + a := by
    have := Nat.mul_add_lt_is_or (i := 8) (b := a) (by omega) (r * 2 ^ 16 + g * 2 ^ 8 + b)
    have e : 2 ^ 8 * (r * 2 ^ 16 + g * 2 ^ 8 + b) = r * 2 ^ 24 + g * 2 ^ 16 + b * 2 ^ 8 := by
      ring
    rw [e] at this
    exact this.symm
  rw [h1, h2, h3]

/-- On `[0, 255]` the conversion to `unsigned char` is the floor, and it is a byte. -/
theorem toUChar_of_mem [FloorRing K] (x : K) (h0 : 0 ≤ x) (h1 : x ≤ 255) :
    ((toUChar x : Nat) : Int) = ⌊x⌋ ∧ toUChar x < 256 := by
  have hf0 : 0 ≤ ⌊x⌋ := Int.floor_nonneg.mpr h0
  have hf1 : ⌊x⌋ < 256 := by
    rw [Int.floor_lt]
    have : (255 : K) < ((256 : Int) : K) := by norm_num
    exact lt_of_le_of_lt h1 this
  unfold toUChar
  rw [if_pos h0, Int.emod_eq_of_lt hf0 hf1]
  constructor
  · exact Int.toNat_of_nonneg hf0
  · omega

/-- On colours with channels in `[0, 1]`, `toRGBA` is the weighted sum of the four floors. -/
theorem toRGBA_eq_sum [FloorRing K] (d : Vec4 K) (hr : 0 ≤ d.r ∧ d.r ≤ 1)
    (hg : 0 ≤ d.g ∧ d.g ≤ 1) (hb : 0 ≤ d.b ∧ d.b ≤ 1) (ha : 0 ≤ d.a ∧ d.a ≤ 1) :
    ∃ r g b a : Nat, r < 256 ∧ g < 256 ∧ b < 256 ∧ a < 256 ∧
      (r : Int) = ⌊255 * d.r⌋ ∧ (g : Int) = ⌊255 * d.g⌋ ∧ (b : Int) = ⌊255 * d.b⌋ ∧
      (a : Int) = ⌊255 * d.a⌋ ∧
      toRGBA d = r * 2 ^ 24 + g * 2 ^ 16 + b * 2 ^ 8 + a := by
  have scale0 : ∀ x : K, 0 ≤ x → 0 ≤ x * 255 := fun x hx => mul_nonneg hx (by norm_num)
  have scale1 : ∀ x : K, x ≤ 1 → x * 255 ≤ 255 := fun x hx => by linarith
  obtain ⟨er, lr⟩ := toUChar_of_mem (d.r * 255) (scale0 _ hr.1) (scale1 _ hr.2)
  obtain ⟨eg, lg⟩ := toUChar_of_mem (d.g * 255) (scale0 _ hg.1) (scale1 _ hg.2)
  obtain ⟨eb, lb⟩ := toUChar_of_mem (d.b * 255) (scale0 _ hb.1) (scale1 _ hb.2)
  obtain ⟨ea, la⟩ := toUChar_of_mem (d.a * 255) (scale0 _ ha.1) (scale1 _ ha.2)
  refine ⟨toUChar (d.r * 255), toUChar (d.g * 255), toUChar (d.b * 255),
    toUChar (d.a * 255), lr, lg, lb, la, ?_, ?_, ?_, ?_, ?_⟩
  · rw [er, mul_comm]
  · rw [eg, mul_comm]
  · rw [eb, mul_comm]
  · rw [ea, mul_comm]
  · unfold toRGBA
    simp only
    rw [pack_or_eq_add _ _ _ _ lg lb la]
    generalize toUChar (d.r * 255) = r at lr
    generalize toUChar (d.g * 255) = g at lg
    generalize toUChar (d.b * 255) = b at lb
    generalize toUChar (d.a * 255) = a at la
    omega

/-- C8: for every colour with all four channels in `[0, 1]`, `toRGBA` returns the word
`floor(255 r) * 2^24 + floor(255 g) * 2^16 + floor(255 b) * 2^8 + floor(255 a)` (truncation,
no rounding), each channel is recovered as `(word >> shift) & 0xFF`, and
`toRGBA(1.0, 0.5, 0.0, 1.0) = 0xFF7F00FF`. -/
theorem toRGBA_pack [FloorRing K] (c : Vec4 K)
    (hr : 0 ≤ c.r ∧ c.r ≤ 1) (hg : 0 ≤ c.g ∧ c.g ≤ 1) (hb : 0 ≤ c.b ∧ c.b ≤ 1)
    (ha : 0 ≤ c.a ∧ c.a ≤ 1) :
    ((toRGBA c : Nat) : Int) =
      ⌊255 * c.r⌋ * 2 ^ 24 + ⌊255 * c.g⌋ * 2 ^ 16 + ⌊255 * c.b⌋ * 2 ^ 8 + ⌊255 * c.a⌋ ∧
    (((toRGBA c >>> 24) &&& 0xFF : Nat) : Int) = ⌊255 * c.r⌋ ∧
    (((toRGBA c >>> 16) &&& 0xFF : Nat) : Int) = ⌊255 * c.g⌋ ∧
    (((toRGBA c >>> 8) &&& 0xFF : Nat) : Int) = ⌊255 * c.b⌋ ∧
    (((toRGBA c >>> 0) &&& 0xFF : Nat) : Int) = ⌊255 * c.a⌋ ∧
    toRGBA (⟨1, 1 / 2, 0, 1⟩ : Vec4 K) = 0xFF7F00FF := by
  obtain ⟨r, g, b, a, lr, lg, lb, la, er, eg, eb, ea, hw⟩ := toRGBA_eq_sum c hr hg hb ha
  refine ⟨?_, ?_, ?_, ?_, ?_, ?_⟩
  · rw [hw, ← er, ← eg, ← eb, ← ea]
    push_cast
    ring
  · rw [hw, ← er]
    have : (r * 2 ^ 24 + g * 2 ^ 16 + b * 2 ^ 8 + a) >>> 24 &&& 0xFF = r := by
      rw [Nat.shiftRight_eq_div_pow, show (0xFF : Nat) = 2 ^ 8 - 1 by norm_num,
        Nat.and_pow_two_sub_one_eq_mod]
      omega
    rw [this]
  · rw [hw, ← eg]
    have : (r * 2 ^ 24 + g * 2 ^ 16 + b * 2 ^ 8 + a) >>> 16 &&& 0xFF = g := by
      rw [Nat.shiftRight_eq_div_pow, show (0xFF : Nat) = 2 ^ 8 - 1 by norm_num,
        Nat.and_pow_two_sub_one_eq_mod]
      omega
    rw [this]
  · rw [hw, ← eb]
    have : (r * 2 ^ 24 + g * 2 ^ 16 + b * 2 ^ 8 + a) >>> 8 &&& 0xFF = b := by
      rw [Nat.shiftRight_eq_div_pow, show (0xFF : Nat) = 2 ^ 8 - 1 by norm_num,
        Nat.and_pow_two_sub_one_eq_mod]
      omega
    rw [this]
  · rw [hw, ← ea]
    have : (r * 2 ^ 24 + g * 2 ^ 16 + b * 2 ^ 8 + a) >>> 0 &&& 0xFF = a := by
      rw [Nat.shiftRight_eq_div_pow, show (0xFF : Nat) = 2 ^ 8 - 1 by norm_num,
        Nat.and_pow_two_sub_one_eq_mod]
      omega
    rw [this]
  · obtain ⟨r, g, b, a, lr, lg, lb, la, er, eg, eb, ea, hw⟩ :=
      toRGBA_eq_sum (⟨1, 1 / 2, 0, 1⟩ : Vec4 K) (by norm_num) (by norm_num) (by norm_num)
        (by norm_num)
    have f1 : ⌊(255 : K) * 1⌋ = 255 := by
      rw [Int.floor_eq_iff]; norm_num
    have f2 : ⌊(255 : K) * (1 / 2)⌋ = 127 := by
      rw [Int.floor_eq_iff]; norm_num
    have f3 : ⌊(255 : K) * 0⌋ = 0 := by
      rw [Int.floor_eq_iff]; norm_num
    simp only [f1] at er ea
    simp only [f2] at eg
    simp only [f3] at eb
    rw [hw]
    omega

/-- Witness for C8: the colour `(1.0, 0.5, 0.0, 1.0)` has its channels in `[0, 1]` and packs
to `0xFF7F00FF`. -/
theorem toRGBA_pack_witness : toRGBA (⟨1, 1 / 2, 0, 1⟩ : Vec4 ℚ) = 0xFF7F00FF :=
  (toRGBA_pack (⟨1, 1 / 2, 0, 1⟩ : Vec4 ℚ) (by norm_num) (by norm_num) (by norm_num)
    (by norm_num)).2.2.2.2.2

/-! ## C9: the CPU path of `render` fills the buffer -/

theorem applyWrites_length (ws : List (Nat × Nat)) :
    ∀ buf : List Nat, (applyWrites buf ws).length = buf.length := by
  induction ws with
  | nil => intro buf; rfl
  | cons w ws ih =>
    intro buf
    show (applyWrites (applyWrite buf w) ws).length = buf.length
    rw [ih, applyWrite, List.length_set]

/-- After a list of stores whose values at index `k` all equal `f k`, entry `k` holds `f k`
as soon as some store targets `k` or the entry held `f k` before. -/
theorem applyWrites_getElem (f : Nat → Nat) (k : Nat) (ws : List (Nat × Nat)) :
    ∀ buf : List Nat, k < buf.length → (∀ w ∈ ws, w.1 = k → w.2 = f k) →
      ((∃ w ∈ ws, w.1 = k) ∨ buf[k]? = some (f k)) →
      (applyWrites buf ws)[k]? = some (f k) := by
  induction ws with
  | nil =>
    intro buf _ _ h
    rcases h with ⟨w, hw, _⟩ | h
    · exact absurd hw (List.not_mem_nil _)
    · exact h
  | cons w ws ih =>
    intro buf hk hval h
    show (applyWrites (applyWrite buf w) ws)[k]? = some (f k)
    apply ih
    · rw [applyWrite, List.length_set]; exact hk
    · intro w2 hw2; exact hval w2 (List.mem_cons_of_mem _ hw2)
    · by_cases hwk : w.1 = k
      · right
        rw [applyWrite, hwk, List.getElem?_set_self hk, hval w (List.mem_cons_self _ _) hwk]
      · rcases h with ⟨w2, hw2, hw2k⟩ | h
        · rcases List.mem_cons.mp hw2 with e | e
          · exact absurd (e ▸ hw2k) hwk
          · exact Or.inl ⟨w2, e, hw2k⟩
        · right
          rw [applyWrite, List.getElem?_set_ne hwk]
          exact h

/-- Row-major indexing stays inside the buffer. -/
theorem rowMajor_lt (w h i j : Nat) (hi : i < h) (hj : j < w) : i * w + j < w * h := by
  have h1 : i * w + j < (i + 1) * w := by rw [Nat.succ_mul]; omega
  have h2 : (i + 1) * w ≤ h * w := Nat.mul_le_mul_right _ hi
  rw [Nat.mul_comm w h]
  omega

/-- Row-major indexing is inverted by division and remainder. -/
theorem rowMajor_div_mod (w i j : Nat) (hj : j < w) :
    (i * w + j) / w = i ∧ (i * w + j) % w = j := by
  have hw : 0 < w := by omega
  constructor
  · rw [Nat.mul_comm, Nat.mul_add_div hw, Nat.div_eq_of_lt hj, Nat.add_zero]
  · rw [Nat.mul_comm, Nat.mul_add_mod, Nat.mod_eq_of_lt hj]

/-- The targets of the stores of the first `n` rows are `0 .. n * width - 1`, in order. -/
theorem rowMajor_targets (width height : Nat) (v : Nat → Nat → Nat)
    (hsize : width * height ≤ 2 ^ 31 - 1) (n : Nat) (hn : n ≤ height) :
    ((List.range n).flatMap fun i =>
      (List.range width).map fun j => ((i * width + j) % 2 ^ 32, v i j)).map Prod.fst =
      List.range (n * width) := by
  induction n with
  | zero => simp
  | succ n ih =>
    rw [List.range_succ, List.flatMap_append, List.map_append, ih (by omega),
      List.flatMap_singleton, List.map_map, Nat.succ_mul, List.range_add]
    congr 1
    apply List.map_congr_left
    intro j hj
    have hj2 : j < width := List.mem_range.mp hj
    have hlt := rowMajor_lt width height n j (by omega) hj2
    show (n * width + j) % 2 ^ 32 = n * width + j
    exact Nat.mod_eq_of_lt (by omega)

theorem renderWrites_fst [FloorRing K] (M : FloatMath K) (R : Renderer K) (u : HitPayload K)
    (hsize : R.width * R.height ≤ 2 ^ 31 - 1) :
    (renderWrites M R u).map Prod.fst = List.range (R.width * R.height) := by
  have h := rowMajor_targets R.width R.height (fun i j => toRGBA (rayGen M R u i j)) hsize
    R.height (le_refl _)
  rw [Nat.mul_comm R.height R.width] at h
  exact h

theorem mem_renderWrites [FloorRing K] (M : FloatMath K) (R : Renderer K) (u : HitPayload K)
    (hsize : R.width * R.height ≤ 2 ^ 31 - 1) (w : Nat × Nat) (hw : w ∈ renderWrites M R u) :
    w.1 < R.width * R.height ∧
      w.2 = toRGBA (rayGen M R u (w.1 / R.width) (w.1 % R.width)) := by
  unfold renderWrites at hw
  obtain ⟨i, hi, hw2⟩ := List.mem_flatMap.mp hw
  obtain ⟨j, hj, rfl⟩ := List.mem_map.mp hw2
  have hi2 : i < R.height := List.mem_range.mp hi
  have hj2 : j < R.width := List.mem_range.mp hj
  have hlt := rowMajor_lt R.width R.height i j hi2 hj2
  have hidx : pixelIndex R i j = i * R.width + j := Nat.mod_eq_of_lt (by omega)
  obtain ⟨hd, hm⟩ := rowMajor_div_mod R.width i j hj2
  simp only [hidx, hd, hm]
  exact ⟨hlt, trivial⟩

/-- The packed word of a colour over the rationals whose channels lie in `[0, 1]`, from the
integer parts of the channels scaled by 255. -/
theorem toRGBA_of_floors (d : Vec4 ℚ) (r g b a : Nat) (hr : 0 ≤ d.r ∧ d.r ≤ 1)
    (hg : 0 ≤ d.g ∧ d.g ≤ 1) (hb : 0 ≤ d.b ∧ d.b ≤ 1) (ha : 0 ≤ d.a ∧ d.a ≤ 1)
    (er : ⌊255 * d.r⌋ = (r : Int)) (eg : ⌊255 * d.g⌋ = (g : Int))
    (eb : ⌊255 * d.b⌋ = (b : Int)) (ea : ⌊255 * d.a⌋ = (a : Int)) :
    toRGBA d = r * 2 ^ 24 + g * 2 ^ 16 + b * 2 ^ 8 + a := by
  obtain ⟨r1, g1, b1, a1, _, _, _, _, fr, fg, fb, fa, h⟩ := toRGBA_eq_sum d hr hg hb ha
  rw [er] at fr
  rw [eg] at fg
  rw [eb] at fb
  rw [ea] at fa
  rw [h, Int.ofNat_inj.mp fr, Int.ofNat_inj.mp fg, Int.ofNat_inj.mp fb, Int.ofNat_inj.mp fa]

/-- The light's colour `(1/2, 1/4, 1/8, 1)` packs to the bytes 127, 63, 31, 255. -/
theorem lit_toRGBA_light : toRGBA (⟨1 / 2, 1 / 4, 1 / 8, 1⟩ : Vec4 ℚ) = 0x7F3F1FFF := by
  rw [toRGBA_of_floors _ 127 63 31 255 (by norm_num) (by norm_num) (by norm_num) (by norm_num)
    (by rw [Int.floor_eq_iff]; norm_num) (by rw [Int.floor_eq_iff]; norm_num)
    (by rw [Int.floor_eq_iff]; norm_num) (by rw [Int.floor_eq_iff]; norm_num)]
  norm_num

/-- The colour `(7/10, 9/20, 13/40, 1)` of the lit sphere packs to the bytes 178, 114, 82,
255. -/
theorem lit_toRGBA_centre : toRGBA (⟨7 / 10, 9 / 20, 13 / 40, 1⟩ : Vec4 ℚ) = 0xB27252FF := by
  rw [toRGBA_of_floors _ 178 114 82 255 (by norm_num) (by norm_num) (by norm_num) (by norm_num)
    (by rw [Int.floor_eq_iff]; norm_num) (by rw [Int.floor_eq_iff]; norm_num)
    (by rw [Int.floor_eq_iff]; norm_num) (by rw [Int.floor_eq_iff]; norm_num)]
  norm_num

/-- The expected image of the lit viewport: the light's colour everywhere but at entry 4, the
pixel of row 1 and column 1, which shows the lit sphere. -/
theorem lit_expectedImage :
    expectedImage qMath litRenderer zeroPayload =
      [0x7F3F1FFF, 0x7F3F1FFF, 0x7F3F1FFF, 0x7F3F1FFF, 0xB27252FF, 0x7F3F1FFF] := by
  have hrange : List.range (litRenderer.width * litRenderer.height) = [0, 1, 2, 3, 4, 5] := rfl
  have h0 : toRGBA (rayGen qMath litRenderer zeroPayload (0 / litRenderer.width)
      (0 % litRenderer.width)) = 0x7F3F1FFF := by
    show toRGBA (rayGen qMath litRenderer zeroPayload 0 0) = _
    rw [lit_rayGen_other 0 0 (by decide)]
    exact lit_toRGBA_light
  have h1 : toRGBA (rayGen qMath litRenderer zeroPayload (1 / litRenderer.width)
      (1 % litRenderer.width)) = 0x7F3F1FFF := by
    show toRGBA (rayGen qMath litRenderer zeroPayload 0 1) = _
    rw [lit_rayGen_other 0 1 (by decide)]
    exact lit_toRGBA_light
  have h2 : toRGBA (rayGen qMath litRenderer zeroPayload (2 / litRenderer.width)
      (2 % litRenderer.width)) = 0x7F3F1FFF := by
    show toRGBA (rayGen qMath litRenderer zeroPayload 0 2) = _
    rw [lit_rayGen_other 0 2 (by decide)]
    exact lit_toRGBA_light
  have h3 : toRGBA (rayGen qMath litRenderer zeroPayload (3 / litRenderer.width)
      (3 % litRenderer.width)) = 0x7F3F1FFF := by
    show toRGBA (rayGen qMath litRenderer zeroPayload 1 0) = _
    rw [lit_rayGen_other 1 0 (by decide)]
    exact lit_toRGBA_light
  have h4 : toRGBA (rayGen qMath litRenderer zeroPayload (4 / litRenderer.width)
      (4 % litRenderer.width)) = 0xB27252FF := by
    show toRGBA (rayGen qMath litRenderer zeroPayload 1 1) = _
    rw [lit_rayGen_centre]
    exact lit_toRGBA_centre
  have h5 : toRGBA (rayGen qMath litRenderer zeroPayload (5 / litRenderer.width)
      (5 % litRenderer.width)) = 0x7F3F1FFF := by
    show toRGBA (rayGen qMath litRenderer zeroPayload 1 2) = _
    rw [lit_rayGen_other 1 2 (by decide)]
    exact lit_toRGBA_light
  unfold expectedImage
  rw [hrange]
  simp only [List.map_cons, List.map_nil, h0, h1, h2, h3, h4, h5]

/-- C9 (CPU path of `render`): for every width and height whose product fits the `int` that
sizes the buffer, `(i, j) -> i * width + j` is a bijection from the rows `i < height` and
columns `j < width` onto the indices `0 .. width * height - 1`; and for every order in which
the per-pixel stores are executed, every entry is the target of exactly one store and the
final buffer holds `toRGBA(rayGen(i, j))` at entry `i * width + j`, whatever it held before. -/
theorem render_fills_buffer [FloorRing K] (M : FloatMath K) (R : Renderer K) (u : HitPayload K)
    (hsize : R.width * R.height ≤ 2 ^ 31 - 1) :
    (∀ i j, i < R.height → j < R.width → i * R.width + j < R.width * R.height) ∧
    (∀ idx, idx < R.width * R.height →
      ∃! p : Nat × Nat, p.1 < R.height ∧ p.2 < R.width ∧ p.1 * R.width + p.2 = idx) ∧
    (∀ ws : List (Nat × Nat), ws.Perm (renderWrites M R u) →
      (ws.map Prod.fst).Perm (List.range (R.width * R.height)) ∧
      ∀ imageData : List Nat, imageData.length = R.width * R.height →
        applyWrites imageData ws = expectedImage M R u) ∧
    (∀ imageData : List Nat, imageData.length = R.width * R.height →
      renderCPU M R u imageData = expectedImage M R u) ∧
    (∀ i j, i < R.height → j < R.width →
      (expectedImage M R u)[i * R.width + j]? = some (toRGBA (rayGen M R u i j))) := by
  have hperm : ∀ ws : List (Nat × Nat), ws.Perm (renderWrites M R u) →
      (ws.map Prod.fst).Perm (List.range (R.width * R.height)) ∧
      ∀ imageData : List Nat, imageData.length = R.width * R.height →
        applyWrites imageData ws = expectedImage M R u := by
    intro ws hws
    have hfst : (ws.map Prod.fst).Perm (List.range (R.width * R.height)) := by
      rw [← renderWrites_fst M R u hsize]
      exact hws.map _
    refine ⟨hfst, ?_⟩
    intro imageData hlen
    apply List.ext_getElem?
    intro k
    by_cases hk : k < R.width * R.height
    · have hexp : (expectedImage M R u)[k]? =
          some (toRGBA (rayGen M R u (k / R.width) (k % R.width))) := by
        unfold expectedImage
        rw [List.getElem?_map, List.getElem?_range hk]
        rfl
      rw [hexp]
      apply applyWrites_getElem (fun k => toRGBA (rayGen M R u (k / R.width) (k % R.width))) k
      · rw [hlen]; exact hk
      · intro w hw hwk
        have := (mem_renderWrites M R u hsize w (hws.mem_iff.mp hw)).2
        rw [hwk] at this
        exact this
      · left
        have hmem : k ∈ ws.map Prod.fst := hfst.mem_iff.mpr (List.mem_range.mpr hk)
        obtain ⟨w, hw, hwk⟩ := List.mem_map.mp hmem
        exact ⟨w, hw, hwk⟩
    · rw [List.getElem?_eq_none (by rw [applyWrites_length, hlen]; omega),
        List.getElem?_eq_none (by unfold expectedImage; simp; omega)]
  refine ⟨?_, ?_, hperm, ?_, ?_⟩
  · intro i j hi hj
    exact rowMajor_lt R.width R.height i j hi hj
  · intro idx hidx
    have hw : 0 < R.width := by
      rcases Nat.eq_zero_or_pos R.width with h | h
      · rw [h, Nat.zero_mul] at hidx; exact absurd hidx (Nat.not_lt_zero _)
      · exact h
    refine ⟨(idx / R.width, idx % R.width), ⟨?_, Nat.mod_lt _ hw, ?_⟩, ?_⟩
    · exact Nat.div_lt_of_lt_mul hidx
    · show idx / R.width * R.width + idx % R.width = idx
      rw [Nat.mul_comm]; exact Nat.div_add_mod idx R.width
    · rintro ⟨i, j⟩ ⟨_, hj, he⟩
      simp only at hj he
      obtain ⟨hd, hm⟩ := rowMajor_div_mod R.width i j hj
      rw [← he, hd, hm]
  · intro imageData hlen
    exact (hperm (renderWrites M R u) (List.Perm.refl _)).2 imageData hlen
  · intro i j hi hj
    have hlt := rowMajor_lt R.width R.height i j hi hj
    obtain ⟨hd, hm⟩ := rowMajor_div_mod R.width i j hj
    unfold expectedImage
    rw [List.getElem?_map, List.getElem?_range hlt]
    simp only [Option.map_some', hd, hm]

/-- Witness for C9: the lit viewport of 2 rows and 3 columns. With the six stores executed in
the reverse of the row-major order on a zeroed buffer, and in row-major order on another
buffer, every entry is written once and the buffer ends as the expected image: the light's
colour `0x7F3F1FFF` at five entries and the lit sphere's colour `0xB27252FF` at entry
`1 * 3 + 1`. -/
theorem render_fills_buffer_witness :
    litRenderer.width * litRenderer.height ≤ 2 ^ 31 - 1 ∧
    (((renderWrites qMath litRenderer zeroPayload).reverse).map Prod.fst).Perm
      (List.range 6) ∧
    applyWrites [0, 0, 0, 0, 0, 0] (renderWrites qMath litRenderer zeroPayload).reverse =
      [0x7F3F1FFF, 0x7F3F1FFF, 0x7F3F1FFF, 0x7F3F1FFF, 0xB27252FF, 0x7F3F1FFF] ∧
    renderCPU qMath litRenderer zeroPayload [1, 2, 3, 4, 5, 6] =
      [0x7F3F1FFF, 0x7F3F1FFF, 0x7F3F1FFF, 0x7F3F1FFF, 0xB27252FF, 0x7F3F1FFF] ∧
    (expectedImage qMath litRenderer zeroPayload)[1 * litRenderer.width + 1]? =
      some (toRGBA (rayGen qMath litRenderer zeroPayload 1 1)) := by
  have hsize : litRenderer.width * litRenderer.height ≤ 2 ^ 31 - 1 := by decide
  have h := render_fills_buffer qMath litRenderer zeroPayload hsize
  have hrev := h.2.2.1 (renderWrites qMath litRenderer zeroPayload).reverse
    (List.reverse_perm _)
  refine ⟨hsize, hrev.1, ?_, ?_, h.2.2.2.2 1 1 (by decide) (by decide)⟩
  · rw [← lit_expectedImage]
    exact hrev.2 [0, 0, 0, 0, 0, 0] rfl
  · rw [← lit_expectedImage]
    exact h.2.2.2.1 [1, 2, 3, 4, 5, 6] rfl

/-! ## C11: a ray that starts inside a sphere misses that sphere -/

/-- With an exact square root of the discriminant, a non-zero direction and an origin strictly
inside the sphere (`c < 0` in the quadratic), the near root is negative. -/
theorem nearRoot_neg_of_inside (M : FloatMath K) (center : Vec3 K) (radius : K) (ray : Ray K)
    (ha : ray.direction.dot ray.direction ≠ 0)
    (hin : (ray.origin.sub center).dot (ray.origin.sub center) < radius * radius)
    (hs : SqrtExactAt M (discriminant center radius ray)) :
    nearRoot M center radius ray < 0 := by
  obtain ⟨hs0, hsq⟩ := hs
  have ha0 : 0 ≤ ray.direction.dot ray.direction := by
    simp only [Vec3.dot]
    nlinarith [mul_self_nonneg ray.direction.x, mul_self_nonneg ray.direction.y,
      mul_self_nonneg ray.direction.z]
  have hapos : 0 < ray.direction.dot ray.direction := lt_of_le_of_ne ha0 (Ne.symm ha)
  unfold nearRoot
  apply div_neg_of_neg_of_pos _ (by linarith)
  generalize M.sqrt (discriminant center radius ray) = s at hs0 hsq
  unfold discriminant at hsq
  generalize (ray.origin.sub center).dot ray.direction = od at hsq ⊢
  generalize (ray.origin.sub center).dot (ray.origin.sub center) = oo at hsq hin
  generalize ray.direction.dot ray.direction = a at hsq hapos
  have hgt : (2 * od) * (2 * od) < s * s := by
    rw [hsq]
    nlinarith [mul_pos hapos (sub_pos.mpr hin)]
  by_contra hneg
  have h1 : s ≤ -(2 * od) := by linarith
  nlinarith [mul_self_le_mul_self hs0 h1]

/-- C11, as amended: in exact arithmetic, for every scene, every sphere `k` and every ray with
non-zero direction whose origin lies strictly inside sphere `k` as the intersection test
computes it (`dot(origin - center_k, origin - center_k) < radius_k * radius_k`, that is
`c < 0`), when the square root of the discriminant is exact, the near root of sphere `k` is
negative, sphere `k` is not accepted, and neither `traceRayFromPixel` nor
`traceRayFromHitpoint` returns a SurfaceHit on sphere `k`. -/
theorem inside_sphere_not_hit (M : FloatMath K) (R : Renderer K) (ray : Ray K) (k : Nat)
    (hdir : ray.direction ≠ ⟨0, 0, 0⟩)
    (hin : (ray.origin.sub (R.scene.spherePositions k)).dot
      (ray.origin.sub (R.scene.spherePositions k)) <
        R.scene.sphereRadii k * R.scene.sphereRadii k)
    (hs : SqrtExactAt M (sphereDelta R ray k)) :
    sphereT M R ray k < 0 ∧ ¬sphereAccepted M R ray k ∧
    (∀ u, ¬IsSurfaceHit (traceRayFromPixel M R u ray) k) ∧
    (∀ u maxDistance, ¬IsSurfaceHit (traceRayFromHitpoint M R u ray maxDistance) k) := by
  have hneg : sphereT M R ray k < 0 :=
    nearRoot_neg_of_inside M _ _ ray (dot_self_ne_zero _ hdir) hin hs
  have hnot : ¬sphereAccepted M R ray k := fun h => absurd h.2.2 (not_lt.mpr (le_of_lt hneg))
  refine ⟨hneg, hnot, ?_, ?_⟩
  · intro u hk
    obtain ⟨m, hm, hp⟩ := traceRayFromPixel_of_pos M R u ray hk.1
    have hidx : ((m : Int) = (k : Int)) := by
      have := hk.2
      rw [hp] at this
      exact this
    have hmk : m = k := by exact_mod_cast hidx
    rw [hmk] at hm
    exact hnot hm.1
  · intro u maxDistance hk
    obtain ⟨m, hm, _, hp⟩ := traceRayFromHitpoint_of_nonneg M R u ray maxDistance
      (not_lt.mpr (le_of_lt hk.1))
    have hidx : ((m : Int) = (k : Int)) := by
      have := hk.2
      rw [hp] at this
      exact this
    have hmk : m = k := by exact_mod_cast hidx
    rw [hmk] at hm
    exact hnot hm.1

theorem inside_sphereDelta : sphereDelta exampleRenderer insideRay 0 = 2 * 2 := by
  simp only [sphereDelta, discriminant, exampleRenderer, mkRenderer, exampleScene, insideRay,
    Vec3.sub, Vec3.dot]
  norm_num

/-- Witness for C11: the ray from `(0, 0, 1/2)`, inside the unit sphere of the worked example,
along `(0, 0, -1)` has a negative near root and never yields a SurfaceHit on sphere 0. -/
theorem inside_sphere_not_hit_witness :
    insideRay.direction ≠ ⟨0, 0, 0⟩ ∧
    (insideRay.origin.sub (exampleRenderer.scene.spherePositions 0)).dot
      (insideRay.origin.sub (exampleRenderer.scene.spherePositions 0)) <
        exampleRenderer.scene.sphereRadii 0 * exampleRenderer.scene.sphereRadii 0 ∧
    sphereT qMath exampleRenderer insideRay 0 < 0 ∧
    (∀ u, ¬IsSurfaceHit (traceRayFromPixel qMath exampleRenderer u insideRay) 0) ∧
    (∀ u maxDistance,
      ¬IsSurfaceHit (traceRayFromHitpoint qMath exampleRenderer u insideRay maxDistance) 0) := by
  have hdir : insideRay.direction ≠ ⟨0, 0, 0⟩ := by
    intro h0
    have hz := congrArg Vec3.z h0
    simp [insideRay] at hz
  have hin : (insideRay.origin.sub (exampleRenderer.scene.spherePositions 0)).dot
      (insideRay.origin.sub (exampleRenderer.scene.spherePositions 0)) <
        exampleRenderer.scene.sphereRadii 0 * exampleRenderer.scene.sphereRadii 0 := by
    simp only [exampleRenderer, mkRenderer, exampleScene, insideRay, Vec3.sub, Vec3.dot]
    norm_num
  have hs : SqrtExactAt qMath (sphereDelta exampleRenderer insideRay 0) := by
    rw [inside_sphereDelta]
    exact sqrtExactAt_mul_self 2 (by norm_num)
  have h := inside_sphere_not_hit qMath exampleRenderer insideRay 0 hdir hin hs
  exact ⟨hdir, hin, h.1, h.2.2.1, h.2.2.2⟩

/-- Counterexample for C11 as stated, in binary32: the sphere of radius `16274561 * 2^-17`
(about 124.165) centred at `(-5533579 * 2^-18, 11456249 * 2^-16, 0)` and the ray from
`(6730913 * 2^-16, 5422617 * 2^-15, 2^-5)` along `(0, 0, -1)`. The origin is strictly inside
the sphere (the exact `|origin - center|^2 - radius^2` is about `-3.5e-5`), but the rounded
`c` is `+2^-10`, so `delta = 0` and `t = 2^-5 > 0`: `traceRayFromPixel` returns a SurfaceHit
on sphere 0. -/
theorem inside_sphere_hit_binary32 :
    (Binary32.shellRay.origin.x.toRat - (Binary32.shellScene.spherePositions 0).x.toRat) ^ 2 +
      (Binary32.shellRay.origin.y.toRat - (Binary32.shellScene.spherePositions 0).y.toRat) ^ 2 +
      (Binary32.shellRay.origin.z.toRat - (Binary32.shellScene.spherePositions 0).z.toRat) ^ 2 <
      (Binary32.shellScene.sphereRadii 0).toRat ^ 2 ∧
    0 < (Binary32.shellScene.sphereRadii 0).toRat ∧
    Binary32.shellRay.direction.z = F32.ofInt (-1) ∧
    Binary32.shellHit.objectIndex = 0 ∧
    Binary32.shellHit.hitDistance = F32.round 1 (-5) ∧
    F32.lt (F32.ofInt 0) Binary32.shellHit.hitDistance = true := by
  have ox : Binary32.shellRay.origin.x = F32.finite 13461826 (-17) := by decide
  have oy : Binary32.shellRay.origin.y = F32.finite 10845234 (-16) := by decide
  have oz : Binary32.shellRay.origin.z = F32.finite 8388608 (-28) := by decide
  have cx : (Binary32.shellScene.spherePositions 0).x = F32.finite (-11067158) (-19) := by
    decide
  have cy : (Binary32.shellScene.spherePositions 0).y = F32.finite 11456249 (-16) := by decide
  have cz : (Binary32.shellScene.spherePositions 0).z = F32.finite 0 (-149) := by decide
  have hr : Binary32.shellScene.sphereRadii 0 = F32.finite 16274561 (-17) := by decide
  refine ⟨?_, ?_, by decide,
    by set_option maxRecDepth 100000 in decide,
    by set_option maxRecDepth 100000 in decide,
    by set_option maxRecDepth 100000 in decide⟩
  · rw [ox, oy, oz, cx, cy, cz, hr]
    simp only [F32.toRat]
    norm_num
  · rw [hr]
    simp only [F32.toRat]
    norm_num

/-! ## C12: a zero direction is a Miss -/

/-- For a zero direction the near root is `0`: the quotient by `2 a = 0`. -/
theorem nearRoot_zero_direction (M : FloatMath K) (center : Vec3 K) (radius : K) (ray : Ray K)
    (h : ray.direction = ⟨0, 0, 0⟩) : nearRoot M center radius ray = 0 := by
  unfold nearRoot
  have ha : ray.direction.dot ray.direction = 0 := by
    rw [h]; simp [Vec3.dot]
  rw [ha, mul_zero, div_zero]

/-- For a zero direction no running minimum of either routine selects anything. -/
theorem scans_zero_direction (M : FloatMath K) (R : Renderer K) (ray : Ray K)
    (h : ray.direction = ⟨0, 0, 0⟩) :
    (sphereScan M R ray).2 = none ∧ (lightScan M R ray).2 = none ∧
    ∀ diff, (shadowScan M R ray diff).2 = none := by
  have hS := scan_spec (sphereOk M R ray) (sphereT M R ray) FLT_MAX R.scene.sphereCount
  have hL := scan_spec (lightOk M R ray) (lightT M R ray) (sphereScan M R ray).1
    R.scene.lightCount
  have hsT : ∀ k, sphereT M R ray k = 0 := fun k => nearRoot_zero_direction M _ _ ray h
  have hlT : ∀ k, lightT M R ray k = 0 := fun k => nearRoot_zero_direction M _ _ ray h
  refine ⟨?_, ?_, ?_⟩
  · cases hc : (sphereScan M R ray).2 with
    | none => rfl
    | some k =>
      obtain ⟨_, hok, _⟩ := hS.2 k hc
      have := hok.2
      rw [hsT] at this
      exact absurd this (lt_irrefl _)
  · cases hc : (lightScan M R ray).2 with
    | none => rfl
    | some k =>
      obtain ⟨_, hok, _⟩ := hL.2 k hc
      have := hok.2
      rw [hlT] at this
      exact absurd this (lt_irrefl _)
  · intro diff
    have hD := scan_spec (sphereOkBelow M R ray diff) (sphereT M R ray) FLT_MAX
      R.scene.sphereCount
    cases hc : (shadowScan M R ray diff).2 with
    | none => rfl
    | some k =>
      obtain ⟨_, hok, _⟩ := hD.2 k hc
      have := hok.2.1
      rw [hsT] at this
      exact absurd this (lt_irrefl _)

/-- C12: for every scene and every ray whose direction is the zero vector (`a = 0` in the
quadratic), `traceRayFromPixel` returns Miss and `traceRayFromHitpoint` returns Miss for every
bound, whatever the spheres, the lights and the origin; and `rayGen` returns the sky colour
for a pixel whose primary ray has a zero direction. -/
theorem zero_direction_miss (M : FloatMath K) (R : Renderer K) (u : HitPayload K) :
    (∀ ray : Ray K, ray.direction = ⟨0, 0, 0⟩ →
      traceRayFromPixel M R u ray = miss u ray ∧
      ∀ maxDistance, traceRayFromHitpoint M R u ray maxDistance = miss u ray) ∧
    (∀ i j, (primaryRay R i j).direction = ⟨0, 0, 0⟩ →
      rayGen M R u i j = Vec4.ofVec3 R.skyColor 1) := by
  have hray : ∀ ray : Ray K, ray.direction = ⟨0, 0, 0⟩ →
      traceRayFromPixel M R u ray = miss u ray ∧
      ∀ maxDistance, traceRayFromHitpoint M R u ray maxDistance = miss u ray := by
    intro ray h
    obtain ⟨hs, hl, hd⟩ := scans_zero_direction M R ray h
    exact ⟨traceRayFromPixel_miss M R u ray hl hs,
      fun d => traceRayFromHitpoint_miss M R u ray d (hd d)⟩
  refine ⟨hray, ?_⟩
  intro i j h
  have hm := (hray (primaryRay R i j) h).1
  unfold rayGen
  simp only [hm, miss_hitDistance]
  rw [if_pos (by norm_num)]

/-- Witness for C12: from the centre of the sphere of the worked example, with a zero ray
direction, both routines return Miss and the pixel is the sky colour. -/
theorem zero_direction_miss_witness :
    (primaryRay stillRenderer 0 0).direction = ⟨0, 0, 0⟩ ∧
    traceRayFromPixel qMath stillRenderer zeroPayload (primaryRay stillRenderer 0 0) =
      miss zeroPayload (primaryRay stillRenderer 0 0) ∧
    traceRayFromHitpoint qMath stillRenderer zeroPayload (primaryRay stillRenderer 0 0) 10 =
      miss zeroPayload (primaryRay stillRenderer 0 0) ∧
    rayGen qMath stillRenderer zeroPayload 0 0 = Vec4.ofVec3 stillRenderer.skyColor 1 := by
  have h := zero_direction_miss qMath stillRenderer zeroPayload
  have hd : (primaryRay stillRenderer 0 0).direction = ⟨0, 0, 0⟩ := rfl
  exact ⟨hd, (h.1 _ hd).1, (h.1 _ hd).2 10, h.2 0 0 hd⟩

/-! ## C13: the colour handed to `toRGBA` -/

/-- C13 (evaluation at the failing input): in the glow scene (sphere albedo `(1, 1, 1)`, one
light of colour `(3, 2, 1)` in front of the sphere) the image-centre pixel is a LightHit and
`rayGen` returns the light colour as it is, `(3, 2, 1, 1)`: the colour that `render` passes to
`toRGBA` is not clamped, its red and green channels exceed 1. -/
theorem rayGen_lightHit_unclamped :
    rayGen qMath glowRenderer zeroPayload 0 0 = ⟨3, 2, 1, 1⟩ ∧
    ¬InUnitRange (rayGen qMath glowRenderer zeroPayload 0 0) := by
  have hp := traceRayFromPixel_light qMath glowRenderer zeroPayload
    (primaryRay glowRenderer 0 0) 0 glow_lightScan
  have hv : rayGen qMath glowRenderer zeroPayload 0 0 = ⟨3, 2, 1, 1⟩ := by
    unfold rayGen
    simp only [hp, lightHit_hitDistance, lightHit_objectIndex, lt_irrefl, if_false, if_true]
    rfl
  refine ⟨hv, ?_⟩
  rw [hv]
  rintro ⟨⟨_, h⟩, _⟩
  norm_num at h

/-! ## C20: every pixel is opaque -/

/-- The light loop of `rayGen` never lowers alpha below its initial value 1. -/
theorem lightLoop_alpha (M : FloatMath K) (R : Renderer K) (u : HitPayload K) (p : HitPayload K)
    (c0 : Vec4 K) (h0 : 1 ≤ c0.a) (n : Nat) :
    1 ≤ ((List.range n).foldl (lightLoopStep M R u p) c0).a := by
  induction n with
  | zero => simpa using h0
  | succ n ih =>
    rw [List.range_succ, List.foldl_append]
    simp only [List.foldl_cons, List.foldl_nil]
    generalize (List.range n).foldl (lightLoopStep M R u p) c0 = c at ih ⊢
    unfold lightLoopStep
    simp only
    split
    · show 1 ≤ c.a + (phong M R p n).a
      have : (phong M R p n).a = 1 := rfl
      rw [this]
      linarith
    · exact ih

/-- The conversion to `unsigned char` always yields a byte. -/
theorem toUChar_lt [FloorRing K] (x : K) : toUChar x < 256 := by
  unfold toUChar
  generalize (if 0 ≤ x then ⌊x⌋ else ⌈x⌉) = z
  omega

/-- C20: for every scene and every pixel, the alpha channel of the colour `rayGen` returns is
exactly 1 (on a SurfaceHit the light loop only raises alpha above 1 and the final clamp
brings it back to 1, whatever the number of lights), and the low byte of
`toRGBA(rayGen(i, j))` is `0xFF`. -/
theorem rayGen_opaque [FloorRing K] (M : FloatMath K) (R : Renderer K) (u : HitPayload K)
    (i j : Nat) :
    (rayGen M R u i j).a = 1 ∧ toRGBA (rayGen M R u i j) &&& 0xFF = 0xFF := by
  have ha : (rayGen M R u i j).a = 1 := by
    unfold rayGen
    simp only
    split
    · rfl
    · split
      · rfl
      · have h1 := lightLoop_alpha M R u (traceRayFromPixel M R u (primaryRay R i j))
          (Vec4.ofVec3 ((R.ambientColor.scale R.kAmbient).mul (R.scene.sphereAlbedos
            (traceRayFromPixel M R u (primaryRay R i j)).objectIndex.toNat)) 1)
          (le_refl _) R.scene.lightCount
        simp only [Vec4.clamp, glmClamp_zero_one, clamp01]
        rw [min_eq_right h1, max_eq_right (by norm_num)]
  refine ⟨ha, ?_⟩
  have hbyte : toUChar ((rayGen M R u i j).a * 255) = 255 := by
    rw [ha, one_mul]
    have h := (toUChar_of_mem (255 : K) (by norm_num) (le_refl _)).1
    have hf : ⌊(255 : K)⌋ = 255 := by
      rw [Int.floor_eq_iff]; norm_num
    rw [hf] at h
    exact_mod_cast h
  unfold toRGBA
  simp only
  rw [hbyte, pack_or_eq_add _ _ _ _ (toUChar_lt _) (toUChar_lt _) (by norm_num),
    show (0xFF : Nat) = 2 ^ 8 - 1 by norm_num, Nat.and_pow_two_sub_one_eq_mod]
  have hr := toUChar_lt ((rayGen M R u i j).r * 255)
  have hg := toUChar_lt ((rayGen M R u i j).g * 255)
  have hb := toUChar_lt ((rayGen M R u i j).b * 255)
  generalize toUChar ((rayGen M R u i j).r * 255) = r at hr
  generalize toUChar ((rayGen M R u i j).g * 255) = g at hg
  generalize toUChar ((rayGen M R u i j).b * 255) = b at hb
  omega

/-! ## C16: the number of blocks of the GPU dispatch -/

/-- When `width * height` is non-negative and `width * height + 1023` fits a 32-bit `int`,
`blocks_per_grid` is the quotient `(width * height + 1023) / 1024`. -/
theorem blocksPerGrid_eq (width height : Int) (h0 : 0 ≤ width * height)
    (h1 : width * height + 1023 ≤ 2 ^ 31 - 1) :
    blocksPerGrid width height = (width * height + 1023) / 1024 := by
  unfold blocksPerGrid toInt32
  generalize width * height = n at h0 h1
  have e : ((((n + 2 ^ 31) % 2 ^ 32 - 2 ^ 31 + 1024 + 2 ^ 31) % 2 ^ 32 - 2 ^ 31 - 1 + 2 ^ 31)
      % 2 ^ 32 - 2 ^ 31 : Int) = n + 1023 := by
    omega
  rw [e, Int.tdiv_eq_ediv (by omega) (by norm_num)]

/-- C16: for every width and height with `0 <= width * height` and `width * height + 1023`
representable as a 32-bit `int`, `blocks_per_grid = (width * height + 1023) / 1024` is
`ceil(width * height / 1024)`: `blocks_per_grid * 1024 >= width * height`, when
`width * height > 0` also `(blocks_per_grid - 1) * 1024 < width * height`, so the grid has at
least one thread per pixel and fewer than 1024 surplus threads. -/
theorem blocksPerGrid_ceil (width height : Int) (h0 : 0 ≤ width * height)
    (h1 : width * height + 1023 ≤ 2 ^ 31 - 1) :
    blocksPerGrid width height = (width * height + 1023) / 1024 ∧
    blocksPerGrid width height = ⌈((width * height : Int) : ℚ) / 1024⌉ ∧
    width * height ≤ blocksPerGrid width height * 1024 ∧
    (0 < width * height → (blocksPerGrid width height - 1) * 1024 < width * height) ∧
    blocksPerGrid width height * 1024 - width * height < 1024 := by
  have hb := blocksPerGrid_eq width height h0 h1
  rw [hb]
  generalize width * height = n at h0 h1
  refine ⟨rfl, ?_, by omega, fun _ => by omega, by omega⟩
  symm
  rw [Int.ceil_eq_iff]
  constructor
  · have h : (((n + 1023) / 1024 - 1 : Int) : ℚ) * 1024 < (n : ℚ) := by
      have : ((n + 1023) / 1024 - 1) * 1024 < n := by omega
      exact_mod_cast this
    push_cast at h ⊢
    rw [lt_div_iff₀ (by norm_num)]
    exact h
  · have h : (n : ℚ) ≤ (((n + 1023) / 1024 : Int) : ℚ) * 1024 := by
      have : n ≤ (n + 1023) / 1024 * 1024 := by omega
      exact_mod_cast this
    rw [div_le_iff₀ (by norm_num)]
    exact h

/-- Witness for C16: a 1920 x 1080 viewport needs 2025 blocks. -/
theorem blocksPerGrid_ceil_witness :
    (0 : Int) ≤ 1920 * 1080 ∧ (1920 * 1080 + 1023 : Int) ≤ 2 ^ 31 - 1 ∧
    blocksPerGrid 1920 1080 = 2025 ∧ (1920 * 1080 : Int) ≤ blocksPerGrid 1920 1080 * 1024 := by
  have h := blocksPerGrid_ceil 1920 1080 (by norm_num) (by norm_num)
  refine ⟨by norm_num, by norm_num, ?_, h.2.2.1⟩
  rw [h.1]
  norm_num

/-! ## C17: the two intersection routines agree without lights and without a binding bound -/

/-- A running minimum never exceeds the bound it starts from. -/
theorem scan_fst_le (ok : Nat → Prop) [DecidablePred ok] (t : Nat → K) (d0 : K) (n : Nat) :
    (scan ok t d0 n).1 ≤ d0 := by
  have h := scan_spec ok t d0 n
  cases hc : (scan ok t d0 n).2 with
  | none => exact le_of_eq (h.1 hc).1
  | some k =>
    obtain ⟨_, _, h3, h4, _⟩ := h.2 k hc
    rw [h3]
    exact le_of_lt h4

/-- When the bound excludes no sphere that passes the other tests, the loop of
`traceRayFromHitpoint` computes the running minimum of the sphere loop of
`traceRayFromPixel`. -/
theorem shadowScan_eq_sphereScan (M : FloatMath K) (R : Renderer K) (ray : Ray K) (diff : K)
    (hb : ∀ k, k < R.scene.sphereCount → sphereOk M R ray k → sphereT M R ray k < FLT_MAX →
      sphereT M R ray k < diff) :
    shadowScan M R ray diff = sphereScan M R ray := by
  have key : ∀ n, n ≤ R.scene.sphereCount →
      scan (sphereOkBelow M R ray diff) (sphereT M R ray) FLT_MAX n =
        scan (sphereOk M R ray) (sphereT M R ray) FLT_MAX n := by
    intro n
    induction n with
    | zero => intro _; rfl
    | succ n ih =>
      intro hn
      rw [scan_succ, scan_succ, ih (by omega)]
      have hle := scan_fst_le (sphereOk M R ray) (sphereT M R ray) FLT_MAX n
      unfold scanStep
      by_cases hstep : sphereOk M R ray n ∧
          sphereT M R ray n < (scan (sphereOk M R ray) (sphereT M R ray) FLT_MAX n).1
      · have hstep2 : sphereOkBelow M R ray diff n ∧
            sphereT M R ray n < (scan (sphereOk M R ray) (sphereT M R ray) FLT_MAX n).1 :=
          ⟨⟨hstep.1.1, hstep.1.2,
            hb n (by omega) hstep.1 (lt_of_lt_of_le hstep.2 hle)⟩, hstep.2⟩
        rw [if_pos hstep, if_pos hstep2]
      · have hstep2 : ¬(sphereOkBelow M R ray diff n ∧
            sphereT M R ray n < (scan (sphereOk M R ray) (sphereT M R ray) FLT_MAX n).1) :=
          fun h => hstep ⟨⟨h.1.1, h.1.2.1⟩, h.2⟩
        rw [if_neg hstep, if_neg hstep2]
  exact key _ (le_refl _)

/-- C17: for every scene with `lightCount = 0`, every ray, and every bound `maxDistance` that
is greater than every accepted near root, or is at least `FLT_MAX`,
`traceRayFromHitpoint(ray, maxDistance)` returns the payload of `traceRayFromPixel(ray)`:
the same `hitDistance` (hence category) whatever the uninitialised payloads hold, every
field equal on a hit, and every field equal when both start from the same uninitialised
payload. -/
theorem trace_routines_agree (M : FloatMath K) (R : Renderer K) (ray : Ray K) (maxDistance : K)
    (hl : R.scene.lightCount = 0)
    (hb : FLT_MAX ≤ maxDistance ∨
      ∀ k, sphereAccepted M R ray k → sphereT M R ray k < maxDistance) :
    (∀ u, traceRayFromHitpoint M R u ray maxDistance = traceRayFromPixel M R u ray) ∧
    (∀ u v, (traceRayFromHitpoint M R u ray maxDistance).hitDistance =
        (traceRayFromPixel M R v ray).hitDistance ∧
      (¬IsMiss (traceRayFromPixel M R v ray) →
        traceRayFromHitpoint M R u ray maxDistance = traceRayFromPixel M R v ray)) := by
  have hscan : shadowScan M R ray maxDistance = sphereScan M R ray := by
    apply shadowScan_eq_sphereScan
    intro k hk hok hlt
    rcases hb with hb | hb
    · exact lt_of_lt_of_le hlt hb
    · exact hb k ⟨hk, hok.1, hok.2⟩
  have hlight : (lightScan M R ray).2 = none := by
    unfold lightScan
    rw [hl]
    rfl
  have hcase : ∀ u v,
      (traceRayFromHitpoint M R u ray maxDistance = miss u ray ∧
        traceRayFromPixel M R v ray = miss v ray) ∨
      (∃ k : Nat, traceRayFromHitpoint M R u ray maxDistance =
          closestHit M R u ray (k : Int) (sphereScan M R ray).1 ∧
        traceRayFromPixel M R v ray = closestHit M R v ray (k : Int) (sphereScan M R ray).1 ∧
        (sphereScan M R ray).2 = some k) := by
    intro u v
    cases hs : (sphereScan M R ray).2 with
    | none =>
      left
      exact ⟨traceRayFromHitpoint_miss M R u ray maxDistance (by rw [hscan, hs]),
        traceRayFromPixel_miss M R v ray hlight hs⟩
    | some k =>
      right
      refine ⟨k, ?_, traceRayFromPixel_sphere M R v ray k hlight hs, rfl⟩
      rw [traceRayFromHitpoint_sphere M R u ray maxDistance k (by rw [hscan, hs]), hscan]
  constructor
  · intro u
    rcases hcase u u with ⟨h1, h2⟩ | ⟨k, h1, h2, _⟩
    · rw [h1, h2]
    · rw [h1, h2]
  · intro u v
    rcases hcase u v with ⟨h1, h2⟩ | ⟨k, h1, h2, _⟩
    · rw [h1, h2]
      refine ⟨rfl, ?_⟩
      intro hnm
      exact absurd (show IsMiss (miss v ray) by simp [IsMiss]) hnm
    · rw [h1, h2]
      exact ⟨rfl, fun _ => rfl⟩

/-- Witness for C17: the worked example without its light, the image-centre ray and the
bound `FLT_MAX`. -/
theorem trace_routines_agree_witness :
    loneRenderer.scene.lightCount = 0 ∧
    traceRayFromHitpoint qMath loneRenderer zeroPayload exampleRay FLT_MAX =
      traceRayFromPixel qMath loneRenderer zeroPayload exampleRay :=
  ⟨rfl, (trace_routines_agree qMath loneRenderer exampleRay FLT_MAX rfl
    (Or.inl (le_refl _))).1 zeroPayload⟩

/-! ## C18: a surface hit lies on its sphere and is the first crossing -/

/-- A SurfaceHit on sphere `k` returned by either routine was built by `closestHit` at the
near root of sphere `k`, which passed the tests `delta >= 0` and `t > 0`. -/
theorem surfaceHit_built (M : FloatMath K) (R : Renderer K) (u : HitPayload K) (ray : Ray K)
    (maxDistance : K) (k : Nat) (p : HitPayload K)
    (hp : p = traceRayFromPixel M R u ray ∨ p = traceRayFromHitpoint M R u ray maxDistance)
    (hk : IsSurfaceHit p k) :
    p = closestHit M R u ray (k : Int) (sphereT M R ray k) ∧ sphereAccepted M R ray k := by
  rcases hp with hp | hp
  · have hpos : 0 < (traceRayFromPixel M R u ray).hitDistance := hp ▸ hk.1
    obtain ⟨m, hacc, hm⟩ := traceRayFromPixel_of_pos M R u ray hpos
    have hidx : ((m : Int) = (k : Int)) := by
      have := hk.2
      rw [hp, hm] at this
      exact this
    have hmk : m = k := by exact_mod_cast hidx
    rw [hmk] at hm hacc
    exact ⟨by rw [hp, hm], hacc.1⟩
  · have hpos : ¬(traceRayFromHitpoint M R u ray maxDistance).hitDistance < 0 :=
      not_lt.mpr (le_of_lt (hp ▸ hk.1))
    obtain ⟨m, hacc, _, hm⟩ := traceRayFromHitpoint_of_nonneg M R u ray maxDistance hpos
    have hidx : ((m : Int) = (k : Int)) := by
      have := hk.2
      rw [hp, hm] at this
      exact this
    have hmk : m = k := by exact_mod_cast hidx
    rw [hmk] at hm hacc
    exact ⟨by rw [hp, hm], hacc.1⟩

/-- The squared distance to the centre of the point of the ray at parameter `s`, minus
`r * r`, is the quadratic `a s^2 + b s + c` of the intersection test. -/
theorem quadratic_at (center : Vec3 K) (radius : K) (ray : Ray K) (s : K) :
    ((ray.origin.add (ray.direction.scale s)).sub center).dot
      ((ray.origin.add (ray.direction.scale s)).sub center) - radius * radius =
    ray.direction.dot ray.direction * s * s +
      2 * (ray.origin.sub center).dot ray.direction * s +
      ((ray.origin.sub center).dot (ray.origin.sub center) - radius * radius) := by
  simp only [Vec3.dot, Vec3.sub, Vec3.add, Vec3.scale]
  ring

/-- Before the near root the quadratic is positive: the ray is strictly outside the sphere. -/
theorem quadratic_pos_before_nearRoot (M : FloatMath K) (center : Vec3 K) (radius : K)
    (ray : Ray K) (ha : ray.direction.dot ray.direction ≠ 0)
    (hs : SqrtExactAt M (discriminant center radius ray)) (s : K)
    (hlt : s < nearRoot M center radius ray) :
    0 < ray.direction.dot ray.direction * s * s +
      2 * (ray.origin.sub center).dot ray.direction * s +
      ((ray.origin.sub center).dot (ray.origin.sub center) - radius * radius) := by
  obtain ⟨hs0, hsq⟩ := hs
  have ha0 : 0 ≤ ray.direction.dot ray.direction := by
    simp only [Vec3.dot]
    nlinarith [mul_self_nonneg ray.direction.x, mul_self_nonneg ray.direction.y,
      mul_self_nonneg ray.direction.z]
  have hapos : 0 < ray.direction.dot ray.direction := lt_of_le_of_ne ha0 (Ne.symm ha)
  have ht : nearRoot M center radius ray * (2 * ray.direction.dot ray.direction) =
      -(2 * (ray.origin.sub center).dot ray.direction) -
        M.sqrt (discriminant center radius ray) := by
    unfold nearRoot
    field_simp
  generalize nearRoot M center radius ray = t at ht hlt
  generalize M.sqrt (discriminant center radius ray) = sd at ht hsq hs0
  unfold discriminant at hsq
  generalize (ray.origin.sub center).dot ray.direction = od at ht hsq ⊢
  generalize (ray.origin.sub center).dot (ray.origin.sub center) - radius * radius = c at hsq ⊢
  generalize ray.direction.dot ray.direction = a at ht hsq hapos ⊢
  have h1 : 2 * a * s + 2 * od + sd < 0 := by nlinarith
  have h2 : 2 * a * s + 2 * od - sd < 0 := by linarith
  have h3 : 0 < (2 * a * s + 2 * od + sd) * (2 * a * s + 2 * od - sd) :=
    mul_pos_of_neg_of_neg h1 h2
  have h4 : 0 < 4 * a * (a * s * s + 2 * od * s + c) := by nlinarith
  have h5 : 0 < a * s * s + 2 * od * s + c := by
    by_contra hneg
    have := mul_nonpos_of_nonneg_of_nonpos (show (0 : K) ≤ 4 * a by linarith)
      (not_lt.mp hneg)
    linarith
  exact h5

/-- C18, as amended: in exact arithmetic, for every scene and ray with non-zero direction, if
`traceRayFromPixel` or `traceRayFromHitpoint` returns a SurfaceHit on sphere `k` and the
square root of the discriminant is exact, then the accepted `t` is a root of
`a t^2 + b t + c = 0`, the hit point is at
squared distance `r * r` from the centre (at distance `r` for `r >= 0`), and every point
`origin + direction * s` with `0 <= s < hitDistance` lies strictly outside sphere `k`, so it
is the first crossing along the ray. -/
theorem surfaceHit_on_sphere (M : FloatMath K) (R : Renderer K) (u : HitPayload K) (ray : Ray K)
    (maxDistance : K) (k : Nat) (p : HitPayload K)
    (hp : p = traceRayFromPixel M R u ray ∨ p = traceRayFromHitpoint M R u ray maxDistance)
    (hk : IsSurfaceHit p k) (hdir : ray.direction ≠ ⟨0, 0, 0⟩)
    (hs : SqrtExactAt M (sphereDelta R ray k)) :
    ray.direction.dot ray.direction * p.hitDistance * p.hitDistance +
      2 * (ray.origin.sub (R.scene.spherePositions k)).dot ray.direction * p.hitDistance +
      ((ray.origin.sub (R.scene.spherePositions k)).dot
        (ray.origin.sub (R.scene.spherePositions k)) -
        R.scene.sphereRadii k * R.scene.sphereRadii k) = 0 ∧
    (p.hitPoint.sub (R.scene.spherePositions k)).dot
      (p.hitPoint.sub (R.scene.spherePositions k)) =
        R.scene.sphereRadii k * R.scene.sphereRadii k ∧
    (0 ≤ R.scene.sphereRadii k →
      SqrtExactAt M ((p.hitPoint.sub (R.scene.spherePositions k)).dot
        (p.hitPoint.sub (R.scene.spherePositions k))) →
      glmLength M (p.hitPoint.sub (R.scene.spherePositions k)) = R.scene.sphereRadii k) ∧
    (∀ s, 0 ≤ s → s < p.hitDistance →
      R.scene.sphereRadii k * R.scene.sphereRadii k <
        ((ray.origin.add (ray.direction.scale s)).sub (R.scene.spherePositions k)).dot
          ((ray.origin.add (ray.direction.scale s)).sub (R.scene.spherePositions k))) := by
  obtain ⟨hbuilt, _⟩ := surfaceHit_built M R u ray maxDistance k p hp hk
  have ha := dot_self_ne_zero _ hdir
  have hon := nearRoot_on_sphere M (R.scene.spherePositions k) (R.scene.sphereRadii k) ray ha hs
  have hd : p.hitDistance = nearRoot M (R.scene.spherePositions k) (R.scene.sphereRadii k) ray := by
    rw [hbuilt]; rfl
  have hpt : p.hitPoint = ray.origin.add (ray.direction.scale
      (nearRoot M (R.scene.spherePositions k) (R.scene.sphereRadii k) ray)) := by
    rw [hbuilt]; rfl
  refine ⟨?_, ?_, ?_, ?_⟩
  · rw [hd, ← quadratic_at, hon, sub_self]
  · rw [hpt]; exact hon
  · intro hr hex
    unfold glmLength
    obtain ⟨h0, hsq⟩ := hex
    rw [hpt] at h0 hsq ⊢
    rw [hon] at h0 hsq ⊢
    have h1 : (M.sqrt (R.scene.sphereRadii k * R.scene.sphereRadii k) - R.scene.sphereRadii k) *
        (M.sqrt (R.scene.sphereRadii k * R.scene.sphereRadii k) + R.scene.sphereRadii k) = 0 := by
      linear_combination hsq
    rcases mul_eq_zero.mp h1 with h | h
    · linarith
    · have e1 : M.sqrt (R.scene.sphereRadii k * R.scene.sphereRadii k) = 0 := by linarith
      have e2 : R.scene.sphereRadii k = 0 := by linarith
      rw [e1, e2]
  · intro s _ hlt
    rw [hd] at hlt
    have h := quadratic_pos_before_nearRoot M (R.scene.spherePositions k)
      (R.scene.sphereRadii k) ray ha hs s hlt
    rw [← quadratic_at] at h
    linarith

/-- Witness for C18: the worked example, whose image-centre ray hits sphere 0 at `t = 4`;
the hit point is at squared distance 1 from the centre and the point at `s = 2` is outside. -/
theorem surfaceHit_on_sphere_witness :
    IsSurfaceHit (traceRayFromPixel qMath exampleRenderer zeroPayload exampleRay) 0 ∧
    ((traceRayFromPixel qMath exampleRenderer zeroPayload exampleRay).hitPoint.sub
        (exampleRenderer.scene.spherePositions 0)).dot
      ((traceRayFromPixel qMath exampleRenderer zeroPayload exampleRay).hitPoint.sub
        (exampleRenderer.scene.spherePositions 0)) =
      exampleRenderer.scene.sphereRadii 0 * exampleRenderer.scene.sphereRadii 0 ∧
    exampleRenderer.scene.sphereRadii 0 * exampleRenderer.scene.sphereRadii 0 <
      ((exampleRay.origin.add (exampleRay.direction.scale 2)).sub
        (exampleRenderer.scene.spherePositions 0)).dot
      ((exampleRay.origin.add (exampleRay.direction.scale 2)).sub
        (exampleRenderer.scene.spherePositions 0)) := by
  have hk : IsSurfaceHit (traceRayFromPixel qMath exampleRenderer zeroPayload exampleRay) 0 := by
    rw [example_trace]
    exact ⟨by simp, rfl⟩
  have hdir : exampleRay.direction ≠ ⟨0, 0, 0⟩ := by
    intro h0
    have hz := congrArg Vec3.z h0
    simp [exampleRay] at hz
  have hs : SqrtExactAt qMath (sphereDelta exampleRenderer exampleRay 0) := by
    rw [example_sphereDelta]
    exact sqrtExactAt_mul_self 2 (by norm_num)
  have h := surfaceHit_on_sphere qMath exampleRenderer zeroPayload exampleRay 0 0
    (traceRayFromPixel qMath exampleRenderer zeroPayload exampleRay) (Or.inl rfl) hk hdir hs
  refine ⟨hk, h.2.1, h.2.2.2 2 (by norm_num) ?_⟩
  rw [example_trace]
  show (2 : ℚ) < 4
  norm_num

/-- Counterexample for C18 as stated, in binary32: for the sphere of radius `2^-10` centred at
`(0, 0, -1024)` and the ray from `(2^-9, 0, 0)` along `(0, 0, -1)`, which passes the centre at
distance `2^-9`, `c = 2^20 + 2^-18 - 2^-20` rounds to `2^20`, so `delta = 0` and `t = 1024`:
`traceRayFromPixel` returns a SurfaceHit on sphere 0 with hit point `(2^-9, 0, -1024)`, at
distance twice the radius from the centre (squared distance `4 r^2`, not `r^2`). -/
theorem surfaceHit_on_sphere_binary32_fails :
    Binary32.passingRay.direction.z = F32.ofInt (-1) ∧
    Binary32.passingHit.objectIndex = 0 ∧
    Binary32.passingHit.hitDistance = F32.ofInt 1024 ∧
    F32.lt (F32.ofInt 0) Binary32.passingHit.hitDistance = true ∧
    Binary32.passingHit.hitPoint = ⟨F32.round 1 (-9), F32.ofInt 0, F32.ofInt (-1024)⟩ ∧
    (Binary32.passingHit.hitPoint.x.toRat -
        (Binary32.speckScene.spherePositions 0).x.toRat) ^ 2 +
      (Binary32.passingHit.hitPoint.y.toRat -
        (Binary32.speckScene.spherePositions 0).y.toRat) ^ 2 +
      (Binary32.passingHit.hitPoint.z.toRat -
        (Binary32.speckScene.spherePositions 0).z.toRat) ^ 2 =
      4 * (Binary32.speckScene.sphereRadii 0).toRat ^ 2 ∧
    0 < (Binary32.speckScene.sphereRadii 0).toRat := by
  have hx : Binary32.passingHit.hitPoint.x = F32.finite 8388608 (-32) := by
    set_option maxRecDepth 100000 in decide
  have hy : Binary32.passingHit.hitPoint.y = F32.finite 0 (-149) := by
    set_option maxRecDepth 100000 in decide
  have hz : Binary32.passingHit.hitPoint.z = F32.finite (-8388608) (-13) := by
    set_option maxRecDepth 100000 in decide
  have cx : (Binary32.speckScene.spherePositions 0).x = F32.finite 0 (-149) := by decide
  have cy : (Binary32.speckScene.spherePositions 0).y = F32.finite 0 (-149) := by decide
  have cz : (Binary32.speckScene.spherePositions 0).z = F32.finite (-8388608) (-13) := by
    decide
  have hr : Binary32.speckScene.sphereRadii 0 = F32.finite 8388608 (-33) := by decide
  refine ⟨by decide,
    by set_option maxRecDepth 100000 in decide,
    by set_option maxRecDepth 100000 in decide,
    by set_option maxRecDepth 100000 in decide, ?_, ?_, ?_⟩
  · ext <;> set_option maxRecDepth 100000 in decide
  · rw [hx, hy, hz, cx, cy, cz, hr]
    simp only [F32.toRat]
    norm_num
  · rw [hr]
    simp only [F32.toRat]
    norm_num

/-! ## C19: no self-occlusion for a light above the local horizon -/

/-- A near root is not positive when `b >= 0` and the square root is non-negative. -/
theorem nearRoot_nonpos (M : FloatMath K) (center : Vec3 K) (radius : K) (ray : Ray K)
    (hb : 0 ≤ (ray.origin.sub center).dot ray.direction)
    (hs : 0 ≤ M.sqrt (discriminant center radius ray)) :
    nearRoot M center radius ray ≤ 0 := by
  have ha0 : 0 ≤ ray.direction.dot ray.direction := by
    simp only [Vec3.dot]
    nlinarith [mul_self_nonneg ray.direction.x, mul_self_nonneg ray.direction.y,
      mul_self_nonneg ray.direction.z]
  unfold nearRoot
  apply div_nonpos_of_nonpos_of_nonneg
  · linarith
  · linarith

/-- C19: for every sphere `k` of radius `r > 0`, every point `P = center_k + r N` of its
surface with outward normal `N`, and every light with `dot(N, lightPos - P) >= 0`, the shadow
ray that `rayGen` builds (origin `P + 1e-4 * N`, direction `normalize(lightPos - P)`) is not
accepted against sphere `k` (the square roots taken being non-negative): its discriminant is
negative or its near root is `<= 0`, so `traceRayFromHitpoint` never returns a SurfaceHit on
sphere `k` for it. -/
theorem shadowRay_no_self_hit (M : FloatMath K) (R : Renderer K) (p : HitPayload K) (k l : Nat)
    (hr : 0 < R.scene.sphereRadii k)
    (hP : p.hitPoint.sub (R.scene.spherePositions k) = p.normal.scale (R.scene.sphereRadii k))
    (hlight : 0 ≤ p.normal.dot ((R.scene.lightPositions l).sub p.hitPoint))
    (hsLen : 0 ≤ M.sqrt (((R.scene.lightPositions l).sub p.hitPoint).dot
      ((R.scene.lightPositions l).sub p.hitPoint)))
    (hsDelta : 0 ≤ M.sqrt (sphereDelta R (rayToLight M R p l) k)) :
    (sphereDelta R (rayToLight M R p l) k < 0 ∨ sphereT M R (rayToLight M R p l) k ≤ 0) ∧
    ¬sphereAccepted M R (rayToLight M R p l) k ∧
    (∀ u maxDistance,
      ¬IsSurfaceHit (traceRayFromHitpoint M R u (rayToLight M R p l) maxDistance) k) := by
  have hw : 0 ≤ 1 / M.sqrt (((R.scene.lightPositions l).sub p.hitPoint).dot
      ((R.scene.lightPositions l).sub p.hitPoint)) := one_div_nonneg.mpr hsLen
  have hb : 0 ≤ ((rayToLight M R p l).origin.sub (R.scene.spherePositions k)).dot
      (rayToLight M R p l).direction := by
    have hx := congrArg Vec3.x hP
    have hy := congrArg Vec3.y hP
    have hz := congrArg Vec3.z hP
    unfold rayToLight glmNormalize
    generalize 1 / M.sqrt (((R.scene.lightPositions l).sub p.hitPoint).dot
      ((R.scene.lightPositions l).sub p.hitPoint)) = w at hw
    simp only [Vec3.dot, Vec3.sub, Vec3.add, Vec3.scale] at hx hy hz hlight ⊢
    have e : (p.hitPoint.x + p.normal.x * (1 / 10000) - (R.scene.spherePositions k).x) *
          (((R.scene.lightPositions l).x - p.hitPoint.x) * w) +
        (p.hitPoint.y + p.normal.y * (1 / 10000) - (R.scene.spherePositions k).y) *
          (((R.scene.lightPositions l).y - p.hitPoint.y) * w) +
        (p.hitPoint.z + p.normal.z * (1 / 10000) - (R.scene.spherePositions k).z) *
          (((R.scene.lightPositions l).z - p.hitPoint.z) * w) =
        (R.scene.sphereRadii k + 1 / 10000) * w *
          (p.normal.x * ((R.scene.lightPositions l).x - p.hitPoint.x) +
            p.normal.y * ((R.scene.lightPositions l).y - p.hitPoint.y) +
            p.normal.z * ((R.scene.lightPositions l).z - p.hitPoint.z)) := by
      linear_combination
        (((R.scene.lightPositions l).x - p.hitPoint.x) * w) * hx +
        (((R.scene.lightPositions l).y - p.hitPoint.y) * w) * hy +
        (((R.scene.lightPositions l).z - p.hitPoint.z) * w) * hz
    rw [e]
    exact mul_nonneg (mul_nonneg (by linarith) hw) hlight
  have ht : sphereT M R (rayToLight M R p l) k ≤ 0 :=
    nearRoot_nonpos M _ _ _ hb hsDelta
  have hnot : ¬sphereAccepted M R (rayToLight M R p l) k :=
    fun h => absurd h.2.2 (not_lt.mpr ht)
  refine ⟨Or.inr ht, hnot, ?_⟩
  intro u maxDistance hk
  obtain ⟨m, hm, _, hq⟩ := traceRayFromHitpoint_of_nonneg M R u (rayToLight M R p l)
    maxDistance (not_lt.mpr (le_of_lt hk.1))
  have hidx : ((m : Int) = (k : Int)) := by
    have := hk.2
    rw [hq] at this
    exact this
  have hmk : m = k := by exact_mod_cast hidx
  rw [hmk] at hm
  exact hnot hm.1

/-- Witness for C19: in the eclipse scene the point `(0, 0, 1)` of sphere 0 with normal
`(0, 0, 1)` and the light at `(0, 0, 9)` above it: the shadow ray is not accepted against
sphere 0. -/
theorem shadowRay_no_self_hit_witness :
    0 < eclipseRenderer.scene.sphereRadii 0 ∧
    0 ≤ eclipsePayload.normal.dot
      ((eclipseRenderer.scene.lightPositions 0).sub eclipsePayload.hitPoint) ∧
    ¬sphereAccepted qMath eclipseRenderer (rayToLight qMath eclipseRenderer eclipsePayload 0) 0 ∧
    (∀ u maxDistance, ¬IsSurfaceHit (traceRayFromHitpoint qMath eclipseRenderer u
      (rayToLight qMath eclipseRenderer eclipsePayload 0) maxDistance) 0) := by
  have hr : 0 < eclipseRenderer.scene.sphereRadii 0 := by
    show (0 : ℚ) < 1
    norm_num
  have hP : eclipsePayload.hitPoint.sub (eclipseRenderer.scene.spherePositions 0) =
      eclipsePayload.normal.scale (eclipseRenderer.scene.sphereRadii 0) := by
    simp only [eclipseRenderer, mkRenderer, eclipseScene, eclipsePayload, Vec3.sub, Vec3.scale,
      if_true]
    norm_num
  have hlight : 0 ≤ eclipsePayload.normal.dot
      ((eclipseRenderer.scene.lightPositions 0).sub eclipsePayload.hitPoint) := by
    simp only [eclipseRenderer, mkRenderer, eclipseScene, eclipsePayload, Vec3.sub, Vec3.dot]
    norm_num
  have h := shadowRay_no_self_hit qMath eclipseRenderer eclipsePayload 0 0 hr hP hlight
    (qMath_sqrt_nonneg _) (qMath_sqrt_nonneg _)
  exact ⟨hr, hlight, h.2.1, h.2.2⟩

/-! ## C14: the worked example -/

/-- An exact square root returns `r` at `r * r` for `r >= 0`. -/
theorem exactSqrt_mul_self (M : FloatMath K) (hM : ExactSqrt M) (r : K) (hr : 0 ≤ r) :
    M.sqrt (r * r) = r := by
  obtain ⟨h0, hsq⟩ := hM (r * r) (mul_self_nonneg r)
  have h1 : (M.sqrt (r * r) - r) * (M.sqrt (r * r) + r) = 0 := by
    linear_combination hsq
  rcases mul_eq_zero.mp h1 with h | h
  · linarith
  · have e1 : M.sqrt (r * r) = 0 := by linarith
    have e2 : r = 0 := by linarith
    rw [e1, e2]

theorem worked_sphereScan (M : FloatMath K) (hM : ExactSqrt M) :
    sphereScan M workedRenderer (primaryRay workedRenderer 0 0) = (4, some 0) := by
  have hs : (workedRenderer : Renderer K).scene.sphereCount = 1 := rfl
  have hd : sphereDelta (workedRenderer : Renderer K) (primaryRay workedRenderer 0 0) 0 =
      2 * 2 := by
    simp only [sphereDelta, discriminant, workedRenderer, workedScene, primaryRay,
      Camera.getRayOrigin, Vec3.sub, Vec3.dot]
    norm_num
  have ht : sphereT M workedRenderer (primaryRay workedRenderer 0 0) 0 = 4 := by
    have hd2 := hd
    unfold sphereDelta at hd2
    unfold sphereT nearRoot
    rw [hd2, exactSqrt_mul_self M hM 2 (by norm_num)]
    simp only [workedRenderer, workedScene, primaryRay, Camera.getRayOrigin, Vec3.sub, Vec3.dot]
    norm_num
  unfold sphereScan
  rw [hs, scan_succ]
  unfold scanStep
  rw [if_pos, ht]
  refine ⟨⟨by rw [hd]; norm_num, by rw [ht]; norm_num⟩, ?_⟩
  rw [ht]
  show (4 : K) < FLT_MAX
  unfold FLT_MAX
  norm_num

theorem worked_lightScan (M : FloatMath K) :
    (lightScan M workedRenderer (primaryRay workedRenderer 0 0)).2 = none := by
  have hl : (workedRenderer : Renderer K).scene.lightCount = 1 := rfl
  have hd : lightDelta (workedRenderer : Renderer K) (primaryRay workedRenderer 0 0) 0 < 0 := by
    simp only [lightDelta, discriminant, workedRenderer, workedScene, primaryRay,
      Camera.getRayOrigin, Vec3.sub, Vec3.dot]
    norm_num
  unfold lightScan
  rw [hl, scan_succ]
  unfold scanStep
  rw [if_neg]
  · rfl
  · rintro ⟨⟨h, _⟩, _⟩
    exact absurd hd (not_lt.mpr h)

/-- The image-centre ray of the worked example hits sphere 0 at distance 4, at `(0, 0, 1)`
with normal `(0, 0, 1)`. -/
theorem worked_trace (M : FloatMath K) (hM : ExactSqrt M) (u : HitPayload K) :
    traceRayFromPixel M workedRenderer u (primaryRay workedRenderer 0 0) = workedPayload := by
  have h := traceRayFromPixel_sphere M workedRenderer u (primaryRay workedRenderer 0 0) 0
    (worked_lightScan M) (by rw [worked_sphereScan M hM])
  rw [worked_sphereScan M hM] at h
  rw [h]
  have hv : ((primaryRay (workedRenderer : Renderer K) 0 0).origin.add
      ((primaryRay (workedRenderer : Renderer K) 0 0).direction.scale 4)).sub
      ((workedRenderer : Renderer K).scene.spherePositions 0) = (⟨0, 0, 1⟩ : Vec3 K) := by
    simp only [workedRenderer, workedScene, primaryRay, Camera.getRayOrigin, Vec3.sub, Vec3.add,
      Vec3.scale]
    norm_num
  have hpt : (primaryRay (workedRenderer : Renderer K) 0 0).origin.add
      ((primaryRay (workedRenderer : Renderer K) 0 0).direction.scale 4) =
      (⟨0, 0, 1⟩ : Vec3 K) := by
    simp only [workedRenderer, workedScene, primaryRay, Camera.getRayOrigin, Vec3.add,
      Vec3.scale]
    norm_num
  have hn : glmNormalize M (⟨0, 0, 1⟩ : Vec3 K) = ⟨0, 0, 1⟩ := by
    have hdot : (⟨0, 0, 1⟩ : Vec3 K).dot ⟨0, 0, 1⟩ = 1 * 1 := by
      simp only [Vec3.dot]; norm_num
    unfold glmNormalize
    rw [hdot, exactSqrt_mul_self M hM 1 (by norm_num)]
    simp only [Vec3.scale]
    norm_num
  show closestHit M workedRenderer u (primaryRay workedRenderer 0 0) ((0 : Nat) : Int) 4 =
    workedPayload
  simp only [closestHit, Int.toNat_ofNat]
  rw [hv, hn, hpt]
  rfl

theorem worked_rayToLight (M : FloatMath K) :
    rayToLight M workedRenderer workedPayload 0 = workedShadowRay M := by
  have hv : ((workedRenderer : Renderer K).scene.lightPositions 0).sub
      (workedPayload : HitPayload K).hitPoint = (⟨0, 3, -1⟩ : Vec3 K) := by
    simp only [workedRenderer, workedScene, workedPayload, Vec3.sub]
    norm_num
  have hdot : (⟨0, 3, -1⟩ : Vec3 K).dot ⟨0, 3, -1⟩ = 10 := by
    simp only [Vec3.dot]; norm_num
  unfold rayToLight glmNormalize
  rw [hv, hdot]
  simp only [workedPayload, workedShadowRay, Vec3.add, Vec3.scale]
  norm_num

theorem worked_distanceToLight (M : FloatMath K) :
    glmLength M (((workedRenderer : Renderer K).scene.lightPositions 0).sub
      (workedPayload : HitPayload K).hitPoint) = M.sqrt 10 := by
  have hdot : (((workedRenderer : Renderer K).scene.lightPositions 0).sub
      (workedPayload : HitPayload K).hitPoint).dot
      (((workedRenderer : Renderer K).scene.lightPositions 0).sub
        (workedPayload : HitPayload K).hitPoint) = 10 := by
    simp only [workedRenderer, workedScene, workedPayload, Vec3.sub, Vec3.dot]
    norm_num
  unfold glmLength
  rw [hdot]

/-- With an exact square root, `w = 1 / sqrt(10)` is positive and `w * w = 1 / 10`. -/
theorem worked_invSqrt (M : FloatMath K) (hM : ExactSqrt M) :
    0 < M.sqrt 10 ∧ M.sqrt 10 * M.sqrt 10 = 10 ∧ 0 < 1 / M.sqrt 10 ∧
    (1 / M.sqrt 10) * (1 / M.sqrt 10) = 1 / 10 ∧ 1 / M.sqrt 10 = M.sqrt 10 / 10 := by
  obtain ⟨h0, hsq⟩ := hM 10 (by norm_num)
  have hpos : 0 < M.sqrt 10 := by
    rcases lt_or_eq_of_le h0 with h | h
    · exact h
    · rw [← h] at hsq
      norm_num at hsq
  have hne : M.sqrt 10 ≠ 0 := ne_of_gt hpos
  refine ⟨hpos, hsq, one_div_pos.mpr hpos, ?_, ?_⟩
  · field_simp
    linear_combination -hsq
  · field_simp
    linear_combination -hsq

theorem worked_shadowDelta (M : FloatMath K) (hM : ExactSqrt M) :
    sphereDelta (workedRenderer : Renderer K) (workedShadowRay M) 0 =
      399279964 / 1000000000 := by
  obtain ⟨_, _, _, hw2, _⟩ := worked_invSqrt M hM
  simp only [sphereDelta, discriminant, workedRenderer, workedScene, workedShadowRay, Vec3.sub,
    Vec3.dot, Vec3.scale]
  generalize 1 / M.sqrt 10 = w at hw2
  linear_combination (399279964 / 100000000 : K) * hw2

theorem worked_shadowT (M : FloatMath K) (hM : ExactSqrt M) :
    sphereT M (workedRenderer : Renderer K) (workedShadowRay M) 0 =
      (10001 / 5000 * (1 / M.sqrt 10) - M.sqrt (399279964 / 1000000000)) / 2 := by
  obtain ⟨_, _, _, hw2, _⟩ := worked_invSqrt M hM
  have hd := worked_shadowDelta M hM
  unfold sphereDelta at hd
  unfold sphereT nearRoot
  rw [hd]
  have ha : (workedShadowRay M).direction.dot (workedShadowRay M).direction = 1 := by
    simp only [workedShadowRay, Vec3.dot, Vec3.scale]
    generalize 1 / M.sqrt 10 = w at hw2
    linear_combination (10 : K) * hw2
  have hb : ((workedShadowRay M).origin.sub
      ((workedRenderer : Renderer K).scene.spherePositions 0)).dot
      (workedShadowRay M).direction = -(10001 / 10000 * (1 / M.sqrt 10)) := by
    simp only [workedRenderer, workedScene, workedShadowRay, Vec3.sub, Vec3.dot, Vec3.scale]
    ring
  rw [ha, hb]
  ring

/-- In the worked example the shadow ray re-enters sphere 0: its near root lies strictly
between 0 and the distance `sqrt(10)` to the light. -/
theorem worked_shadowT_bounds (M : FloatMath K) (hM : ExactSqrt M) :
    0 < sphereT M (workedRenderer : Renderer K) (workedShadowRay M) 0 ∧
    sphereT M (workedRenderer : Renderer K) (workedShadowRay M) 0 < M.sqrt 10 ∧
    sphereT M (workedRenderer : Renderer K) (workedShadowRay M) 0 < FLT_MAX := by
  obtain ⟨hs, hss, hw, hw2, hws⟩ := worked_invSqrt M hM
  obtain ⟨hd0, hdsq⟩ := hM (399279964 / 1000000000) (by norm_num)
  rw [worked_shadowT M hM]
  generalize M.sqrt (399279964 / 1000000000) = sd at hd0 hdsq
  have hlt4 : M.sqrt 10 < 4 := by nlinarith
  rw [hws]
  generalize M.sqrt 10 = s at hs hss hlt4
  have h1 : sd < 10001 / 5000 * (s / 10) := by
    by_contra hneg
    have hge := not_lt.mp hneg
    have hcw : 0 ≤ 10001 / 5000 * (s / 10) := by positivity
    have := mul_self_le_mul_self hcw hge
    nlinarith
  refine ⟨by linarith, by linarith, ?_⟩
  have : (4 : K) < FLT_MAX := by
    unfold FLT_MAX
    norm_num
  linarith

theorem worked_shadowScan (M : FloatMath K) (hM : ExactSqrt M) :
    (shadowScan M workedRenderer (workedShadowRay M) (M.sqrt 10)).2 = some 0 ∧
    (shadowScan M workedRenderer (workedShadowRay M) (M.sqrt 10)).1 =
      sphereT M (workedRenderer : Renderer K) (workedShadowRay M) 0 := by
  have hs : (workedRenderer : Renderer K).scene.sphereCount = 1 := rfl
  obtain ⟨h0, h1, h2⟩ := worked_shadowT_bounds M hM
  have hd := worked_shadowDelta M hM
  have hstep : sphereOkBelow M workedRenderer (workedShadowRay M) (M.sqrt 10) 0 ∧
      sphereT M (workedRenderer : Renderer K) (workedShadowRay M) 0 <
        (scan (sphereOkBelow M workedRenderer (workedShadowRay M) (M.sqrt 10))
          (sphereT M workedRenderer (workedShadowRay M)) FLT_MAX 0).1 := by
    refine ⟨⟨by rw [hd]; norm_num, h0, h1⟩, ?_⟩
    exact h2
  unfold shadowScan
  rw [hs, scan_succ]
  unfold scanStep
  rw [if_pos hstep]
  exact ⟨rfl, rfl⟩

/-- In the worked example the shadow ray toward the light is a SurfaceHit on sphere 0. -/
theorem worked_shadow_hit (M : FloatMath K) (hM : ExactSqrt M) (u : HitPayload K) :
    IsSurfaceHit (traceRayFromHitpoint M workedRenderer u
      (rayToLight M workedRenderer
        (traceRayFromPixel M workedRenderer u (primaryRay workedRenderer 0 0)) 0)
      (glmLength M (((workedRenderer : Renderer K).scene.lightPositions 0).sub
        (traceRayFromPixel M workedRenderer u (primaryRay workedRenderer 0 0)).hitPoint))) 0 := by
  obtain ⟨hsel, hdist⟩ := worked_shadowScan M hM
  rw [worked_trace M hM u, worked_rayToLight, worked_distanceToLight,
    traceRayFromHitpoint_sphere M workedRenderer u (workedShadowRay M) (M.sqrt 10) 0 hsel,
    hdist]
  exact ⟨(worked_shadowT_bounds M hM).1, rfl⟩

/-- In the worked example the pixel is the clamped ambient term. -/
theorem worked_rayGen (M : FloatMath K) (hM : ExactSqrt M) (u : HitPayload K) :
    rayGen M workedRenderer u 0 0 = ⟨1 / 5, 1 / 5, 1 / 5, 1⟩ := by
  have hhit := worked_shadow_hit M hM u
  have htr := worked_trace M hM u
  have hl : (workedRenderer : Renderer K).scene.lightCount = 1 := rfl
  have hstep : ∀ c, lightLoopStep M workedRenderer u
      (traceRayFromPixel M workedRenderer u (primaryRay workedRenderer 0 0)) c 0 = c := by
    intro c
    unfold lightLoopStep
    simp only [not_lt.mpr (le_of_lt hhit.1), if_false]
  have hd : (traceRayFromPixel M workedRenderer u (primaryRay workedRenderer 0 0)).hitDistance
      = 4 := by rw [htr]; rfl
  have hidx : (traceRayFromPixel M workedRenderer u (primaryRay workedRenderer 0 0)).objectIndex
      = 0 := by rw [htr]; rfl
  unfold rayGen
  simp only [hd, hidx, hl, List.range_succ, List.range_zero, List.nil_append, List.foldl_cons,
    List.foldl_nil, hstep]
  rw [if_neg (by norm_num), if_neg (by norm_num)]
  simp only [workedRenderer, workedScene, Vec4.clamp, Vec4.ofVec3, Vec3.mul, Vec3.scale,
    glmClamp, glmMin, glmMax, Int.toNat_zero]
  norm_num

/-- The real square root is exact at every non-negative real. -/
theorem real_exactSqrt :
    ExactSqrt ({ sqrt := Real.sqrt, pow := fun x y => x ^ y } : FloatMath ℝ) :=
  fun x hx => ⟨Real.sqrt_nonneg x, Real.mul_self_sqrt hx⟩

/-- C14 (as stated, refuted): over the reals, in the worked example (sphere of radius 1 at the
origin, light at `(0, 3, 0)`, ray from `(0, 0, 5)` along `(0, 0, -1)`), the shadow ray cast
from `hitPoint + 1e-4 * normal` toward the light is not reported Miss by
`traceRayFromHitpoint`: the light lies below the tangent plane at `(0, 0, 1)` and the shadow
ray re-enters sphere 0. -/
theorem workedExample_shadow_not_miss :
    ¬IsMiss (traceRayFromHitpoint
      ({ sqrt := Real.sqrt, pow := fun x y => x ^ y } : FloatMath ℝ) workedRenderer
      { hitDistance := 0, objectIndex := 0, hitPoint := ⟨0, 0, 0⟩, normal := ⟨0, 0, 0⟩ }
      (rayToLight ({ sqrt := Real.sqrt, pow := fun x y => x ^ y } : FloatMath ℝ) workedRenderer
        (traceRayFromPixel ({ sqrt := Real.sqrt, pow := fun x y => x ^ y } : FloatMath ℝ)
          workedRenderer
          { hitDistance := 0, objectIndex := 0, hitPoint := ⟨0, 0, 0⟩, normal := ⟨0, 0, 0⟩ }
          (primaryRay workedRenderer 0 0)) 0)
      (glmLength ({ sqrt := Real.sqrt, pow := fun x y => x ^ y } : FloatMath ℝ)
        (((workedRenderer : Renderer ℝ).scene.lightPositions 0).sub
          (traceRayFromPixel ({ sqrt := Real.sqrt, pow := fun x y => x ^ y } : FloatMath ℝ)
            workedRenderer
            { hitDistance := 0, objectIndex := 0, hitPoint := ⟨0, 0, 0⟩, normal := ⟨0, 0, 0⟩ }
            (primaryRay workedRenderer 0 0)).hitPoint))) := by
  have h := worked_shadow_hit _ real_exactSqrt
    ({ hitDistance := 0, objectIndex := 0, hitPoint := ⟨0, 0, 0⟩, normal := ⟨0, 0, 0⟩ } :
      HitPayload ℝ)
  exact not_lt.mpr (le_of_lt h.1)

/-- C14 (amended): in the worked example (one sphere at the origin with radius 1 and albedo
`(1, 1, 1)`, one light at `(0, 3, 0)`, image-centre ray from `(0, 0, 5)` along `(0, 0, -1)`),
with exact square roots, the primary ray yields a SurfaceHit on sphere 0 with hitDistance 4,
hitPoint `(0, 0, 1)` and normal `(0, 0, 1)`; the light lies below the tangent plane at that
point (`N.(lightPos - P) < 0`), the shadow ray cast from `hitPoint + 1e-4 * normal` toward it
is reported as a SurfaceHit on sphere 0 by `traceRayFromHitpoint`, so the light's Phong term
is not added and the pixel is the clamped ambient term. -/
theorem workedExample_outcome (M : FloatMath K) (hM : ExactSqrt M) (u : HitPayload K) :
    primaryRay (workedRenderer : Renderer K) 0 0 =
      { origin := ⟨0, 0, 5⟩, direction := ⟨0, 0, -1⟩ } ∧
    traceRayFromPixel M workedRenderer u (primaryRay workedRenderer 0 0) = workedPayload ∧
    IsSurfaceHit (traceRayFromPixel M workedRenderer u (primaryRay workedRenderer 0 0)) 0 ∧
    (workedPayload : HitPayload K).normal.dot
      (((workedRenderer : Renderer K).scene.lightPositions 0).sub
        (workedPayload : HitPayload K).hitPoint) < 0 ∧
    IsSurfaceHit (traceRayFromHitpoint M workedRenderer u
      (rayToLight M workedRenderer
        (traceRayFromPixel M workedRenderer u (primaryRay workedRenderer 0 0)) 0)
      (glmLength M (((workedRenderer : Renderer K).scene.lightPositions 0).sub
        (traceRayFromPixel M workedRenderer u (primaryRay workedRenderer 0 0)).hitPoint))) 0 ∧
    rayGen M workedRenderer u 0 0 =
      (Vec4.ofVec3 ((workedRenderer.ambientColor.scale workedRenderer.kAmbient).mul
        (workedRenderer.scene.sphereAlbedos 0)) 1).clamp 0 1 ∧
    rayGen M workedRenderer u 0 0 = ⟨1 / 5, 1 / 5, 1 / 5, 1⟩ := by
  have htr := worked_trace M hM u
  have hgen := worked_rayGen M hM u
  refine ⟨rfl, htr, ?_, ?_, worked_shadow_hit M hM u, ?_, hgen⟩
  · rw [htr]
    refine ⟨?_, rfl⟩
    show (0 : K) < 4
    norm_num
  · simp only [workedRenderer, workedScene, workedPayload, Vec3.sub, Vec3.dot]
    norm_num
  · rw [hgen]
    simp only [workedRenderer, workedScene, Vec4.clamp, Vec4.ofVec3, Vec3.mul, Vec3.scale,
      glmClamp, glmMin, glmMax]
    norm_num

/-- Witness for C14: the real square root is exact, and over the reals the image-centre pixel
of the worked example is the clamped ambient term `(1/5, 1/5, 1/5, 1)`. -/
theorem workedExample_outcome_witness :
    ExactSqrt ({ sqrt := Real.sqrt, pow := fun x y => x ^ y } : FloatMath ℝ) ∧
    rayGen ({ sqrt := Real.sqrt, pow := fun x y => x ^ y } : FloatMath ℝ) workedRenderer
      { hitDistance := 0, objectIndex := 0, hitPoint := ⟨0, 0, 0⟩, normal := ⟨0, 0, 0⟩ } 0 0 =
      ⟨1 / 5, 1 / 5, 1 / 5, 1⟩ :=
  ⟨real_exactSqrt, (workedExample_outcome _ real_exactSqrt _).2.2.2.2.2.2⟩

/-! ## C15: the GPU path and the CPU path produce the same buffer -/

/-- Stores whose value at index `k` is `f k` and that target every index below `n` turn any
buffer of length `n` into the table of `f`. -/
theorem applyWrites_table (f : Nat → Nat) (n : Nat) (ws : List (Nat × Nat)) (buf : List Nat)
    (hlen : buf.length = n) (hval : ∀ w ∈ ws, w.2 = f w.1)
    (hcover : ∀ k, k < n → ∃ w ∈ ws, w.1 = k) :
    applyWrites buf ws = (List.range n).map f := by
  apply List.ext_getElem?
  intro k
  by_cases hk : k < n
  · rw [List.getElem?_map, List.getElem?_range hk]
    apply applyWrites_getElem f k ws buf (by rw [hlen]; exact hk)
    · intro w hw hwk
      rw [hval w hw, hwk]
    · exact Or.inl (hcover k hk)
  · rw [List.getElem?_eq_none (by rw [applyWrites_length, hlen]; omega),
      List.getElem?_eq_none (by simp; omega)]

/-- The CPU path fills a buffer of `width * height` entries with the expected image. -/
theorem renderCPU_expected [FloorRing K] (M : FloatMath K) (R : Renderer K) (u : HitPayload K)
    (hsize : R.width * R.height ≤ 2 ^ 31 - 1) (imageData : List Nat)
    (hlen : imageData.length = R.width * R.height) :
    renderCPU M R u imageData = expectedImage M R u := by
  unfold renderCPU expectedImage
  apply applyWrites_table (fun idx => toRGBA (rayGen M R u (idx / R.width) (idx % R.width)))
    (R.width * R.height) _ _ hlen
  · intro w hw
    exact (mem_renderWrites M R u hsize w hw).2
  · intro k hk
    have hmem : k ∈ (renderWrites M R u).map Prod.fst := by
      rw [renderWrites_fst M R u hsize]
      exact List.mem_range.mpr hk
    obtain ⟨w, hw, hwk⟩ := List.mem_map.mp hmem
    exact ⟨w, hw, hwk⟩

/-- The values that `render` computes for the GPU dispatch when `4 * width * height` fits a
32-bit `int`: the pixel count, the byte size and enough blocks to cover every pixel. -/
theorem gpu_dispatch_values (width height : Nat) (hsize : 4 * (width * height) ≤ 2 ^ 31 - 1) :
    toInt32 ((width : Int) * height) = ((width * height : Nat) : Int) ∧
    toInt32 (toInt32 ((width : Int) * height) * 4) / 4 = ((width * height : Nat) : Int) ∧
    width * height ≤ (blocksPerGrid width height).toNat * 1024 := by
  have hn : ((width : Int) * height) = ((width * height : Nat) : Int) := by push_cast; rfl
  have hb := blocksPerGrid_eq (width : Int) height (by rw [hn]; omega) (by rw [hn]; omega)
  rw [hb, hn]
  generalize width * height = n at hsize
  unfold toInt32
  refine ⟨by omega, by omega, by omega⟩

/-- Below the overflow of `int size`: for every scene, camera state and viewport size whose
buffer size in bytes fits a 32-bit `int`, the buffer produced by `render()` in GPU mode (the
kernel, in any order of its threads, followed by the device-to-host copy) equals, entry for
entry, the buffer produced by `render()` in CPU mode; both are the expected image. -/
theorem render_gpu_eq_cpu [FloorRing K] (M : FloatMath K) (R : Renderer K) (u : HitPayload K)
    (cudaImage imageData : List Nat) (hsize : 4 * (R.width * R.height) ≤ 2 ^ 31 - 1)
    (hdev : cudaImage.length = R.width * R.height)
    (hhost : imageData.length = R.width * R.height) :
    renderGPU M R u cudaImage imageData = renderCPU M R u imageData ∧
    renderGPU M R u cudaImage imageData = expectedImage M R u ∧
    (∀ ws : List (Nat × Nat),
      ws.Perm (kernelWrites M R u (blocksPerGrid R.width R.height).toNat 1024
        (toInt32 ((R.width : Int) * R.height)).toNat R.width) →
      renderGPUWith R ws cudaImage imageData = renderCPU M R u imageData) := by
  obtain ⟨hcount, hbytes, hblocks⟩ := gpu_dispatch_values R.width R.height hsize
  have hcpu := renderCPU_expected M R u (by omega) imageData hhost
  have hany : ∀ ws : List (Nat × Nat),
      ws.Perm (kernelWrites M R u (blocksPerGrid R.width R.height).toNat 1024
        (toInt32 ((R.width : Int) * R.height)).toNat R.width) →
      renderGPUWith R ws cudaImage imageData = expectedImage M R u := by
    intro ws hws
    have hdevice : applyWrites cudaImage ws = expectedImage M R u := by
      unfold expectedImage
      apply applyWrites_table
        (fun idx => toRGBA (rayGen M R u (idx / R.width) (idx % R.width)))
        (R.width * R.height) _ _ hdev
      · intro w hw
        have hw2 := hws.mem_iff.mp hw
        unfold kernelWrites at hw2
        obtain ⟨t, _, ht⟩ := List.mem_filterMap.mp hw2
        split at ht
        · simp only [Option.some.injEq] at ht
          rw [← ht]
        · exact absurd ht (by simp)
      · intro k hk
        refine ⟨(k, toRGBA (rayGen M R u (k / R.width) (k % R.width))), ?_, rfl⟩
        apply hws.mem_iff.mpr
        unfold kernelWrites
        apply List.mem_filterMap.mpr
        refine ⟨k, List.mem_range.mpr (by omega), ?_⟩
        rw [hcount, Int.toNat_ofNat, if_pos hk]
    unfold renderGPUWith copyToHost
    simp only [hbytes, Int.toNat_ofNat, hdevice]
    have hl : (expectedImage M R u).length = R.width * R.height := by
      unfold expectedImage; simp
    rw [List.take_of_length_le (by omega), List.drop_of_length_le (by omega),
      List.append_nil]
  have hgpu : renderGPU M R u cudaImage imageData = expectedImage M R u :=
    hany _ (List.Perm.refl _)
  refine ⟨by rw [hgpu, hcpu], hgpu, ?_⟩
  intro ws hws
  rw [hany ws hws, hcpu]

/-- The GPU path on the lit viewport of 2 rows and 3 columns, with the threads of the kernel
in index order and in reverse order: the host buffer ends as the CPU path leaves it, the
expected image. -/
theorem render_gpu_eq_cpu_lit :
    4 * (litRenderer.width * litRenderer.height) ≤ 2 ^ 31 - 1 ∧
    renderGPU qMath litRenderer zeroPayload [7, 7, 7, 7, 7, 7] [1, 2, 3, 4, 5, 6] =
      renderCPU qMath litRenderer zeroPayload [1, 2, 3, 4, 5, 6] ∧
    renderGPU qMath litRenderer zeroPayload [7, 7, 7, 7, 7, 7] [1, 2, 3, 4, 5, 6] =
      [0x7F3F1FFF, 0x7F3F1FFF, 0x7F3F1FFF, 0x7F3F1FFF, 0xB27252FF, 0x7F3F1FFF] ∧
    renderGPUWith litRenderer
      (kernelWrites qMath litRenderer zeroPayload
        (blocksPerGrid litRenderer.width litRenderer.height).toNat 1024
        (toInt32 ((litRenderer.width : Int) * litRenderer.height)).toNat
        litRenderer.width).reverse
      [7, 7, 7, 7, 7, 7] [1, 2, 3, 4, 5, 6] =
      renderCPU qMath litRenderer zeroPayload [1, 2, 3, 4, 5, 6] := by
  have hsize : 4 * (litRenderer.width * litRenderer.height) ≤ 2 ^ 31 - 1 := by decide
  have h := render_gpu_eq_cpu qMath litRenderer zeroPayload [7, 7, 7, 7, 7, 7]
    [1, 2, 3, 4, 5, 6] hsize rfl rfl
  refine ⟨hsize, h.1, ?_, h.2.2 _ (List.reverse_perm _)⟩
  rw [← lit_expectedImage]
  exact h.2.1

/-! ## C15: the byte size of the copy overflows `int` on a large viewport -/

/-- Pixel `(0, 0)` of the huge viewport looks at the light and has its colour. -/
theorem huge_rayGen :
    rayGen qMath hugeViewport zeroPayload 0 0 = ⟨1 / 2, 1 / 4, 1 / 8, 1⟩ := by
  have hray : primaryRay hugeViewport 0 0 = awayRay := rfl
  have htr : traceRayFromPixel qMath hugeViewport zeroPayload awayRay =
      lightHit zeroPayload awayRay ((0 : Nat) : Int) :=
    traceRayFromPixel_light qMath litRenderer zeroPayload awayRay 0 lit_away_lightScan
  unfold rayGen
  simp only [hray, htr, lightHit_hitDistance, lightHit_objectIndex, lt_irrefl, if_false,
    if_true]
  rfl

/-- In the huge viewport `pixelsCount * 4 = 2^31` wraps to `-2^31` in `int size`. -/
theorem huge_size :
    toInt32 (toInt32 ((hugeViewport.width : Int) * hugeViewport.height) * 4) = -2 ^ 31 := by
  decide

/-- In the huge viewport the copy to the host transfers nothing, whatever the kernel stored in
the device buffer. -/
theorem huge_copy (ws : List (Nat × Nat)) (cudaImage imageData : List Nat) :
    renderGPUWith hugeViewport ws cudaImage imageData = imageData := by
  have h0 : ((-2 ^ 31 : Int) / 4).toNat = 0 := by decide
  unfold renderGPUWith copyToHost
  simp only [huge_size, h0, List.take_zero, List.drop_zero, List.nil_append]

theorem zeroBuffer_length : zeroBuffer.length = hugeViewport.width * hugeViewport.height := by
  unfold zeroBuffer
  rw [List.length_replicate]
  rfl

theorem zeroBuffer_head : zeroBuffer[0]? = some 0 := by
  unfold zeroBuffer
  rw [List.getElem?_replicate, if_pos (by norm_num)]

/-- The first entry of the expected image of the huge viewport is the light's colour. -/
theorem huge_expected_head :
    (expectedImage qMath hugeViewport zeroPayload)[0]? = some 0x7F3F1FFF := by
  have hpos : 0 < hugeViewport.width * hugeViewport.height := by
    show 0 < 32768 * 16384
    norm_num
  have hpix : rayGen qMath hugeViewport zeroPayload (0 / hugeViewport.width)
      (0 % hugeViewport.width) = ⟨1 / 2, 1 / 4, 1 / 8, 1⟩ := by
    rw [Nat.zero_div, Nat.zero_mod]
    exact huge_rayGen
  unfold expectedImage
  rw [List.getElem?_map, List.getElem?_range hpos, Option.map_some', hpix, lit_toRGBA_light]

/-- C15, the failing input: in the viewport of 32768 x 16384 pixels the pixel count `2^29`
fits an `int` but the byte size `pixelsCount * 4 = 2^31` wraps to `-2^31` in `int size`, so
the copy to the host transfers nothing, whatever the kernel stored in the device buffer: in
GPU mode a zeroed host buffer stays zeroed, while in CPU mode `render()` stores the expected
image, whose entry 0 is the light's colour `0x7F3F1FFF`. The two buffers differ. -/
theorem render_gpu_size_overflow :
    hugeViewport.width * hugeViewport.height = 2 ^ 29 ∧
    toInt32 ((hugeViewport.width : Int) * hugeViewport.height) = 2 ^ 29 ∧
    toInt32 (toInt32 ((hugeViewport.width : Int) * hugeViewport.height) * 4) = -2 ^ 31 ∧
    (∀ (ws : List (Nat × Nat)) (cudaImage : List Nat),
      renderGPUWith hugeViewport ws cudaImage zeroBuffer = zeroBuffer) ∧
    (renderGPU qMath hugeViewport zeroPayload zeroBuffer zeroBuffer)[0]? = some 0 ∧
    (renderCPU qMath hugeViewport zeroPayload zeroBuffer)[0]? = some 0x7F3F1FFF ∧
    renderGPU qMath hugeViewport zeroPayload zeroBuffer zeroBuffer ≠
      renderCPU qMath hugeViewport zeroPayload zeroBuffer := by
  have hgpu : renderGPU qMath hugeViewport zeroPayload zeroBuffer zeroBuffer = zeroBuffer :=
    huge_copy _ zeroBuffer zeroBuffer
  have hcpu : renderCPU qMath hugeViewport zeroPayload zeroBuffer =
      expectedImage qMath hugeViewport zeroPayload :=
    renderCPU_expected qMath hugeViewport zeroPayload (by decide) zeroBuffer zeroBuffer_length
  have h0 : (renderGPU qMath hugeViewport zeroPayload zeroBuffer zeroBuffer)[0]? = some 0 := by
    rw [hgpu]
    exact zeroBuffer_head
  have h1 : (renderCPU qMath hugeViewport zeroPayload zeroBuffer)[0]? = some 0x7F3F1FFF := by
    rw [hcpu]
    exact huge_expected_head
  refine ⟨by decide, by decide, huge_size, fun ws cudaImage => huge_copy ws cudaImage zeroBuffer,
    h0, h1, ?_⟩
  intro h
  rw [h, h1] at h0
  exact absurd (Option.some.inj h0) (by decide)

end Model

end Raycast
